import Mathlib

/-! The volume group of storaged: `src/volumegroup.c`.

A shallow embedding of the volume-group object of storaged's LVM support
(`UlVolumeGroup`): the reconciliation of the in-memory logical volumes with the
output of `udisks-lvm-helper -b show` (`update_with_variant`), the poll
scheduler (`poll_in_main`, `poll_timeout`, `poll_now`, `poll_with_variant`), the
completion closures of the create and rename methods, and the methods that add
and remove member devices and create volumes.

Conventions of the embedding.

* A nullable `const gchar *` is an `Option String`; C strings are `String`s.
* A `GHashTable` keyed by strings is an association list without repeated
  keys; its iteration order, which GLib leaves unspecified, is the list order.
* Calls into collaborators that are only observed from outside (publishing,
  disposing, signals, spawning) are appended to a log of `Call`s.
* Reference counting (`g_object_ref` / `g_object_unref`, `g_free`) is not
  modelled, except for the completion closure, whose release is what the
  handlers of the create and rename methods depend on.
* A `double` is represented by the rational number that is its value. The two
  operations the file makes on doubles are modelled with the rounding of
  IEEE 754 binary64 in its default mode, to the nearest double with ties to
  the even significand: the conversion of a `guint64` (`double_of_uint64`)
  and the division (`nearest_double`). Quotients below `2 ^ (-76)` other
  than zero, and so the subnormal range, are outside the model; the one
  division of the file, of a non-negative integer by `100000000.0`, has none.
* A value of type `t` of a `GVariant` is a `guint64`, a natural number below
  `2 ^ 64`.
-/

namespace VolumeGroup

/-! ## Strings -/

/-- The call `g_str_has_prefix (str, prefix)`. -/
def g_str_has_prefix (str pre : String) : Bool :=
  pre.data.isPrefixOf str.data

/-- The test `strstr (haystack, needle) != NULL`: the needle occurs at some
position of the haystack. The needles of this file are ASCII, for which an
occurrence among the bytes of a UTF-8 string is an occurrence among its
characters. -/
def strstr (haystack needle : String) : Bool :=
  haystack.data.tails.any (fun t => needle.data.isPrefixOf t)

/-- The function `lv_is_pvmove_volume`. -/
def lv_is_pvmove_volume (name : Option String) : Bool :=
  match name with
  | none => false
  | some n => g_str_has_prefix n "pvmove"

/-- The function `lv_is_visible`. -/
def lv_is_visible (name : Option String) : Bool :=
  match name with
  | none => false
  | some n =>
    !strstr n "_mlog"
      && !strstr n "_mimage"
      && !strstr n "_rimage"
      && !strstr n "_rmeta"
      && !strstr n "_tdata"
      && !strstr n "_tmeta"
      && ! g_str_has_prefix n "pvmove"
      && ! g_str_has_prefix n "snapshot"

/-! ## Variants -/

/-- The values found in the `a{sv}` dictionaries of the helper's output: a
string (`s`), a `guint64` (`t`) or a boolean (`b`). -/
inductive GVariant where
  | s (str : String)
  | t (num : Nat)
  | b (flag : Bool)
  deriving DecidableEq, Repr

/-- An `a{sv}` dictionary, in the order of its entries. -/
abbrev Dict := List (String × GVariant)

/-- The call `g_variant_lookup (d, key, "&s", &str)`: the value of the first entry with
this key, when it is a string. -/
def g_variant_lookup_s (d : Dict) (key : String) : Option String :=
  match d.lookup key with
  | some (GVariant.s v) => some v
  | _ => none

/-- The call `g_variant_lookup (d, key, "t", &num)`. -/
def g_variant_lookup_t (d : Dict) (key : String) : Option Nat :=
  match d.lookup key with
  | some (GVariant.t v) => some v
  | _ => none

/-- The dictionary printed by `udisks-lvm-helper -b show`: the scalar entries
of the group, and the entries `lvs` and `pvs` of type `aa{sv}` when present. -/
structure Info where
  props : Dict
  lvs : Option (List Dict)
  pvs : Option (List Dict)
  deriving DecidableEq, Repr

/-! ## Hash tables -/

/-- The function `g_hash_table_lookup`. -/
def g_hash_table_lookup {V : Type} (t : List (String × V)) (key : String) : Option V :=
  match t with
  | [] => none
  | (k, v) :: r => if k = key then some v else g_hash_table_lookup r key

/-- The function `g_hash_table_contains`. -/
def g_hash_table_contains {V : Type} (t : List (String × V)) (key : String) : Bool :=
  (g_hash_table_lookup t key).isSome

/-- The function `g_hash_table_insert`: the value of an existing key is replaced, a new key
is added. -/
def g_hash_table_insert {V : Type} (t : List (String × V)) (key : String) (v : V) :
    List (String × V) :=
  match t with
  | [] => [(key, v)]
  | (k, w) :: r => if k = key then (k, v) :: r else (k, w) :: g_hash_table_insert r key v

/-- The keys of a table. -/
def keys {V : Type} (t : List (String × V)) : List String := t.map Prod.fst

/-! ## Objects -/

/-- Modelled from the spec: `UlLogicalVolume` is defined in `logicalvolume.c`,
which is not part of the sources at hand. Its attributes are the fields of the
snapshot record, re-applied wholesale on every update; the volume is published
by its first update. The name given to `ul_logical_volume_new` is the key the
volume is stored under in `logical_volumes`. -/
structure UlLogicalVolume where
  info : Dict
  need_publish : Bool
  deriving DecidableEq, Repr

/-- A job of the daemon, as far as `update_progress_for_device` reads and
writes it. -/
structure UDisksJob where
  operation : Option String
  objects : List String
  progress : ℚ
  progress_valid : Bool
  deriving DecidableEq, Repr

/-- The `LvmPhysicalVolumeBlock` interface of a block. -/
structure LvmPhysicalVolumeBlock where
  volume_group : Option String
  info : Dict
  deriving DecidableEq, Repr

/-- A block of the daemon, as far as this file reads and writes it: its object
path, device file and symlinks, the `DM_VG_NAME` and `DM_LV_NAME` properties of
its udev device when it has one, the logical volume last given to
`ul_block_update_lv`, and its physical-volume interface. -/
structure UlBlock where
  object_path : String
  device : String
  symlinks : List String
  udev : Option (Option String × Option String)
  lv : Option String
  pv : Option LvmPhysicalVolumeBlock
  deriving DecidableEq, Repr

/-- The `struct _UlVolumeGroup`, with the properties of its `LvmVolumeGroup`
skeleton and the object path it is exported at. -/
structure UlVolumeGroup where
  name : String
  need_publish : Bool
  logical_volumes : List (String × UlLogicalVolume)
  poll_pid : Nat
  poll_timeout_id : Nat
  poll_requested : Bool
  display_name : Option String
  uuid : Option String
  size : Nat
  free_size : Nat
  extent_size : Nat
  needs_polling : Bool
  object_path : Option String
  deriving DecidableEq, Repr

/-- The calls that leave the volume group. -/
inductive Call where
  /-- The call `ul_daemon_publish (daemon, path, FALSE, self)` for the group. -/
  | publish_group (path : String)
  /-- The call `ul_logical_volume_new (self, name)`. -/
  | new_volume (name : String)
  /-- The publication of a logical volume by `ul_logical_volume_update`. -/
  | publish_volume (name : String)
  /-- The call `g_object_run_dispose (volume)`: the volume unpublishes itself. -/
  | dispose_volume (name : String)
  /-- The call `g_message`, with the formatted text. -/
  | message (text : String)
  /-- The call `g_timeout_add (interval, poll_timeout, self)`, with the id it returned. -/
  | timeout_add (interval id : Nat)
  /-- The call `kill (pid, SIGINT)`. -/
  | kill (pid : Nat)
  /-- The call `ul_daemon_spawn_for_variant` with `poll_with_variant` as callback. -/
  | spawn_poll (pid : Nat)
  /-- The call `ul_daemon_spawn_for_variant` with `update_with_variant` as callback. -/
  | spawn_update (pid : Nat)
  deriving DecidableEq, Repr

/-- The volume group together with the parts of the daemon it works on. -/
structure World where
  self : UlVolumeGroup
  jobs : List UDisksJob
  blocks : List UlBlock
  log : List Call
  deriving DecidableEq, Repr

/-- Functions of `util.c` and `logicalvolume.c` that this file calls and whose
result it only passes on. -/
structure Env where
  /-- The function `ul_util_decode_lvm_name`. -/
  decode_lvm_name : String → String
  /-- The call `ul_util_build_object_path ("/org/freedesktop/UDisks2/lvm", name, NULL)`. -/
  build_object_path : String → String
  /-- Whether `ul_logical_volume_update` stores `TRUE` through its
  `needs_polling_ret` for a record. -/
  volume_needs_polling : Dict → Bool

/-- The function `ul_volume_group_init`, after `ul_volume_group_new (name)`. -/
def ul_volume_group_init (name : String) : UlVolumeGroup :=
  { name := name, need_publish := true, logical_volumes := [],
    poll_pid := 0, poll_timeout_id := 0, poll_requested := false,
    display_name := none, uuid := none, size := 0, free_size := 0, extent_size := 0,
    needs_polling := false, object_path := none }

/-! ## Reconciliation with a snapshot -/

/-- The function `volume_group_update_props`: each of the five properties is
set when the dictionary has an entry of the right type for it. -/
def volume_group_update_props (env : Env) (self : UlVolumeGroup) (info : Dict) : UlVolumeGroup :=
  let self := match g_variant_lookup_s info "name" with
    | some str => { self with display_name := some (env.decode_lvm_name str) }
    | none => self
  let self := match g_variant_lookup_s info "uuid" with
    | some str => { self with uuid := some str }
    | none => self
  let self := match g_variant_lookup_t info "size" with
    | some num => { self with size := num }
    | none => self
  let self := match g_variant_lookup_t info "free-size" with
    | some num => { self with free_size := num }
    | none => self
  match g_variant_lookup_t info "extent-size" with
  | some num => { self with extent_size := num }
  | none => self

/-- The call `ul_daemon_find_thing (daemon, path, UL_TYPE_BLOCK)`. -/
def ul_daemon_find_thing (blocks : List UlBlock) (path : String) : Option UlBlock :=
  blocks.find? (fun block => block.object_path == path)

/-- The test made on a block in `update_progress_for_device`: its device, or
else one of its symlinks, is `dev`. -/
def block_found (block : UlBlock) (dev : String) : Bool :=
  block.device == dev || block.symlinks.any (fun link => link == dev)

/-- The body of the inner loop of `update_progress_for_device`, for one object
of the job. -/
def update_progress_for_object (blocks : List UlBlock) (dev : String) (progress : ℚ)
    (job : UDisksJob) (object : String) : UDisksJob :=
  match ul_daemon_find_thing blocks object with
  | some block =>
    if block_found block dev then { job with progress := progress, progress_valid := true }
    else job
  | none => job

/-- The function `update_progress_for_device`, on the jobs of the daemon. -/
def update_progress_for_device (blocks : List UlBlock) (operation dev : String) (progress : ℚ)
    (jobs : List UDisksJob) : List UDisksJob :=
  jobs.map (fun job =>
    if job.operation = some operation then
      job.objects.foldl (update_progress_for_object blocks dev progress) job
    else job)

/-- The position of the leading binary digit of `n`, with fuel: the largest
`l ≤ fuel` with `2 ^ l ≤ n`, and zero for `n = 0`. -/
def floor_log2_fuel : Nat → Nat → Nat
  | 0, _ => 0
  | fuel + 1, n => if n < 2 then 0 else floor_log2_fuel fuel (n / 2) + 1

/-- The position of the leading binary digit of `n`: the largest `l` with
`2 ^ l ≤ n`, and zero for `n = 0`. -/
def floor_log2 (n : Nat) : Nat := floor_log2_fuel n n

/-- The integer nearest to `n / d`, the even one of the two when `n / d` lies
half way between them. -/
def round_half_even (n d : Nat) : Nat :=
  if 2 * (n % d) < d then n / d
  else if d < 2 * (n % d) then n / d + 1
  else if n / d % 2 = 0 then n / d else n / d + 1

/-- The conversion of the `guint64` value `c` to `double`, as C makes it for
the left operand of `copy_percent / 100000000.0`: `c` rounded to 53
significant binary digits, the value itself below `2 ^ 53`. -/
def double_of_uint64 (c : Nat) : Nat :=
  round_half_even c (2 ^ (floor_log2 c - 52)) * 2 ^ (floor_log2 c - 52)

/-- The quotient of the doubles with the values `n` and `d`, as the division of
`double`s gives it: `n / d` rounded to 53 significant binary digits. The
quotient is scaled by `2 ^ 128`, so that its 53 leading digits are those of an
integer, and `floor_log2 _ - 52` digits of that integer are rounded away. -/
def nearest_double (n d : Nat) : ℚ :=
  ((round_half_even (n * 2 ^ 128) (d * 2 ^ (floor_log2 (n * 2 ^ 128 / d) - 52))
      * 2 ^ (floor_log2 (n * 2 ^ 128 / d) - 52) : Nat) : ℚ) / 2 ^ 128

/-- The function `update_operations`: the jobs and the flag behind
`needs_polling_ret` after the call. The progress is the value of the C
expression `copy_percent / 100000000.0`, in which `copy_percent` is a
`guint64` that is converted to `double` and then divided. -/
def update_operations (blocks : List UlBlock) (lv_name : Option String) (lv_info : Dict)
    (jobs : List UDisksJob) (needs_polling : Bool) : List UDisksJob × Bool :=
  if lv_is_pvmove_volume lv_name then
    match g_variant_lookup_s lv_info "move_pv", g_variant_lookup_t lv_info "copy_percent" with
    | some move_pv, some copy_percent =>
      (update_progress_for_device blocks "lvm-vg-empty-device" move_pv
        (nearest_double (double_of_uint64 copy_percent) 100000000) jobs, true)
    | _, _ => (jobs, needs_polling)
  else (jobs, needs_polling)

/-- Modelled from the spec: `ul_logical_volume_new` of `logicalvolume.c`, a
volume without attributes that is not yet published. -/
def ul_logical_volume_new : UlLogicalVolume :=
  { info := [], need_publish := true }

/-- Modelled from the spec: `ul_logical_volume_update` of `logicalvolume.c`,
which applies the record wholesale; the volume is published from then on. -/
def ul_logical_volume_update (_volume : UlLogicalVolume) (lv_info : Dict) : UlLogicalVolume :=
  { info := lv_info, need_publish := false }

/-- The local `name` after `g_variant_lookup (lv_info, "name", "&s", &name)`,
whose result the loops do not test: the field when the record has one, and
otherwise what the variable held before, since a failed lookup stores nothing.
The variable is declared without initialiser in the body of the loop: C leaves
its value indeterminate there, and the model takes the value of the previous
iteration, which the variable shares its storage with. No such read happens
when every record has a name. -/
def lookup_name (lv_info : Dict) (name : Option String) : Option String :=
  match g_variant_lookup_s lv_info "name" with
  | some n => some n
  | none => name

/-- The variables of the loop over `lvs` in `update_with_variant`. -/
structure LvsLoop where
  name : Option String
  logical_volumes : List (String × UlLogicalVolume)
  new_lvs : List String
  needs_polling : Bool
  jobs : List UDisksJob
  log : List Call
  deriving DecidableEq, Repr

/-- One iteration of the loop over `lvs` in `update_with_variant`. The names
inserted into `new_lvs` are kept in order; the table is only ever asked whether
it contains a name. -/
def lvs_iteration (env : Env) (blocks : List UlBlock) (st : LvsLoop) (lv_info : Dict) : LvsLoop :=
  let name := lookup_name lv_info st.name
  let ops := update_operations blocks name lv_info st.jobs st.needs_polling
  let needs_polling := lv_is_pvmove_volume name || ops.2
  match name with
  | none => { st with name := name, needs_polling := needs_polling, jobs := ops.1 }
  | some n =>
    if lv_is_visible (some n) then
      let found := g_hash_table_lookup st.logical_volumes n
      let volume := found.getD ul_logical_volume_new
      { name := name
        logical_volumes :=
          g_hash_table_insert st.logical_volumes n (ul_logical_volume_update volume lv_info)
        new_lvs := st.new_lvs ++ [n]
        needs_polling := needs_polling || env.volume_needs_polling lv_info
        jobs := ops.1
        log := st.log ++ (if found.isNone then [Call.new_volume n] else [])
          ++ (if volume.need_publish then [Call.publish_volume n] else []) }
    else { st with name := name, needs_polling := needs_polling, jobs := ops.1 }

/-- The entries of `logical_volumes` that the second loop of
`update_with_variant` disposes and removes. -/
def stale_volumes (logical_volumes : List (String × UlLogicalVolume)) (new_lvs : List String) :
    List (String × UlLogicalVolume) :=
  logical_volumes.filter (fun e => !new_lvs.contains e.1)

/-- The entries of `logical_volumes` that the second loop of
`update_with_variant` leaves in the table. -/
def kept_volumes (logical_volumes : List (String × UlLogicalVolume)) (new_lvs : List String) :
    List (String × UlLogicalVolume) :=
  logical_volumes.filter (fun e => new_lvs.contains e.1)

/-- The table `new_pvs` built by the loop over `pvs`: a record is entered under
its device, and left out when it has none. -/
def collect_pvs (pvs : List Dict) : List (String × Dict) :=
  pvs.foldl (fun new_pvs pv_info =>
    match g_variant_lookup_s pv_info "device" with
    | some name => g_hash_table_insert new_pvs name pv_info
    | none => new_pvs) []

/-- The record of `new_pvs` that `update_block` finds for a block: under its
device, or else under the first of its symlinks that is a key. -/
def find_pv_info (new_pvs : List (String × Dict)) (block : UlBlock) : Option Dict :=
  match g_hash_table_lookup new_pvs block.device with
  | some pv_info => some pv_info
  | none => block.symlinks.findSome? (fun link => g_hash_table_lookup new_pvs link)

/-- Modelled from the spec: `ul_block_update_lv` of `block.c`, which associates
the block with a logical volume. -/
def ul_block_update_lv (block : UlBlock) (volume : String) : UlBlock :=
  { block with lv := some volume }

/-- Modelled from the spec: `ul_block_update_pv` of `block.c`, which associates
the block with the group (by the group's object path) when given one, and
clears the association when given `NULL`. -/
def ul_block_update_pv (block : UlBlock) (group : Option (UlVolumeGroup × Dict)) : UlBlock :=
  match group with
  | some (self, pv_info) =>
    { block with pv := some { volume_group := self.object_path, info := pv_info } }
  | none => { block with pv := none }

/-- The second part of `update_block`, from the lookup of the device in
`new_pvs` on: the block is associated with the group and the record found for
it, or its association is cleared when no record is found and it points at this
group. -/
def update_block_pv (self : UlVolumeGroup) (new_pvs : List (String × Dict)) (block : UlBlock) :
    UlBlock :=
  match find_pv_info new_pvs block with
  | some pv_info => ul_block_update_pv block (some (self, pv_info))
  | none =>
    match block.pv with
    | some pv =>
      if pv.volume_group = self.object_path then ul_block_update_pv block none else block
    | none => block

/-- The function `update_block`. Its first part looks `DM_LV_NAME` up in
`new_lvs` when the udev device has the name of this group for `DM_VG_NAME`;
with `DM_LV_NAME` unset that is `g_hash_table_lookup (new_lvs, NULL)` on a
table hashed by `g_str_hash`, which reads through the `NULL` key: the function
does not return, and the result is `none`. -/
def update_block (self : UlVolumeGroup) (new_lvs : List String) (new_pvs : List (String × Dict))
    (block : UlBlock) : Option UlBlock :=
  match block.udev with
  | some (block_vg_name, block_lv_name) =>
    if block_vg_name = some self.name then
      match block_lv_name with
      | none => none
      | some lv_name =>
        if new_lvs.contains lv_name then
          some (update_block_pv self new_pvs (ul_block_update_lv block lv_name))
        else some (update_block_pv self new_pvs block)
    else some (update_block_pv self new_pvs block)
  | none => some (update_block_pv self new_pvs block)

/-- The group after the step "publish group, if not already done" of
`update_with_variant`; `ul_daemon_publish` exports it at the path. -/
def publish_if_needed (env : Env) (self : UlVolumeGroup) : UlVolumeGroup × List Call :=
  if self.need_publish then
    ({ self with need_publish := false, object_path := some (env.build_object_path self.name) },
      [Call.publish_group (env.build_object_path self.name)])
  else (self, [])

/-- The function `update_with_variant`, the callback of the fetch started by
`ul_volume_group_update`. The result of the fetch is the error message or the
dictionary; `name0` is what the uninitialised local `name` of the loop over
`lvs` holds when the loop is entered. Where `update_block` does not return for
a block the process ends; the model leaves that block as it was and goes on, so
that what holds of every world of the model holds of every run that returns.
Whether the call returns is `update_with_variant_returns`. -/
def update_with_variant (env : Env) (name0 : Option String) (result : Except String Info)
    (w : World) : World :=
  match result with
  | Except.error message =>
    let pub := publish_if_needed env w.self
    { w with
      self := pub.1
      log := w.log ++ pub.2
        ++ [Call.message ("Failed to update LVM volume group " ++ w.self.name ++ ": " ++ message)] }
  | Except.ok info =>
    let pub := publish_if_needed env (volume_group_update_props env w.self info.props)
    let st := (info.lvs.getD []).foldl (lvs_iteration env w.blocks)
      { name := name0, logical_volumes := pub.1.logical_volumes, new_lvs := [],
        needs_polling := false, jobs := w.jobs, log := w.log ++ pub.2 }
    let self := { pub.1 with
      logical_volumes := kept_volumes st.logical_volumes st.new_lvs
      needs_polling := st.needs_polling }
    let new_pvs := collect_pvs (info.pvs.getD [])
    { self := self
      jobs := st.jobs
      blocks := w.blocks.map
        (fun block => (update_block self st.new_lvs new_pvs block).getD block)
      log := st.log
        ++ (stale_volumes st.logical_volumes st.new_lvs).map (fun e => Call.dispose_volume e.1) }

/-- Whether the call of `update_with_variant` returns: it does unless
`update_block` does not return for one of the blocks of the daemon. -/
def update_with_variant_returns (env : Env) (name0 : Option String)
    (result : Except String Info) (w : World) : Bool :=
  match result with
  | Except.error _ => true
  | Except.ok info =>
    let pub := publish_if_needed env (volume_group_update_props env w.self info.props)
    let st := (info.lvs.getD []).foldl (lvs_iteration env w.blocks)
      { name := name0, logical_volumes := pub.1.logical_volumes, new_lvs := [],
        needs_polling := false, jobs := w.jobs, log := w.log ++ pub.2 }
    let self := { pub.1 with
      logical_volumes := kept_volumes st.logical_volumes st.new_lvs
      needs_polling := st.needs_polling }
    let new_pvs := collect_pvs (info.pvs.getD [])
    w.blocks.all (fun block => (update_block self st.new_lvs new_pvs block).isSome)

/-! ## Polling -/

/-- The variables of the loop over `lvs` in `poll_with_variant`. -/
structure PollLoop where
  name : Option String
  logical_volumes : List (String × UlLogicalVolume)
  jobs : List UDisksJob
  log : List Call
  deriving DecidableEq, Repr

/-- One iteration of the loop over `lvs` in `poll_with_variant`. The local
`needs_polling` of that function is written and never read. The local `name` is
`NULL` only as the indeterminate value it has before the first record that sets
it; the model has such a name find no volume. -/
def poll_iteration (blocks : List UlBlock) (st : PollLoop) (lv_info : Dict) : PollLoop :=
  let name := lookup_name lv_info st.name
  let ops := update_operations blocks name lv_info st.jobs false
  match name with
  | none => { st with name := name, jobs := ops.1 }
  | some n =>
    match g_hash_table_lookup st.logical_volumes n with
    | some volume =>
      { name := name
        logical_volumes :=
          g_hash_table_insert st.logical_volumes n (ul_logical_volume_update volume lv_info)
        jobs := ops.1
        log := st.log ++ (if volume.need_publish then [Call.publish_volume n] else []) }
    | none => { st with name := name, jobs := ops.1 }

/-- The part of `poll_with_variant` after the test of the pid: what the
function does with a result it does not discard. -/
def poll_apply (env : Env) (name0 : Option String) (result : Except String Info)
    (w : World) : World :=
  match result with
  | Except.error message =>
    { w with
      self := { w.self with poll_pid := 0 }
      log := w.log
        ++ [Call.message ("Failed to poll LVM volume group " ++ w.self.name ++ ": " ++ message)] }
  | Except.ok info =>
    let self := volume_group_update_props env { w.self with poll_pid := 0 } info.props
    let st := (info.lvs.getD []).foldl (poll_iteration w.blocks)
      { name := name0, logical_volumes := self.logical_volumes, jobs := w.jobs, log := w.log }
    { w with
      self := { self with logical_volumes := st.logical_volumes }
      jobs := st.jobs
      log := st.log }

/-- The function `poll_with_variant`, the callback of the fetch started by
`poll_now`: `pid` is the process the result comes from, and a result of a
process other than `poll_pid` is dropped. -/
def poll_with_variant (env : Env) (name0 : Option String) (pid : Nat)
    (result : Except String Info) (w : World) : World :=
  if pid ≠ w.self.poll_pid then w else poll_apply env name0 result w

/-- The function `poll_now`; `timeout_id` is the id returned by `g_timeout_add`
and `pid` the process started by `ul_daemon_spawn_for_variant`. -/
def poll_now (timeout_id pid : Nat) (w : World) : World :=
  { w with
    self := { w.self with poll_timeout_id := timeout_id, poll_pid := pid }
    log := w.log ++ [Call.timeout_add 5000 timeout_id]
      ++ (if w.self.poll_pid ≠ 0 then [Call.kill w.self.poll_pid] else [])
      ++ [Call.spawn_poll pid] }

/-- The function `poll_in_main`, the idle callback queued by
`ul_volume_group_poll`. -/
def poll_in_main (timeout_id pid : Nat) (w : World) : World :=
  if w.self.poll_timeout_id ≠ 0 then { w with self := { w.self with poll_requested := true } }
  else poll_now timeout_id pid w

/-- The function `poll_timeout`, the callback of the timer armed by `poll_now`. -/
def poll_timeout (timeout_id pid : Nat) (w : World) : World :=
  if w.self.poll_requested then
    poll_now timeout_id pid
      { w with self := { w.self with poll_timeout_id := 0, poll_requested := false } }
  else { w with self := { w.self with poll_timeout_id := 0 } }

/-- The function `ul_volume_group_update`; `pid` is the process started. -/
def ul_volume_group_update (pid : Nat) (w : World) : World :=
  { w with log := w.log ++ [Call.spawn_update pid] }

/-- The callback a fetch was started with. -/
inductive Callback where
  | poll
  | update
  deriving DecidableEq, Repr

/-- A fetch that was started for the group and has not completed. -/
structure Fetch where
  pid : Nat
  callback : Callback
  deriving DecidableEq, Repr

/-- The fetches started by a sequence of calls. -/
def spawned : List Call → List Fetch
  | [] => []
  | Call.spawn_poll pid :: r => { pid := pid, callback := Callback.poll } :: spawned r
  | Call.spawn_update pid :: r => { pid := pid, callback := Callback.update } :: spawned r
  | _ :: r => spawned r

/-- The group in its event loop: the world and the fetches in flight. -/
structure Sys where
  world : World
  running : List Fetch
  deriving DecidableEq, Repr

/-- Runs a handler and adds the fetches it started to those in flight. -/
def Sys.run (f : World → World) (s : Sys) : Sys :=
  { world := f s.world
    running := s.running ++ spawned ((f s.world).log.drop s.world.log.length) }

/-- The completion of a fetch in flight: its callback runs on the result. -/
def Sys.complete (env : Env) (name0 : Option String) (fetch : Fetch)
    (result : Except String Info) (s : Sys) : Sys :=
  { world :=
      match fetch.callback with
      | Callback.poll => poll_with_variant env name0 fetch.pid result s.world
      | Callback.update => update_with_variant env name0 result s.world
    running := s.running.erase fetch }

/-- The states a group goes through: from a fresh group, by poll requests,
expiries of the armed timer, calls of `ul_volume_group_update` and completions
of fetches in flight. Timer ids are not zero; the pid of a new process is not
zero and differs from the pids of the fetches in flight. -/
inductive Reachable (env : Env) : Sys → Prop where
  | init (name : String) (jobs : List UDisksJob) (blocks : List UlBlock) :
    Reachable env
      { world := { self := ul_volume_group_init name, jobs := jobs, blocks := blocks, log := [] }
        running := [] }
  | poll (s : Sys) (timeout_id pid : Nat) :
    Reachable env s → timeout_id ≠ 0 → pid ≠ 0 → pid ∉ s.running.map Fetch.pid →
    Reachable env (s.run (poll_in_main timeout_id pid))
  | timeout (s : Sys) (timeout_id pid : Nat) :
    Reachable env s → s.world.self.poll_timeout_id ≠ 0 →
    timeout_id ≠ 0 → pid ≠ 0 → pid ∉ s.running.map Fetch.pid →
    Reachable env (s.run (poll_timeout timeout_id pid))
  | update (s : Sys) (pid : Nat) :
    Reachable env s → pid ≠ 0 → pid ∉ s.running.map Fetch.pid →
    Reachable env (s.run (ul_volume_group_update pid))
  | complete (s : Sys) (name0 : Option String) (fetch : Fetch) (result : Except String Info) :
    Reachable env s → fetch ∈ s.running →
    Reachable env (s.complete env name0 fetch result)

/-! ## Completion closures -/

/-- The `CompleteClosure` of the create and rename methods. Objects are named
by their address; `wait_thing` is `NULL` for a rename. -/
structure CompleteClosure where
  invocation : Nat
  wait_thing : Option Nat
  wait_name : String
  wait_sig : Nat
  deriving DecidableEq, Repr

/-- What a handler sends on a method invocation. -/
inductive Reply where
  /-- The call `lvm_volume_group_complete_create_plain_volume` or
  `lvm_volume_group_complete_rename`, which returns an object path. -/
  | value (invocation : Nat) (object_path : Option String)
  /-- The call `g_dbus_method_invocation_return_error` with `UDISKS_ERROR_FAILED`. -/
  | error (invocation : Nat) (message : String)
  deriving DecidableEq, Repr

/-- A logical volume announced by `published::UlLogicalVolume`, as far as
`on_create_logical_volume` reads it. -/
structure PublishedVolume where
  name : String
  volume_group : Nat
  object_path : Option String
  deriving DecidableEq, Repr

/-- A volume group announced by `published::UlVolumeGroup`, as far as
`on_rename_volume_group` reads it. -/
structure PublishedGroup where
  name : String
  object_path : Option String
  deriving DecidableEq, Repr

/-- The method that registered a closure. -/
inductive Method where
  | create
  | rename
  deriving DecidableEq, Repr

/-- A closure with its two handlers. The handler `wait_sig` is connected to the
daemon with `complete_closure_free` as destroy notification, so the closure is
released when that handler is disconnected; the handler of the job's
`completed` signal is connected with `g_signal_connect` and nothing
disconnects it. `replies` are the replies sent so far, and `stale_reads` counts
the runs of a handler that read the closure after its release (the model then
reads what the closure held when it was released). -/
structure Waiter where
  method : Method
  complete : CompleteClosure
  connected : Bool
  replies : List Reply
  stale_reads : Nat
  deriving DecidableEq, Repr

/-- The closure as `handle_create_plain_volume`, `handle_create_thin_pool_volume`
and `handle_create_thin_volume` register it. -/
def register_create (invocation self : Nat) (encoded_volume_name : String) (wait_sig : Nat) :
    Waiter :=
  { method := Method.create
    complete := { invocation := invocation, wait_thing := some self,
                  wait_name := encoded_volume_name, wait_sig := wait_sig }
    connected := true, replies := [], stale_reads := 0 }

/-- The closure as `handle_rename` registers it. -/
def register_rename (invocation : Nat) (encoded_new_name : String) (wait_sig : Nat) : Waiter :=
  { method := Method.rename
    complete := { invocation := invocation, wait_thing := none,
                  wait_name := encoded_new_name, wait_sig := wait_sig }
    connected := true, replies := [], stale_reads := 0 }

/-- The call `g_signal_handler_disconnect (daemon, complete->wait_sig)`: a
connected handler is removed and its closure released. -/
def disconnect (w : Waiter) : Waiter :=
  { w with connected := false }

/-- The function `on_create_logical_volume`. -/
def on_create_logical_volume (w : Waiter) (volume : PublishedVolume) : Waiter :=
  if volume.name = w.complete.wait_name ∧ some volume.volume_group = w.complete.wait_thing then
    disconnect
      { w with replies := w.replies ++ [Reply.value w.complete.invocation volume.object_path] }
  else w

/-- The function `on_rename_volume_group`. -/
def on_rename_volume_group (w : Waiter) (group : PublishedGroup) : Waiter :=
  if group.name = w.complete.wait_name then
    disconnect
      { w with replies := w.replies ++ [Reply.value w.complete.invocation group.object_path] }
  else w

/-- The functions `on_create_complete` and `on_rename_complete`, which differ
in the text of the error only. -/
def on_complete (text : String) (w : Waiter) (success : Bool) (message : String) : Waiter :=
  if success then w
  else
    disconnect
      { w with
        replies := w.replies ++ [Reply.error w.complete.invocation (text ++ message)]
        stale_reads := if w.connected then w.stale_reads else w.stale_reads + 1 }

/-- The function `on_create_complete`. -/
def on_create_complete (w : Waiter) (success : Bool) (message : String) : Waiter :=
  on_complete "Error creating logical volume: " w success message

/-- The function `on_rename_complete`. -/
def on_rename_complete (w : Waiter) (success : Bool) (message : String) : Waiter :=
  on_complete "Error renaming volume group: " w success message

/-- The signals a closure is connected to. -/
inductive Event where
  /-- The daemon emits `published::UlLogicalVolume`. -/
  | published_volume (volume : PublishedVolume)
  /-- The daemon emits `published::UlVolumeGroup`. -/
  | published_group (group : PublishedGroup)
  /-- The job emits `completed`. -/
  | completed (success : Bool) (message : String)
  deriving DecidableEq, Repr

/-- The delivery of a signal: a `published` signal runs the handler `wait_sig`
while it is connected, `completed` runs the handler of the job. -/
def deliver (w : Waiter) (e : Event) : Waiter :=
  match e, w.method with
  | Event.published_volume volume, Method.create =>
    if w.connected then on_create_logical_volume w volume else w
  | Event.published_group group, Method.rename =>
    if w.connected then on_rename_volume_group w group else w
  | Event.completed success message, Method.create => on_create_complete w success message
  | Event.completed success message, Method.rename => on_rename_complete w success message
  | _, _ => w

/-! ## The loop over `lvs` as a fold over the records it does not skip -/

/-- The records of `lvs` that the loop of `update_with_variant` does not skip,
each with the value `name` has for it; `name` is the value before the first
record. -/
def visible_records (name : Option String) : List Dict → List (String × Dict)
  | [] => []
  | r :: rs =>
    match lookup_name r name with
    | some n =>
      if lv_is_visible (some n) then (n, r) :: visible_records (some n) rs
      else visible_records (some n) rs
    | none => visible_records none rs

/-- What the loop of `update_with_variant` does to `logical_volumes` for a
record that is not skipped: the volume of that name, created when the table has
none, is updated with the record. -/
def reconcile_volume (t : List (String × UlLogicalVolume)) (p : String × Dict) :
    List (String × UlLogicalVolume) :=
  g_hash_table_insert t p.1
    (ul_logical_volume_update ((g_hash_table_lookup t p.1).getD ul_logical_volume_new) p.2)

/-- The calls the loop of `update_with_variant` makes for the records that are
not skipped, from the table `t`. -/
def reconcile_calls (t : List (String × UlLogicalVolume)) : List (String × Dict) → List Call
  | [] => []
  | p :: ps =>
    (if (g_hash_table_lookup t p.1).isNone then [Call.new_volume p.1] else [])
      ++ (if ((g_hash_table_lookup t p.1).getD ul_logical_volume_new).need_publish then
            [Call.publish_volume p.1] else [])
      ++ reconcile_calls (reconcile_volume t p) ps

/-- The record that the loop of `update_with_variant` applies last to the
volume `k`, among the records that are not skipped. -/
def latest : List (String × Dict) → String → Option Dict
  | [], _ => none
  | p :: ps, k =>
    match latest ps k with
    | some d => some d
    | none => if p.1 = k then some p.2 else none

/-! ## The wording of the specification -/

/-- Spec wording: a name is internal when it contains one of `_mlog`, `_mimage`,
`_rimage`, `_rmeta`, `_tdata`, `_tmeta`, or starts with `pvmove` or `snapshot`. -/
def internal_name (n : String) : Prop :=
  "_mlog".data <:+: n.data ∨ "_mimage".data <:+: n.data ∨ "_rimage".data <:+: n.data
    ∨ "_rmeta".data <:+: n.data ∨ "_tdata".data <:+: n.data ∨ "_tmeta".data <:+: n.data
    ∨ "pvmove".data <+: n.data ∨ "snapshot".data <+: n.data

instance internal_name_decidable (n : String) : Decidable (internal_name n) := by
  unfold internal_name
  infer_instance

/-- Spec wording: the visible names in the list `lvs` of a snapshot. -/
def visible_names (info : Info) : List String :=
  ((info.lvs.getD []).filterMap (fun r => g_variant_lookup_s r "name")).filter
    (fun n => lv_is_visible (some n))

/-! ## The fetches in flight -/

/-- What holds of `poll_pid`, the log and the fetches in flight in every state
the group goes through: the fetches in flight have different pids, none of them
zero, and every fetch started by `poll_now` other than the one of `poll_pid`
has been sent `SIGINT`. -/
def superseded_killed (poll_pid : Nat) (log : List Call) (running : List Fetch) : Prop :=
  (running.map Fetch.pid).Nodup
    ∧ (∀ f ∈ running, f.pid ≠ 0)
    ∧ (∀ f ∈ running, f.callback = Callback.poll → f.pid ≠ poll_pid → Call.kill f.pid ∈ log)

/-! ## Examples -/

/-- An environment for the examples: names are not encoded, and no record
asks for polling. -/
def env0 : Env :=
  { decode_lvm_name := fun name => name
    build_object_path := fun name => "/org/freedesktop/UDisks2/lvm/" ++ name
    volume_needs_polling := fun _ => false }

/-- A fresh group `vg0` in a daemon without jobs and blocks. -/
def world0 : World :=
  { self := ul_volume_group_init "vg0", jobs := [], blocks := [], log := [] }

/-- A record of `lvs` with a name and a size. -/
def lv_record (name : String) (size : Nat) : Dict :=
  [("name", GVariant.s name), ("size", GVariant.t size)]

/-- A snapshot of `vg0` with the given records of logical volumes. -/
def snapshot (lvs : List Dict) : Info :=
  { props := [("name", GVariant.s "vg0"), ("size", GVariant.t 4096)], lvs := some lvs, pvs := some [] }

/-- The world after the snapshot with the volumes `A` and `B` was applied to
the fresh group. -/
def world_ab : World :=
  update_with_variant env0 none (Except.ok (snapshot [lv_record "A" 1, lv_record "B" 2])) world0

/-- The group `vg0` with the fetch 7 running and no timer armed. -/
def world_fetching : World :=
  { world0 with self := { world0.self with poll_pid := 7 } }

/-- Three poll requests handled one after the other by `poll_in_main`. -/
def three_polls (t1 p1 t2 p2 t3 p3 : Nat) (w : World) : World :=
  poll_in_main t3 p3 (poll_in_main t2 p2 (poll_in_main t1 p1 w))

/-- The fresh group `vg0` with no fetch in flight. -/
def sys0 : Sys :=
  { world := world0, running := [] }

/-- Two calls of `ul_volume_group_update`, which start the processes 10 and 11. -/
def sys_two_updates : Sys :=
  (sys0.run (ul_volume_group_update 10)).run (ul_volume_group_update 11)

/-- Two poll requests, the first of which starts the process 10, and the expiry
of the timer, which starts the process 12. -/
def sys_two_polls : Sys :=
  ((sys0.run (poll_in_main 1 10)).run (poll_in_main 2 11)).run (poll_timeout 3 12)

/-- A record of `lvs` with a name only. -/
def bare_record (name : String) : Dict :=
  [("name", GVariant.s name)]

/-- Spec wording: the job has the operation `op`, and one of its objects
resolves to a known block whose device, or one of whose symlinks, is `dev`. -/
def job_targets (blocks : List UlBlock) (op dev : String) (job : UDisksJob) : Prop :=
  job.operation = some op
    ∧ ∃ object ∈ job.objects, ∃ block ∈ ul_daemon_find_thing blocks object,
        block.device = dev ∨ dev ∈ block.symlinks

instance job_targets_decidable (blocks : List UlBlock) (op dev : String) (job : UDisksJob) :
    Decidable (job_targets blocks op dev job) := by
  unfold job_targets
  infer_instance

/-- The block of the device `/dev/sda1`, known under a symlink as well. -/
def block_sda1 : UlBlock :=
  { object_path := "/org/freedesktop/UDisks2/block_devices/sda1", device := "/dev/sda1",
    symlinks := ["/dev/disk/by-id/ata-disk-part1"], udev := none, lv := none, pv := none }

/-- A job that empties the block `sda1`, without progress so far. -/
def job_empty_sda1 : UDisksJob :=
  { operation := some "lvm-vg-empty-device",
    objects := ["/org/freedesktop/UDisks2/block_devices/sda1"],
    progress := 0, progress_valid := false }

/-- A job of another operation on the same block. -/
def job_add_sda1 : UDisksJob :=
  { operation := some "lvm-vg-add-device",
    objects := ["/org/freedesktop/UDisks2/block_devices/sda1"],
    progress := 0, progress_valid := false }

/-- The record of a `pvmove` volume that moves the given device. -/
def pvmove_record (move_pv : String) (copy_percent : Nat) : Dict :=
  [("name", GVariant.s "pvmove0"), ("move_pv", GVariant.s move_pv),
    ("copy_percent", GVariant.t copy_percent)]

/-- The group `vg0` in a daemon with the block `sda1` and the two jobs on it. -/
def world_moving : World :=
  { world0 with blocks := [block_sda1], jobs := [job_empty_sda1, job_add_sda1] }

/-! ## Sequences of handlers -/

/-- A run of one of the functions of the group that the main loop calls, with
the values it gets from outside. -/
inductive Handler where
  /-- The callback `update_with_variant` with the result of a fetch. -/
  | update (name0 : Option String) (result : Except String Info)
  /-- The callback `poll_with_variant` with the result of the fetch `pid`. -/
  | poll_result (name0 : Option String) (pid : Nat) (result : Except String Info)
  /-- The idle callback `poll_in_main`. -/
  | poll (timeout_id pid : Nat)
  /-- The timer callback `poll_timeout`. -/
  | timeout (timeout_id pid : Nat)
  /-- The function `ul_volume_group_update`. -/
  | start_update (pid : Nat)

/-- The world after a handler has run. -/
def Handler.run (env : Env) (w : World) : Handler → World
  | Handler.update name0 result => update_with_variant env name0 result w
  | Handler.poll_result name0 pid result => poll_with_variant env name0 pid result w
  | Handler.poll timeout_id pid => poll_in_main timeout_id pid w
  | Handler.timeout timeout_id pid => poll_timeout timeout_id pid w
  | Handler.start_update pid => ul_volume_group_update pid w

/-- The world after a sequence of handlers has run on a fresh group. -/
def run_handlers (env : Env) (name : String) (jobs : List UDisksJob) (blocks : List UlBlock)
    (handlers : List Handler) : World :=
  handlers.foldl (Handler.run env)
    { self := ul_volume_group_init name, jobs := jobs, blocks := blocks, log := [] }

/-- The publication of the group. -/
def is_publish_group : Call → Bool
  | Call.publish_group _ => true
  | _ => false

/-- The creation or the publication of a logical volume. -/
def is_volume_call : Call → Bool
  | Call.new_volume _ => true
  | Call.publish_volume _ => true
  | _ => false

/-- No creation or publication of a logical volume comes before the first
publication of the group. -/
def group_first : List Call → Bool
  | [] => true
  | c :: r => is_publish_group c || (!is_volume_call c && group_first r)

/-- What holds of a group after any sequence of handlers: the group has been
published once when `need_publish` is cleared and not at all when it is set,
no volume was created or published before the group, and a group that is not
yet published has no logical volumes. -/
def published_once (w : World) : Prop :=
  w.log.countP is_publish_group = (if w.self.need_publish then 0 else 1)
    ∧ group_first w.log = true
    ∧ (w.self.need_publish = true →
        w.self.logical_volumes = [] ∧ ∀ c ∈ w.log, is_volume_call c = false)

/-- A poll request, a failed fetch, a fetch of the volumes `A` and `B`, and a
poll result for the process 10 that lists `A`. -/
def handlers0 : List Handler :=
  [Handler.poll 1 10,
    Handler.update none (Except.error "helper failed"),
    Handler.update none (Except.ok (snapshot [lv_record "A" 1, lv_record "B" 2])),
    Handler.poll_result none 10 (Except.ok (snapshot [lv_record "A" 3]))]

/-! ## Methods on member devices -/

/-- The call `g_variant_lookup (d, key, "b", &flag)`. -/
def g_variant_lookup_b (d : Dict) (key : String) : Option Bool :=
  match d.lookup key with
  | some (GVariant.b v) => some v
  | _ => none

/-- The `VolumeGroupRemdevJobData` of the job that removes a device. -/
structure VolumeGroupRemdevJobData where
  vgname : Option String
  pvname : Option String
  wipe : Bool
  deriving DecidableEq, Repr

/-- What a method handler does with its invocation and with the daemon. -/
inductive Action where
  /-- The call `g_dbus_method_invocation_return_error` with `UDISKS_ERROR_FAILED`
  and the text. -/
  | return_error (invocation : Nat) (message : String)
  /-- The call `g_dbus_method_invocation_take_error` with the error a
  collaborator returned. -/
  | take_error (invocation : Nat) (error : String)
  /-- The call `ul_util_wipe_block` on a device. -/
  | wipe_block (device : String)
  /-- The call `ul_daemon_launch_spawned_job` with the operation and the command
  line; the invocation is handed to the handler of `completed`. -/
  | launch_spawned_job (operation : String) (invocation : Nat) (argv : List String)
  /-- The call `ul_daemon_launch_threaded_job` with the operation and the data of
  the job; the invocation is handed to the handler of `completed`. -/
  | launch_threaded_job (operation : String) (invocation : Nat)
      (data : VolumeGroupRemdevJobData)
  deriving DecidableEq, Repr

/-- Functions of `block.c` and `util.c` whose outcome decides what
`handle_add_device` does: each returns normally or with an error. -/
structure BlockOps where
  /-- The function `ul_block_is_unused`. -/
  ul_block_is_unused : UlBlock → Except String Unit
  /-- The function `ul_util_wipe_block`, by the device it is given. -/
  ul_util_wipe_block : String → Except String Unit

/-- The function `handle_add_device`. -/
def handle_add_device (ops : BlockOps) (blocks : List UlBlock) (self : UlVolumeGroup)
    (invocation : Nat) (new_member_device_objpath : String) : List Action :=
  match ul_daemon_find_thing blocks new_member_device_objpath with
  | none => [Action.return_error invocation "The given object is not a valid block"]
  | some new_member_device =>
    match ops.ul_block_is_unused new_member_device with
    | Except.error error => [Action.take_error invocation error]
    | Except.ok _ =>
      match ops.ul_util_wipe_block new_member_device.device with
      | Except.error error =>
        [Action.wipe_block new_member_device.device, Action.take_error invocation error]
      | Except.ok _ =>
        [Action.wipe_block new_member_device.device,
          Action.launch_spawned_job "lvm-vg-add-device" invocation
            ["vgextend", self.name, new_member_device.device]]

/-- The function `handle_remove_device`: the data are allocated zeroed, `wipe`
is read from the options, and the two assignments follow, both to `vgname`. -/
def handle_remove_device (blocks : List UlBlock) (self : UlVolumeGroup) (invocation : Nat)
    (member_device_objpath : String) (options : Dict) : List Action :=
  match ul_daemon_find_thing blocks member_device_objpath with
  | none => [Action.return_error invocation "The given object is not a valid block"]
  | some member_device =>
    let data : VolumeGroupRemdevJobData := { vgname := none, pvname := none, wipe := false }
    let data := { data with wipe := (g_variant_lookup_b options "wipe").getD data.wipe }
    let data := { data with vgname := some self.name }
    let data := { data with vgname := some member_device.device }
    [Action.launch_threaded_job "lvm-vg-rem-device" invocation data]

/-- The command line that `g_spawn_sync` sees in a `NULL`-terminated array: the
entries before the first `NULL`. -/
def argv_until_null : List (Option String) → List String
  | some arg :: rest => arg :: argv_until_null rest
  | _ => []

/-- The command lines that `volume_group_remdev_job_thread` runs: `vgreduce`,
and `wipefs` when that succeeded (`vgreduce_ok`) and `wipe` is set. -/
def volume_group_remdev_job_thread (vgreduce_ok : Bool) (data : VolumeGroupRemdevJobData) :
    List (List String) :=
  argv_until_null [some "vgreduce", data.vgname, data.pvname, none]
    :: (if vgreduce_ok && data.wipe then
          [argv_until_null [some "wipefs", some "-a", data.pvname, none]]
        else [])

/-- The outcomes of the examples: a block is unused when it has no
physical-volume interface, and wiping succeeds. -/
def ops0 : BlockOps :=
  { ul_block_is_unused := fun block =>
      if block.pv.isNone then Except.ok () else Except.error "Device is in use"
    ul_util_wipe_block := fun _ => Except.ok () }

/-- The block of the device `/dev/sdb1`, a physical volume of another group. -/
def block_sdb1 : UlBlock :=
  { object_path := "/org/freedesktop/UDisks2/block_devices/sdb1", device := "/dev/sdb1",
    symlinks := [], udev := none, lv := none,
    pv := some { volume_group := some "/org/freedesktop/UDisks2/lvm/vg1", info := [] } }

/-- What holds of the scheduler after any sequence of handlers: a poll request
is only pending while the timer is armed. -/
def request_armed (w : World) : Prop :=
  w.self.poll_requested = true → w.self.poll_timeout_id ≠ 0

/-- A poll request on the fresh group `vg0`, which starts the fetch 10 and arms
the timer 1, and a second request, which is left pending. -/
def handlers_pending : List Handler :=
  [Handler.poll 1 10, Handler.poll 2 11]

/-- Every logical volume of the group has been updated, and so published. -/
def all_published (t : List (String × UlLogicalVolume)) : Prop :=
  ∀ e ∈ t, e.2.need_publish = false

/-! ## Methods that create volumes -/

/-- What a create method leaves behind: its actions, and the closure it
registered when it launched a job. -/
structure Created where
  actions : List Action
  waiter : Option Waiter
  deriving DecidableEq, Repr

/-- The function `handle_create_plain_volume`. The sizes are `guint64` and the
number of stripes a `gint`; `encode` is `ul_util_encode_lvm_name (name, TRUE)`,
`self_object` the address of the group and `wait_sig` the id of the handler
connected to the daemon. -/
def handle_create_plain_volume (encode : String → String) (self : UlVolumeGroup)
    (self_object invocation wait_sig : Nat) (arg_name : String) (arg_size : Nat)
    (arg_stripes : Int) (arg_stripesize : Nat) : Created :=
  let encoded_volume_name := encode arg_name
  let arg_size := arg_size - arg_size % 512
  let argv := ["lvcreate", self.name, "-L" ++ toString arg_size ++ "b", "-n", encoded_volume_name]
  let argv := if arg_stripes > 0 then argv ++ ["-i", toString arg_stripes] else argv
  let argv := if arg_stripesize > 0 then argv ++ ["-I", toString arg_stripesize ++ "b"] else argv
  { actions := [Action.launch_spawned_job "lvm-vg-create-volume" invocation argv]
    waiter := some (register_create invocation self_object encoded_volume_name wait_sig) }

/-- The function `handle_create_thin_pool_volume`. -/
def handle_create_thin_pool_volume (encode : String → String) (self : UlVolumeGroup)
    (self_object invocation wait_sig : Nat) (arg_name : String) (arg_size : Nat) : Created :=
  let encoded_volume_name := encode arg_name
  let size := toString (arg_size % 512) ++ "b"
  { actions := [Action.launch_spawned_job "lvm-vg-create-volume" invocation
      ["lvcreate", self.name, "-T", "-L", size, "--thinpool", encoded_volume_name]]
    waiter := some (register_create invocation self_object encoded_volume_name wait_sig) }

/-- The function `handle_create_thin_volume`; `volumes` gives the names of the
logical volumes of the daemon by object path, for
`ul_daemon_find_thing (daemon, arg_pool, UL_TYPE_LOGICAL_VOLUME)`. -/
def handle_create_thin_volume (encode : String → String) (volumes : List (String × String))
    (self : UlVolumeGroup) (self_object invocation wait_sig : Nat) (arg_name : String)
    (arg_size : Nat) (arg_pool : String) : Created :=
  match g_hash_table_lookup volumes arg_pool with
  | none =>
    { actions := [Action.return_error invocation "Not a valid logical volume"], waiter := none }
  | some pool =>
    let encoded_volume_name := encode arg_name
    let size := toString (arg_size % 512) ++ "b"
    { actions := [Action.launch_spawned_job "lvm-vg-create-volume" invocation
        ["lvcreate", self.name, "--thinpool", pool, "-V", size, "-n", encoded_volume_name]]
      waiter := some (register_create invocation self_object encoded_volume_name wait_sig) }

/-- The records of `lvs` in the order of the loops, each with the value the
local `name` has for it; `name` is the value before the first record. -/
def lookup_names (name : Option String) : List Dict → List (Option String × Dict)
  | [] => []
  | r :: rs => (lookup_name r name, r) :: lookup_names (lookup_name r name) rs

/-- The records of `lvs` for which the local `name` of the loops is `k`, in
their order. -/
def volume_records (name : Option String) (rs : List Dict) (k : String) : List Dict :=
  ((lookup_names name rs).filter (fun p => p.1 = some k)).map Prod.snd

/-- A record of `lvs` without a name. -/
def nameless_record : Dict :=
  [("size", GVariant.t 2)]

/-- A block whose udev device has the name of the group `vg0` for `DM_VG_NAME`
and no `DM_LV_NAME`. -/
def block_dm_0 : UlBlock :=
  { object_path := "/org/freedesktop/UDisks2/block_devices/dm_2d0", device := "/dev/dm-0",
    symlinks := [], udev := some (some "vg0", none), lv := none, pv := none }

/-- The record of the physical volume on `/dev/dm-0`. -/
def pv_record_dm_0 : Dict :=
  [("device", GVariant.s "/dev/dm-0")]

/-- A snapshot of `vg0` without logical volumes and with the physical volume on
`/dev/dm-0`. -/
def snapshot_dm_0 : Info :=
  { props := [("name", GVariant.s "vg0")], lvs := some [], pvs := some [pv_record_dm_0] }

/-! ## Theorems -/


theorem strstr_iff (h n : String) : strstr h n = true ↔ n.data <:+: h.data := by
  unfold strstr
  simp only [List.any_eq_true, List.mem_tails, List.isPrefixOf_iff_prefix]
  constructor
  · rintro ⟨t, ht, hp⟩
    exact hp.isInfix.trans ht.isInfix
  · rintro ⟨a, b, hab⟩
    exact ⟨n.data ++ b, ⟨a, by simp [← hab]⟩, List.prefix_append _ _⟩

theorem g_str_has_prefix_iff (s p : String) : g_str_has_prefix s p = true ↔ p.data <+: s.data := by
  unfold g_str_has_prefix
  exact List.isPrefixOf_iff_prefix

theorem lv_is_visible_iff (n : String) : lv_is_visible (some n) = true ↔ ¬ internal_name n := by
  have hs : ∀ p : String, strstr n p = false ↔ ¬ p.data <:+: n.data := fun p => by
    rw [← strstr_iff]; simp
  have hp : ∀ p : String, g_str_has_prefix n p = false ↔ ¬ p.data <+: n.data := fun p => by
    rw [← g_str_has_prefix_iff]; simp
  unfold lv_is_visible internal_name
  simp only [Bool.and_eq_true, Bool.not_eq_true', not_or, and_assoc]
  rw [hs, hs, hs, hs, hs, hs, hp, hp]

theorem lvs_iteration_name (env : Env) (blocks : List UlBlock) (st : LvsLoop) (r : Dict) :
    (lvs_iteration env blocks st r).name = lookup_name r st.name := by
  unfold lvs_iteration
  cases h : lookup_name r st.name with
  | none => simp
  | some n => by_cases hv : lv_is_visible (some n) = true <;> simp [hv]


theorem lvs_iteration_volumes (env : Env) (blocks : List UlBlock) (st : LvsLoop) (r : Dict) :
    (lvs_iteration env blocks st r).logical_volumes
      = (visible_records st.name [r]).foldl reconcile_volume st.logical_volumes := by
  unfold lvs_iteration
  cases h : lookup_name r st.name with
  | none => simp [visible_records, h]
  | some n =>
    by_cases hv : lv_is_visible (some n) = true <;>
      simp [hv, visible_records, h, reconcile_volume]

theorem lvs_iteration_new_lvs (env : Env) (blocks : List UlBlock) (st : LvsLoop) (r : Dict) :
    (lvs_iteration env blocks st r).new_lvs
      = st.new_lvs ++ (visible_records st.name [r]).map Prod.fst := by
  unfold lvs_iteration
  cases h : lookup_name r st.name with
  | none => simp [visible_records, h]
  | some n =>
    by_cases hv : lv_is_visible (some n) = true <;>
      simp [hv, visible_records, h]

theorem lvs_iteration_log (env : Env) (blocks : List UlBlock) (st : LvsLoop) (r : Dict) :
    (lvs_iteration env blocks st r).log
      = st.log ++ reconcile_calls st.logical_volumes (visible_records st.name [r]) := by
  unfold lvs_iteration
  cases h : lookup_name r st.name with
  | none => simp [visible_records, h, reconcile_calls]
  | some n =>
    by_cases hv : lv_is_visible (some n) = true <;>
      simp [hv, visible_records, h, reconcile_calls]

theorem visible_records_cons (name : Option String) (r : Dict) (rs : List Dict) :
    visible_records name (r :: rs)
      = visible_records name [r] ++ visible_records (lookup_name r name) rs := by
  simp only [visible_records]
  cases h : lookup_name r name with
  | none => simp
  | some n => by_cases hv : lv_is_visible (some n) = true <;> simp [hv]

theorem reconcile_calls_append (t : List (String × UlLogicalVolume)) (ps qs : List (String × Dict)) :
    reconcile_calls t (ps ++ qs)
      = reconcile_calls t ps ++ reconcile_calls (ps.foldl reconcile_volume t) qs := by
  induction ps generalizing t with
  | nil => simp [reconcile_calls]
  | cons p ps ih => simp [reconcile_calls, ih, List.append_assoc]

theorem lvs_loop (env : Env) (blocks : List UlBlock) (st : LvsLoop) (rs : List Dict) :
    (rs.foldl (lvs_iteration env blocks) st).logical_volumes
        = (visible_records st.name rs).foldl reconcile_volume st.logical_volumes
      ∧ (rs.foldl (lvs_iteration env blocks) st).new_lvs
        = st.new_lvs ++ (visible_records st.name rs).map Prod.fst
      ∧ (rs.foldl (lvs_iteration env blocks) st).log
        = st.log ++ reconcile_calls st.logical_volumes (visible_records st.name rs) := by
  induction rs generalizing st with
  | nil => simp [visible_records, reconcile_calls]
  | cons r rs ih =>
    obtain ⟨h1, h2, h3⟩ := ih (lvs_iteration env blocks st r)
    rw [List.foldl_cons, h1, h2, h3, visible_records_cons st.name r rs, lvs_iteration_name,
      lvs_iteration_volumes, lvs_iteration_new_lvs, lvs_iteration_log, reconcile_calls_append]
    simp [List.append_assoc]


theorem volume_group_update_props_frame (env : Env) (self : UlVolumeGroup) (d : Dict) :
    (volume_group_update_props env self d).name = self.name
      ∧ (volume_group_update_props env self d).need_publish = self.need_publish
      ∧ (volume_group_update_props env self d).logical_volumes = self.logical_volumes
      ∧ (volume_group_update_props env self d).poll_pid = self.poll_pid
      ∧ (volume_group_update_props env self d).poll_timeout_id = self.poll_timeout_id
      ∧ (volume_group_update_props env self d).poll_requested = self.poll_requested
      ∧ (volume_group_update_props env self d).needs_polling = self.needs_polling
      ∧ (volume_group_update_props env self d).object_path = self.object_path := by
  unfold volume_group_update_props
  cases g_variant_lookup_s d "name" <;> cases g_variant_lookup_s d "uuid" <;>
    cases g_variant_lookup_t d "size" <;> cases g_variant_lookup_t d "free-size" <;>
    cases g_variant_lookup_t d "extent-size" <;> simp

theorem publish_if_needed_frame (env : Env) (self : UlVolumeGroup) :
    (publish_if_needed env self).1.logical_volumes = self.logical_volumes
      ∧ (publish_if_needed env self).1.need_publish = false
      ∧ (publish_if_needed env self).1.name = self.name
      ∧ (publish_if_needed env self).2
        = if self.need_publish then [Call.publish_group (env.build_object_path self.name)]
          else [] := by
  unfold publish_if_needed
  cases h : self.need_publish <;> simp [h]

theorem update_ok_volumes (env : Env) (name0 : Option String) (info : Info) (w : World) :
    (update_with_variant env name0 (Except.ok info) w).self.logical_volumes
      = kept_volumes
          ((visible_records name0 (info.lvs.getD [])).foldl reconcile_volume
            w.self.logical_volumes)
          ((visible_records name0 (info.lvs.getD [])).map Prod.fst) := by
  simp only [update_with_variant]
  rw [(lvs_loop env w.blocks _ _).1, (lvs_loop env w.blocks _ _).2.1]
  simp [(publish_if_needed_frame env _).1, (volume_group_update_props_frame env _ _).2.2.1]

theorem update_ok_log (env : Env) (name0 : Option String) (info : Info) (w : World) :
    (update_with_variant env name0 (Except.ok info) w).log
      = w.log
        ++ (if w.self.need_publish then [Call.publish_group (env.build_object_path w.self.name)]
            else [])
        ++ reconcile_calls w.self.logical_volumes (visible_records name0 (info.lvs.getD []))
        ++ (stale_volumes
              ((visible_records name0 (info.lvs.getD [])).foldl reconcile_volume
                w.self.logical_volumes)
              ((visible_records name0 (info.lvs.getD [])).map Prod.fst)).map
            (fun e => Call.dispose_volume e.1) := by
  simp only [update_with_variant]
  rw [(lvs_loop env w.blocks _ _).1, (lvs_loop env w.blocks _ _).2.1,
    (lvs_loop env w.blocks _ _).2.2]
  simp [(publish_if_needed_frame env _).1, (publish_if_needed_frame env _).2.2.2,
    (volume_group_update_props_frame env _ _).2.2.1, (volume_group_update_props_frame env _ _).1,
    (volume_group_update_props_frame env _ _).2.1]

theorem visible_records_visible (name : Option String) (rs : List Dict) :
    ∀ p ∈ visible_records name rs, lv_is_visible (some p.1) = true := by
  induction rs generalizing name with
  | nil => simp [visible_records]
  | cons r rs ih =>
    intro p hp
    simp only [visible_records] at hp
    cases h : lookup_name r name with
    | none => rw [h] at hp; exact ih _ p hp
    | some n =>
      rw [h] at hp
      by_cases hv : lv_is_visible (some n) = true
      · simp only [hv, if_true, List.mem_cons] at hp
        rcases hp with rfl | hp
        · exact hv
        · exact ih _ p hp
      · simp only [hv] at hp
        exact ih _ p hp

theorem mem_kept_volumes (t : List (String × UlLogicalVolume)) (new_lvs : List String)
    (e : String × UlLogicalVolume) :
    e ∈ kept_volumes t new_lvs ↔ e ∈ t ∧ e.1 ∈ new_lvs := by
  simp [kept_volumes]

theorem mem_stale_volumes (t : List (String × UlLogicalVolume)) (new_lvs : List String)
    (e : String × UlLogicalVolume) :
    e ∈ stale_volumes t new_lvs ↔ e ∈ t ∧ e.1 ∉ new_lvs := by
  simp [stale_volumes]

theorem new_volume_mem_reconcile_calls (t : List (String × UlLogicalVolume))
    (ps : List (String × Dict)) (n : String) :
    Call.new_volume n ∈ reconcile_calls t ps → n ∈ ps.map Prod.fst := by
  induction ps generalizing t with
  | nil => simp [reconcile_calls]
  | cons p ps ih =>
    intro h
    simp only [reconcile_calls, List.mem_append] at h
    rcases h with (h | h) | h
    · split at h
      · simp only [List.mem_singleton, Call.new_volume.injEq] at h
        simp [h]
      · simp at h
    · split at h <;> simp at h
    · simp [ih _ h]


/-- C1: a name that contains `_mlog`, `_mimage`, `_rimage`, `_rmeta`, `_tdata` or
`_tmeta`, or starts with `pvmove` or `snapshot`, is not visible, is not a key of
`logical_volumes` after a successful `update_with_variant`, whatever the
snapshot and the state before, and no volume of that name is created by the
pass; every other name is visible. -/
theorem visibility_filter (env : Env) (name0 : Option String) (info : Info) (w : World)
    (n : String) :
    (internal_name n →
        lv_is_visible (some n) = false
        ∧ n ∉ keys (update_with_variant env name0 (Except.ok info) w).self.logical_volumes
        ∧ Call.new_volume n
            ∉ (update_with_variant env name0 (Except.ok info) { w with log := [] }).log)
      ∧ (¬ internal_name n → lv_is_visible (some n) = true) := by
  refine ⟨fun hn => ?_, fun hn => (lv_is_visible_iff n).mpr hn⟩
  have hv : lv_is_visible (some n) = false := by
    cases h : lv_is_visible (some n)
    · rfl
    · exact absurd hn ((lv_is_visible_iff n).mp h)
  have hnew : n ∉ (visible_records name0 (info.lvs.getD [])).map Prod.fst := by
    intro hmem
    obtain ⟨p, hp, rfl⟩ := List.mem_map.mp hmem
    rw [visible_records_visible name0 _ p hp] at hv
    exact Bool.noConfusion hv
  refine ⟨hv, ?_, ?_⟩
  · intro hk
    obtain ⟨e, he, rfl⟩ := List.mem_map.mp hk
    rw [update_ok_volumes, mem_kept_volumes] at he
    exact hnew he.2
  · intro hc
    rw [update_ok_log] at hc
    simp only [List.nil_append, List.mem_append, List.mem_map] at hc
    rcases hc with (hc | hc) | ⟨e, _, hc⟩
    · split at hc <;> simp at hc
    · exact hnew (new_volume_mem_reconcile_calls _ _ n hc)
    · exact Call.noConfusion hc

/-- The name `pool_tmeta`, in a snapshot that lists it next to `data`. -/
theorem visibility_filter_witness :
    internal_name "pool_tmeta"
      ∧ lv_is_visible (some "pool_tmeta") = false
      ∧ "pool_tmeta" ∉ keys (update_with_variant env0 none
          (Except.ok (snapshot [lv_record "pool_tmeta" 8, lv_record "data" 16]))
          world0).self.logical_volumes
      ∧ Call.new_volume "pool_tmeta" ∉ (update_with_variant env0 none
          (Except.ok (snapshot [lv_record "pool_tmeta" 8, lv_record "data" 16]))
          { world0 with log := [] }).log
      ∧ ¬ internal_name "data" ∧ lv_is_visible (some "data") = true :=
  have h1 : internal_name "pool_tmeta" := by decide
  have h2 : ¬ internal_name "data" := by decide
  have t := (visibility_filter env0 none
    (snapshot [lv_record "pool_tmeta" 8, lv_record "data" 16]) world0 "pool_tmeta").1 h1
  ⟨h1, t.1, t.2.1, t.2.2,
    h2, (visibility_filter env0 none (snapshot []) world0 "data").2 h2⟩


theorem keys_insert {V : Type} (t : List (String × V)) (k : String) (v : V) :
    keys (g_hash_table_insert t k v) = if k ∈ keys t then keys t else keys t ++ [k] := by
  induction t with
  | nil => simp [g_hash_table_insert, keys]
  | cons e t ih =>
    obtain ⟨k', w⟩ := e
    simp only [g_hash_table_insert]
    by_cases h : k' = k
    · simp [h, keys]
    · have h' : ¬ k = k' := fun x => h x.symm
      simp only [keys, List.map_cons, List.mem_cons, h, h', if_false, false_or] at ih ⊢
      rw [ih]
      split <;> simp

theorem mem_keys_insert {V : Type} (t : List (String × V)) (k : String) (v : V) (x : String) :
    x ∈ keys (g_hash_table_insert t k v) ↔ x ∈ keys t ∨ x = k := by
  rw [keys_insert]
  split
  · constructor
    · exact Or.inl
    · rintro (h | rfl)
      · exact h
      · assumption
  · simp

theorem nodup_keys_insert {V : Type} (t : List (String × V)) (k : String) (v : V)
    (h : (keys t).Nodup) : (keys (g_hash_table_insert t k v)).Nodup := by
  rw [keys_insert]
  split
  · exact h
  · rename_i hk
    exact List.Nodup.append h (List.nodup_singleton k) (by simpa using hk)

theorem mem_keys_reconcile (t : List (String × UlLogicalVolume)) (ps : List (String × Dict))
    (x : String) :
    x ∈ keys (ps.foldl reconcile_volume t) ↔ x ∈ keys t ∨ x ∈ ps.map Prod.fst := by
  induction ps generalizing t with
  | nil => simp
  | cons p ps ih =>
    rw [List.foldl_cons, ih, reconcile_volume, mem_keys_insert]
    simp only [List.map_cons, List.mem_cons]
    tauto

theorem nodup_keys_reconcile (t : List (String × UlLogicalVolume)) (ps : List (String × Dict))
    (h : (keys t).Nodup) : (keys (ps.foldl reconcile_volume t)).Nodup := by
  induction ps generalizing t with
  | nil => exact h
  | cons p ps ih => exact ih _ (nodup_keys_insert _ _ _ h)

theorem mem_visible_records_fst (name : Option String) (rs : List Dict)
    (hnames : ∀ r ∈ rs, (g_variant_lookup_s r "name").isSome = true) (n : String) :
    n ∈ (visible_records name rs).map Prod.fst
      ↔ lv_is_visible (some n) = true ∧ ∃ r ∈ rs, g_variant_lookup_s r "name" = some n := by
  induction rs generalizing name with
  | nil => simp [visible_records]
  | cons r rs ih =>
    obtain ⟨m, hm⟩ := Option.isSome_iff_exists.mp (hnames r (List.mem_cons_self _ _))
    have ih' := ih (some m) (fun r' hr' => hnames r' (List.mem_cons_of_mem _ hr'))
    have hl : lookup_name r name = some m := by simp [lookup_name, hm]
    simp only [visible_records, hl, List.mem_cons, exists_eq_or_imp, hm, Option.some.injEq]
    by_cases hv : lv_is_visible (some m) = true
    · simp only [hv, if_true, List.map_cons, List.mem_cons, ih']
      constructor
      · rintro (rfl | h)
        · exact ⟨hv, Or.inl rfl⟩
        · exact ⟨h.1, Or.inr h.2⟩
      · rintro ⟨h1, rfl | h2⟩
        · exact Or.inl rfl
        · exact Or.inr ⟨h1, h2⟩
    · have hv' : lv_is_visible (some m) = false := by simpa using hv
      simp only [hv', Bool.false_eq_true, if_false, ih']
      constructor
      · rintro h
        exact ⟨h.1, Or.inr h.2⟩
      · rintro ⟨h1, rfl | h2⟩
        · exact absurd h1 hv
        · exact ⟨h1, h2⟩

theorem count_dispose_reconcile_calls (t : List (String × UlLogicalVolume))
    (ps : List (String × Dict)) (k : String) :
    (reconcile_calls t ps).count (Call.dispose_volume k) = 0 := by
  induction ps generalizing t with
  | nil => simp [reconcile_calls]
  | cons p ps ih =>
    simp only [reconcile_calls, List.count_append, ih, add_zero]
    have h1 : (if (g_hash_table_lookup t p.1).isNone = true then [Call.new_volume p.1]
        else []).count (Call.dispose_volume k) = 0 := by
      split <;> simp
    have h2 : (if ((g_hash_table_lookup t p.1).getD ul_logical_volume_new).need_publish = true
        then [Call.publish_volume p.1] else []).count (Call.dispose_volume k) = 0 := by
      split <;> simp
    rw [h1, h2]

theorem count_dispose_map (t : List (String × UlLogicalVolume)) (k : String) :
    (t.map (fun e => Call.dispose_volume e.1)).count (Call.dispose_volume k)
      = (keys t).count k := by
  induction t with
  | nil => simp [keys]
  | cons e t ih =>
    simp only [keys, List.map_cons] at ih ⊢
    by_cases h : e.1 = k
    · simp [h, ih]
    · have h' : ¬ Call.dispose_volume e.1 = Call.dispose_volume k := by simpa using h
      rw [List.count_cons_of_ne (Ne.symm h'), List.count_cons_of_ne (Ne.symm h), ih]

theorem keys_kept_volumes (t : List (String × UlLogicalVolume)) (new_lvs : List String) :
    keys (kept_volumes t new_lvs) = (keys t).filter (fun k => new_lvs.contains k) := by
  simp [keys, kept_volumes, List.filter_map, Function.comp_def]

theorem keys_stale_volumes (t : List (String × UlLogicalVolume)) (new_lvs : List String) :
    keys (stale_volumes t new_lvs) = (keys t).filter (fun k => !new_lvs.contains k) := by
  simp [keys, stale_volumes, List.filter_map, Function.comp_def]


theorem mem_visible_names (info : Info) (n : String) :
    n ∈ visible_names info
      ↔ lv_is_visible (some n) = true
        ∧ ∃ r ∈ info.lvs.getD [], g_variant_lookup_s r "name" = some n := by
  simp only [visible_names, List.mem_filter, List.mem_filterMap]
  tauto

theorem mem_new_lvs (name0 : Option String) (info : Info)
    (hnames : ∀ r ∈ info.lvs.getD [], (g_variant_lookup_s r "name").isSome = true) (n : String) :
    n ∈ (visible_records name0 (info.lvs.getD [])).map Prod.fst ↔ n ∈ visible_names info := by
  rw [mem_visible_records_fst name0 _ hnames, mem_visible_names]

/-- After a successful `update_with_variant` on a snapshot whose records all
carry a name, the keys of `logical_volumes` are exactly the visible names of the
snapshot, without repetition; a volume is disposed by the pass exactly once when
it was in the table and its name is not among them, and not at all otherwise. -/
theorem stale_removal (env : Env) (name0 : Option String) (info : Info) (w : World)
    (hnames : ∀ r ∈ info.lvs.getD [], (g_variant_lookup_s r "name").isSome = true)
    (hkeys : (keys w.self.logical_volumes).Nodup) :
    (∀ k, k ∈ keys (update_with_variant env name0 (Except.ok info) w).self.logical_volumes
        ↔ k ∈ visible_names info)
      ∧ (keys (update_with_variant env name0 (Except.ok info) w).self.logical_volumes).Nodup
      ∧ (∀ k, (update_with_variant env name0 (Except.ok info) { w with log := [] }).log.count
            (Call.dispose_volume k)
          = if k ∈ keys w.self.logical_volumes ∧ k ∉ visible_names info then 1 else 0) := by
  have hnd := nodup_keys_reconcile w.self.logical_volumes
    (visible_records name0 (info.lvs.getD [])) hkeys
  refine ⟨fun k => ?_, ?_, fun k => ?_⟩
  · rw [update_ok_volumes, keys_kept_volumes, List.mem_filter, mem_keys_reconcile,
      List.elem_iff, mem_new_lvs name0 info hnames]
    tauto
  · rw [update_ok_volumes, keys_kept_volumes]
    exact hnd.filter _
  · rw [update_ok_log]
    simp only [List.nil_append, List.count_append, count_dispose_reconcile_calls,
      count_dispose_map, add_zero]
    have h0 : (if w.self.need_publish = true
        then [Call.publish_group (env.build_object_path w.self.name)]
        else []).count (Call.dispose_volume k) = 0 := by
      split <;> simp
    rw [h0, zero_add, keys_stale_volumes]
    have hmem : k ∈ (keys ((visible_records name0 (info.lvs.getD [])).foldl reconcile_volume
          w.self.logical_volumes)).filter
          (fun k => !((visible_records name0 (info.lvs.getD [])).map Prod.fst).contains k)
        ↔ k ∈ keys w.self.logical_volumes ∧ k ∉ visible_names info := by
      rw [List.mem_filter, mem_keys_reconcile, Bool.not_eq_true', ← Bool.not_eq_true,
        List.elem_iff, mem_new_lvs name0 info hnames]
      tauto
    by_cases hk : k ∈ keys w.self.logical_volumes ∧ k ∉ visible_names info
    · rw [if_pos hk]
      exact List.count_eq_one_of_mem (hnd.filter _) (hmem.mpr hk)
    · rw [if_neg hk]
      exact List.count_eq_zero_of_not_mem (fun h => hk (hmem.mp h))

/-- The snapshot with `A` alone, applied after the snapshot with `A` and `B`:
only `A` is left and `B` is disposed once. -/
theorem stale_removal_witness :
    (∀ r ∈ (snapshot [lv_record "A" 1]).lvs.getD [],
        (g_variant_lookup_s r "name").isSome = true)
      ∧ (keys world_ab.self.logical_volumes).Nodup
      ∧ keys world_ab.self.logical_volumes = ["A", "B"]
      ∧ (∀ k, k ∈ keys (update_with_variant env0 none (Except.ok (snapshot [lv_record "A" 1]))
            world_ab).self.logical_volumes ↔ k ∈ visible_names (snapshot [lv_record "A" 1]))
      ∧ keys (update_with_variant env0 none (Except.ok (snapshot [lv_record "A" 1]))
            world_ab).self.logical_volumes = ["A"]
      ∧ (update_with_variant env0 none (Except.ok (snapshot [lv_record "A" 1]))
            { world_ab with log := [] }).log.count (Call.dispose_volume "B") = 1
      ∧ (update_with_variant env0 none (Except.ok (snapshot [lv_record "A" 1]))
            { world_ab with log := [] }).log.count (Call.dispose_volume "A") = 0 :=
  have h1 : ∀ r ∈ (snapshot [lv_record "A" 1]).lvs.getD [],
      (g_variant_lookup_s r "name").isSome = true := by decide
  have h2 : (keys world_ab.self.logical_volumes).Nodup := by decide
  have t := stale_removal env0 none (snapshot [lv_record "A" 1]) world_ab h1 h2
  ⟨h1, h2, by decide, t.1, by decide, (t.2.2 "B").trans (by decide),
    (t.2.2 "A").trans (by decide)⟩


/-- C2: the keys of `logical_volumes` after a successful pass are not the
visible names of the snapshot when the first record of `lvs` has no name. The
loop of `update_with_variant` does not test the lookup of `name` and goes on
with what the local `name` held before, here the string `X`: a volume `X` is
created and kept, although the only visible name of the snapshot is `A`. When
the local holds `B` and the table has the volumes `A` and `B`, the volume `B`,
whose name is absent from the snapshot, is neither removed nor disposed. -/
theorem nameless_first_record_kept :
    keys (update_with_variant env0 (some "X")
        (Except.ok (snapshot [nameless_record, lv_record "A" 1])) world0).self.logical_volumes
        = ["X", "A"]
      ∧ visible_names (snapshot [nameless_record, lv_record "A" 1]) = ["A"]
      ∧ "X" ∈ keys (update_with_variant env0 (some "X")
          (Except.ok (snapshot [nameless_record, lv_record "A" 1])) world0).self.logical_volumes
      ∧ "X" ∉ visible_names (snapshot [nameless_record, lv_record "A" 1])
      ∧ keys world_ab.self.logical_volumes = ["A", "B"]
      ∧ keys (update_with_variant env0 (some "B")
          (Except.ok (snapshot [nameless_record, lv_record "A" 1]))
          world_ab).self.logical_volumes = ["A", "B"]
      ∧ (update_with_variant env0 (some "B")
          (Except.ok (snapshot [nameless_record, lv_record "A" 1]))
          { world_ab with log := [] }).log.count (Call.dispose_volume "B") = 0 := by
  decide

theorem lookup_insert {V : Type} (t : List (String × V)) (k : String) (v : V) (x : String) :
    g_hash_table_lookup (g_hash_table_insert t k v) x
      = if k = x then some v else g_hash_table_lookup t x := by
  induction t with
  | nil => simp [g_hash_table_insert, g_hash_table_lookup]
  | cons e t ih =>
    obtain ⟨k', w⟩ := e
    simp only [g_hash_table_insert]
    by_cases h : k' = k
    · subst h
      by_cases hx : k' = x <;> simp [g_hash_table_lookup, hx]
    · simp only [h, if_false, g_hash_table_lookup, ih]
      by_cases hx : k' = x
      · subst hx
        simp [Ne.symm h]
      · simp [hx]

theorem lookup_eq_none_iff {V : Type} (t : List (String × V)) (k : String) :
    g_hash_table_lookup t k = none ↔ k ∉ keys t := by
  induction t with
  | nil => simp [g_hash_table_lookup, keys]
  | cons e t ih =>
    obtain ⟨k', w⟩ := e
    simp only [g_hash_table_lookup, keys, List.map_cons, List.mem_cons, not_or] at ih ⊢
    by_cases h : k' = k
    · simp [h]
    · simp [h, ih, Ne.symm h]

theorem lookup_filter {V : Type} (t : List (String × V)) (p : String → Bool) (k : String) :
    g_hash_table_lookup (t.filter (fun e => p e.1)) k
      = if p k = true then g_hash_table_lookup t k else none := by
  induction t with
  | nil => simp [g_hash_table_lookup]
  | cons e t ih =>
    obtain ⟨k', w⟩ := e
    by_cases hp : p k' = true
    · simp only [List.filter_cons, hp, if_true, g_hash_table_lookup, ih]
      by_cases h : k' = k
      · subst h; simp [hp]
      · simp [h]
    · have hp' : p k' = false := by simpa using hp
      rw [List.filter_cons_of_neg (by simpa using hp), ih]
      by_cases h : k' = k
      · subst h; simp [hp']
      · simp [g_hash_table_lookup, h]

theorem table_ext {V : Type} (t t' : List (String × V)) (hk : keys t = keys t')
    (hnd : (keys t).Nodup)
    (hl : ∀ k ∈ keys t, g_hash_table_lookup t k = g_hash_table_lookup t' k) : t = t' := by
  induction t generalizing t' with
  | nil =>
    cases t' with
    | nil => rfl
    | cons e t' => simp [keys] at hk
  | cons e t ih =>
    cases t' with
    | nil => simp [keys] at hk
    | cons e' t' =>
      obtain ⟨k, v⟩ := e
      obtain ⟨k', v'⟩ := e'
      simp only [keys, List.map_cons, List.cons.injEq] at hk
      obtain ⟨rfl, hk⟩ := hk
      simp only [keys, List.map_cons, List.nodup_cons] at hnd
      have hv : v = v' := by
        have := hl k (by simp [keys])
        simpa [g_hash_table_lookup] using this
      subst hv
      congr 1
      refine ih t' hk hnd.2 (fun x hx => ?_)
      have hne : ¬ k = x := fun h => hnd.1 (h ▸ hx)
      have := hl x (by simp only [keys, List.map_cons, List.mem_cons]; exact Or.inr hx)
      simpa [g_hash_table_lookup, hne] using this

theorem lookup_reconcile (t : List (String × UlLogicalVolume)) (ps : List (String × Dict))
    (k : String) :
    g_hash_table_lookup (ps.foldl reconcile_volume t) k
      = match latest ps k with
        | some d => some { info := d, need_publish := false }
        | none => g_hash_table_lookup t k := by
  induction ps generalizing t with
  | nil => simp [latest]
  | cons p ps ih =>
    rw [List.foldl_cons, ih]
    simp only [latest]
    cases latest ps k with
    | some d => rfl
    | none =>
      simp only [reconcile_volume, lookup_insert, ul_logical_volume_update]
      by_cases h : p.1 = k <;> simp [h]

theorem latest_isSome (ps : List (String × Dict)) (k : String) :
    (latest ps k).isSome = true ↔ k ∈ ps.map Prod.fst := by
  induction ps with
  | nil => simp [latest]
  | cons p ps ih =>
    simp only [latest, List.map_cons, List.mem_cons]
    cases h : latest ps k with
    | some d =>
      rw [h] at ih
      simp [ih.mp rfl]
    | none =>
      rw [h] at ih
      have hk : k ∉ ps.map Prod.fst := fun x => by simpa using ih.mpr x
      by_cases hp : p.1 = k
      · simp [hp]
      · simp [hp, hk, Ne.symm hp]

theorem keys_reconcile_of_mem (t : List (String × UlLogicalVolume)) (ps : List (String × Dict))
    (h : ∀ k ∈ ps.map Prod.fst, k ∈ keys t) : keys (ps.foldl reconcile_volume t) = keys t := by
  induction ps generalizing t with
  | nil => rfl
  | cons p ps ih =>
    have hp : p.1 ∈ keys t := h p.1 (by simp)
    have hkeys : keys (reconcile_volume t p) = keys t := by
      rw [reconcile_volume, keys_insert, if_pos hp]
    rw [List.foldl_cons, ih, hkeys]
    intro k hk
    rw [hkeys]
    exact h k (by simp only [List.map_cons, List.mem_cons]; exact Or.inr hk)

theorem reconcile_calls_eq_nil (t : List (String × UlLogicalVolume)) (ps : List (String × Dict))
    (h : ∀ k ∈ ps.map Prod.fst,
      ∃ v, g_hash_table_lookup t k = some v ∧ v.need_publish = false) :
    reconcile_calls t ps = [] := by
  induction ps generalizing t with
  | nil => rfl
  | cons p ps ih =>
    obtain ⟨v, hv, hnp⟩ := h p.1 (by simp)
    simp only [reconcile_calls, hv, Option.isNone_some, Option.getD_some, hnp, if_false,
      Bool.false_eq_true, List.nil_append]
    apply ih
    intro k hk
    rw [reconcile_volume, lookup_insert]
    by_cases hpk : p.1 = k
    · exact ⟨_, by rw [if_pos hpk], rfl⟩
    · rw [if_neg hpk]
      exact h k (by simp only [List.map_cons, List.mem_cons]; exact Or.inr hk)

theorem visible_records_named (name name' : Option String) (rs : List Dict)
    (hnames : ∀ r ∈ rs, (g_variant_lookup_s r "name").isSome = true) :
    visible_records name rs = visible_records name' rs := by
  cases rs with
  | nil => rfl
  | cons r rs =>
    obtain ⟨m, hm⟩ := Option.isSome_iff_exists.mp (hnames r (List.mem_cons_self _ _))
    simp [visible_records, lookup_name, hm]


theorem lookup_kept_reconcile (t : List (String × UlLogicalVolume)) (ps : List (String × Dict))
    (k : String) (hk : k ∈ ps.map Prod.fst) :
    ∃ d, latest ps k = some d
      ∧ g_hash_table_lookup (kept_volumes (ps.foldl reconcile_volume t) (ps.map Prod.fst)) k
        = some { info := d, need_publish := false } := by
  obtain ⟨d, hd⟩ := Option.isSome_iff_exists.mp ((latest_isSome ps k).mpr hk)
  refine ⟨d, hd, ?_⟩
  have hc : (ps.map Prod.fst).contains k = true := List.elem_iff.mpr hk
  rw [kept_volumes, lookup_filter _ (fun k => (ps.map Prod.fst).contains k), if_pos hc,
    lookup_reconcile, hd]

theorem reconcile_fixed (t : List (String × UlLogicalVolume)) (ps : List (String × Dict))
    (hnd : (keys t).Nodup) :
    ps.foldl reconcile_volume (kept_volumes (ps.foldl reconcile_volume t) (ps.map Prod.fst))
      = kept_volumes (ps.foldl reconcile_volume t) (ps.map Prod.fst) := by
  have hmem : ∀ k ∈ ps.map Prod.fst,
      k ∈ keys (kept_volumes (ps.foldl reconcile_volume t) (ps.map Prod.fst)) := by
    intro k hk
    rw [keys_kept_volumes, List.mem_filter, mem_keys_reconcile, List.elem_iff]
    exact ⟨Or.inr hk, hk⟩
  have hkeys := keys_reconcile_of_mem _ ps hmem
  have hnd1 : (keys (kept_volumes (ps.foldl reconcile_volume t) (ps.map Prod.fst))).Nodup := by
    rw [keys_kept_volumes]
    exact (nodup_keys_reconcile t ps hnd).filter _
  refine table_ext _ _ hkeys (hkeys ▸ hnd1) (fun k hk => ?_)
  rw [hkeys, keys_kept_volumes, List.mem_filter, List.elem_iff] at hk
  obtain ⟨d, hd, hl⟩ := lookup_kept_reconcile t ps k hk.2
  rw [lookup_reconcile, hd, hl]

theorem kept_volumes_kept (t : List (String × UlLogicalVolume)) (new_lvs : List String) :
    kept_volumes (kept_volumes t new_lvs) new_lvs = kept_volumes t new_lvs := by
  simp [kept_volumes]

theorem stale_volumes_kept (t : List (String × UlLogicalVolume)) (new_lvs : List String) :
    stale_volumes (kept_volumes t new_lvs) new_lvs = [] := by
  simp only [stale_volumes, kept_volumes, List.filter_filter, List.filter_eq_nil_iff]
  intro e _
  simp

/-- When `update_with_variant` is applied a second time with the same
snapshot, whose records all carry a name, `logical_volumes` is the table left
by the first application, the group is not in need of publishing, and the
second application makes no call at all: it creates, publishes and disposes no
volume and does not publish the group. -/
theorem reconcile_idempotent (env : Env) (name0 name1 : Option String) (info : Info) (w : World)
    (hnames : ∀ r ∈ info.lvs.getD [], (g_variant_lookup_s r "name").isSome = true)
    (hkeys : (keys w.self.logical_volumes).Nodup) :
    (update_with_variant env name1 (Except.ok info)
        { update_with_variant env name0 (Except.ok info) w with log := [] }).self.logical_volumes
        = (update_with_variant env name0 (Except.ok info) w).self.logical_volumes
      ∧ (update_with_variant env name0 (Except.ok info) w).self.need_publish = false
      ∧ (update_with_variant env name1 (Except.ok info)
        { update_with_variant env name0 (Except.ok info) w with log := [] }).log = [] := by
  have hV := visible_records_named name1 name0 _ hnames
  have hnp : (update_with_variant env name0 (Except.ok info) w).self.need_publish = false := by
    simp [update_with_variant, (publish_if_needed_frame env _).2.1]
  refine ⟨?_, hnp, ?_⟩
  · rw [update_ok_volumes, hV]
    simp only [update_ok_volumes]
    rw [reconcile_fixed _ _ hkeys, kept_volumes_kept]
  · rw [update_ok_log, hV]
    simp only [hnp, update_ok_volumes, Bool.false_eq_true, if_false, List.nil_append,
      List.append_nil]
    rw [reconcile_fixed _ _ hkeys, stale_volumes_kept, reconcile_calls_eq_nil]
    · rfl
    · intro k hk
      obtain ⟨d, _, hl⟩ := lookup_kept_reconcile w.self.logical_volumes _ k hk
      exact ⟨_, hl, rfl⟩

/-- The snapshot with `A` and `B`, applied twice to the fresh group. -/
theorem reconcile_idempotent_witness :
    (∀ r ∈ (snapshot [lv_record "A" 1, lv_record "B" 2]).lvs.getD [],
        (g_variant_lookup_s r "name").isSome = true)
      ∧ (keys world0.self.logical_volumes).Nodup
      ∧ (update_with_variant env0 none (Except.ok (snapshot [lv_record "A" 1, lv_record "B" 2]))
        { world_ab with log := [] }).self.logical_volumes = world_ab.self.logical_volumes
      ∧ world_ab.self.need_publish = false
      ∧ (update_with_variant env0 none (Except.ok (snapshot [lv_record "A" 1, lv_record "B" 2]))
        { world_ab with log := [] }).log = []
      ∧ world_ab.log = [Call.publish_group "/org/freedesktop/UDisks2/lvm/vg0",
          Call.new_volume "A", Call.publish_volume "A",
          Call.new_volume "B", Call.publish_volume "B"] :=
  have h1 : ∀ r ∈ (snapshot [lv_record "A" 1, lv_record "B" 2]).lvs.getD [],
      (g_variant_lookup_s r "name").isSome = true := by decide
  have h2 : (keys world0.self.logical_volumes).Nodup := by decide
  have t := reconcile_idempotent env0 none none
    (snapshot [lv_record "A" 1, lv_record "B" 2]) world0 h1 h2
  ⟨h1, h2, t.1, t.2.1, t.2.2, by decide⟩


/-- C4: a create or rename closure replies twice when the job fails after the
awaited object was published: the publication handler replies and releases the
closure, and the handler of `completed`, which stays connected, replies with
the error through the released closure. -/
theorem failure_after_publication_replies_twice (invocation self wait_sig : Nat) (name : String)
    (path : Option String) (message : String) :
    ([Event.published_volume { name := name, volume_group := self, object_path := path },
        Event.completed false message].foldl deliver
          (register_create invocation self name wait_sig)).replies
        = [Reply.value invocation path,
            Reply.error invocation ("Error creating logical volume: " ++ message)]
      ∧ ([Event.published_volume { name := name, volume_group := self, object_path := path },
        Event.completed false message].foldl deliver
          (register_create invocation self name wait_sig)).stale_reads = 1
      ∧ ([Event.published_group { name := name, object_path := path },
        Event.completed false message].foldl deliver
          (register_rename invocation name wait_sig)).replies
        = [Reply.value invocation path,
            Reply.error invocation ("Error renaming volume group: " ++ message)]
      ∧ ([Event.published_group { name := name, object_path := path },
        Event.completed false message].foldl deliver
          (register_rename invocation name wait_sig)).stale_reads = 1 := by
  simp [deliver, register_create, register_rename, on_create_logical_volume,
    on_rename_volume_group, on_create_complete, on_rename_complete, on_complete, disconnect]

/-- C5, as the claim states it, fails: the failure sent for the message
`disk full` does not carry the message `disk full`. -/
theorem failure_message_not_verbatim :
    (deliver (register_create 7 1 "data" 3) (Event.completed false "disk full")).replies
      ≠ [Reply.error 7 "disk full"] := by
  decide

/-- C5, amended: when the job of a create closure that has replied to nothing
fails with message `m`, the invocation is answered with the error `Error
creating logical volume: ` followed by `m`, the publication handler is
disconnected, and a publication delivered afterwards changes nothing. -/
theorem failure_short_circuit (invocation self wait_sig : Nat) (name m : String)
    (volume : PublishedVolume) :
    (deliver (register_create invocation self name wait_sig) (Event.completed false m)).replies
        = [Reply.error invocation ("Error creating logical volume: " ++ m)]
      ∧ (deliver (register_create invocation self name wait_sig)
          (Event.completed false m)).connected = false
      ∧ (deliver (register_create invocation self name wait_sig)
          (Event.completed false m)).stale_reads = 0
      ∧ deliver (deliver (register_create invocation self name wait_sig)
          (Event.completed false m)) (Event.published_volume volume)
        = deliver (register_create invocation self name wait_sig) (Event.completed false m) := by
  simp [deliver, register_create, on_create_complete, on_complete, disconnect]

/-- C6: a publication delivered to a create closure registered for the name `n`
under the group `g` is answered, with the object path of the volume, exactly
when the volume has the name `n` and belongs to `g`; a successful completion of
the job changes nothing, whatever the closure, so that the publication of the
awaited volume followed by a successful completion leaves one reply. -/
theorem publication_resolves (invocation g wait_sig : Nat) (n m : String)
    (volume : PublishedVolume) (path : Option String) (w : Waiter) :
    (deliver (register_create invocation g n wait_sig) (Event.published_volume volume)).replies
        = (if volume.name = n ∧ volume.volume_group = g
            then [Reply.value invocation volume.object_path] else [])
      ∧ (deliver (register_create invocation g n wait_sig)
          (Event.published_volume volume)).connected
        = (if volume.name = n ∧ volume.volume_group = g then false else true)
      ∧ on_create_complete w true m = w
      ∧ ([Event.published_volume { name := n, volume_group := g, object_path := path },
          Event.completed true m].foldl deliver (register_create invocation g n wait_sig)).replies
        = [Reply.value invocation path]
      ∧ ([Event.published_volume { name := n, volume_group := g, object_path := path },
          Event.completed true m].foldl deliver
            (register_create invocation g n wait_sig)).stale_reads = 0 := by
  refine ⟨?_, ?_, ?_, ?_, ?_⟩
  · by_cases h : volume.name = n ∧ volume.volume_group = g <;>
      simp [deliver, register_create, on_create_logical_volume, disconnect, h]
  · by_cases h : volume.name = n ∧ volume.volume_group = g <;>
      simp [deliver, register_create, on_create_logical_volume, disconnect, h]
  · simp [on_create_complete, on_complete]
  · simp [deliver, register_create, on_create_logical_volume, on_create_complete, on_complete,
      disconnect]
  · simp [deliver, register_create, on_create_logical_volume, on_create_complete, on_complete,
      disconnect]


theorem volume_group_update_props_values (env : Env) (self : UlVolumeGroup) (d : Dict) :
    (volume_group_update_props env self d).size = (g_variant_lookup_t d "size").getD self.size
      ∧ (volume_group_update_props env self d).free_size
        = (g_variant_lookup_t d "free-size").getD self.free_size
      ∧ (volume_group_update_props env self d).extent_size
        = (g_variant_lookup_t d "extent-size").getD self.extent_size
      ∧ (volume_group_update_props env self d).uuid
        = (match g_variant_lookup_s d "uuid" with
          | some str => some str
          | none => self.uuid)
      ∧ (volume_group_update_props env self d).display_name
        = (match g_variant_lookup_s d "name" with
          | some str => some (env.decode_lvm_name str)
          | none => self.display_name) := by
  unfold volume_group_update_props
  cases g_variant_lookup_s d "name" <;> cases g_variant_lookup_s d "uuid" <;>
    cases g_variant_lookup_t d "size" <;> cases g_variant_lookup_t d "free-size" <;>
    cases g_variant_lookup_t d "extent-size" <;> simp

/-- The loop of `poll_with_variant` gives every volume of the table the records
that bear its name, in their order, and hands every record to
`update_operations`. -/
theorem poll_loop_effect (blocks : List UlBlock) (st : PollLoop) (rs : List Dict) :
    (∀ k, g_hash_table_lookup (rs.foldl (poll_iteration blocks) st).logical_volumes k
        = (g_hash_table_lookup st.logical_volumes k).map
            (fun v => (volume_records st.name rs k).foldl ul_logical_volume_update v))
      ∧ (rs.foldl (poll_iteration blocks) st).jobs
        = (lookup_names st.name rs).foldl
            (fun jobs p => (update_operations blocks p.1 p.2 jobs false).1) st.jobs := by
  induction rs generalizing st with
  | nil =>
    refine ⟨fun k => ?_, rfl⟩
    simp only [List.foldl_nil]
    cases g_hash_table_lookup st.logical_volumes k <;> rfl
  | cons r rs ih =>
    have hname : (poll_iteration blocks st r).name = lookup_name r st.name := by
      unfold poll_iteration
      cases lookup_name r st.name with
      | none => rfl
      | some n =>
        simp only
        cases g_hash_table_lookup st.logical_volumes n <;> rfl
    have hjobs : (poll_iteration blocks st r).jobs
        = (update_operations blocks (lookup_name r st.name) r st.jobs false).1 := by
      unfold poll_iteration
      cases lookup_name r st.name with
      | none => rfl
      | some n =>
        simp only
        cases g_hash_table_lookup st.logical_volumes n <;> rfl
    obtain ⟨ih1, ih2⟩ := ih (poll_iteration blocks st r)
    refine ⟨fun k => ?_, ?_⟩
    · rw [List.foldl_cons, ih1 k, hname]
      unfold poll_iteration
      cases hn : lookup_name r st.name with
      | none =>
        simp only [volume_records, lookup_names, hn]
        simp
      | some n =>
        simp only
        cases hl : g_hash_table_lookup st.logical_volumes n with
        | none =>
          simp only [volume_records, lookup_names, hn]
          by_cases hk : n = k
          · subst hk
            simp [hl]
          · simp [hk]
        | some vn =>
          simp only [lookup_insert, volume_records, lookup_names, hn]
          by_cases hk : n = k
          · subst hk
            simp [hl]
          · simp [hk]
    · rw [List.foldl_cons, ih2, hname, hjobs]
      rfl

/-- C7: from a group without armed timer and running fetch, three poll requests
start one fetch and leave the request flag set; the expiry of the timer then
starts one more fetch, after a signal to the first, and the pid of that second
fetch is `poll_pid`; of the results delivered afterwards, the one of the second
fetch is applied and every other is dropped. Applying the result of the second
fetch resets `poll_pid`; an error is logged and changes nothing else; a
dictionary sets the properties of the group it has, gives every volume of the
table the records that bear its name, and hands every record to
`update_operations`. -/
theorem three_polls_coalesce (env : Env) (name0 : Option String) (w : World)
    (t1 p1 t2 p2 t3 p3 t4 p4 : Nat) (result : Except String Info)
    (htimer : w.self.poll_timeout_id = 0) (hpid : w.self.poll_pid = 0)
    (ht1 : t1 ≠ 0) (hp1 : p1 ≠ 0) :
    (three_polls t1 p1 t2 p2 t3 p3 { w with log := [] }).log
        = [Call.timeout_add 5000 t1, Call.spawn_poll p1]
      ∧ (three_polls t1 p1 t2 p2 t3 p3 { w with log := [] }).self.poll_requested = true
      ∧ (poll_timeout t4 p4 (three_polls t1 p1 t2 p2 t3 p3 { w with log := [] })).log
        = [Call.timeout_add 5000 t1, Call.spawn_poll p1,
            Call.timeout_add 5000 t4, Call.kill p1, Call.spawn_poll p4]
      ∧ spawned (poll_timeout t4 p4 (three_polls t1 p1 t2 p2 t3 p3 { w with log := [] })).log
        = [{ pid := p1, callback := Callback.poll }, { pid := p4, callback := Callback.poll }]
      ∧ (poll_timeout t4 p4
          (three_polls t1 p1 t2 p2 t3 p3 { w with log := [] })).self.poll_requested = false
      ∧ poll_with_variant env name0 p4 result
          (poll_timeout t4 p4 (three_polls t1 p1 t2 p2 t3 p3 { w with log := [] }))
        = poll_apply env name0 result
          (poll_timeout t4 p4 (three_polls t1 p1 t2 p2 t3 p3 { w with log := [] }))
      ∧ (∀ pid, pid ≠ p4 →
        poll_with_variant env name0 pid result
          (poll_timeout t4 p4 (three_polls t1 p1 t2 p2 t3 p3 { w with log := [] }))
        = poll_timeout t4 p4 (three_polls t1 p1 t2 p2 t3 p3 { w with log := [] }))
      ∧ (poll_timeout t4 p4
          (three_polls t1 p1 t2 p2 t3 p3 { w with log := [] })).self.poll_pid = p4
      ∧ (poll_with_variant env name0 p4 result
          (poll_timeout t4 p4
            (three_polls t1 p1 t2 p2 t3 p3 { w with log := [] }))).self.poll_pid = 0
      ∧ (∀ message,
        poll_with_variant env name0 p4 (Except.error message)
          (poll_timeout t4 p4 (three_polls t1 p1 t2 p2 t3 p3 { w with log := [] }))
        = { w with
            self := { w.self with poll_timeout_id := t4, poll_pid := 0, poll_requested := false }
            log := [Call.timeout_add 5000 t1, Call.spawn_poll p1,
              Call.timeout_add 5000 t4, Call.kill p1, Call.spawn_poll p4,
              Call.message
                ("Failed to poll LVM volume group " ++ w.self.name ++ ": " ++ message)] })
      ∧ (∀ info,
        (poll_with_variant env name0 p4 (Except.ok info)
            (poll_timeout t4 p4
              (three_polls t1 p1 t2 p2 t3 p3 { w with log := [] }))).self.size
          = (g_variant_lookup_t info.props "size").getD w.self.size
        ∧ (poll_with_variant env name0 p4 (Except.ok info)
            (poll_timeout t4 p4
              (three_polls t1 p1 t2 p2 t3 p3 { w with log := [] }))).self.free_size
          = (g_variant_lookup_t info.props "free-size").getD w.self.free_size
        ∧ (poll_with_variant env name0 p4 (Except.ok info)
            (poll_timeout t4 p4
              (three_polls t1 p1 t2 p2 t3 p3 { w with log := [] }))).self.extent_size
          = (g_variant_lookup_t info.props "extent-size").getD w.self.extent_size
        ∧ (poll_with_variant env name0 p4 (Except.ok info)
            (poll_timeout t4 p4
              (three_polls t1 p1 t2 p2 t3 p3 { w with log := [] }))).self.uuid
          = (match g_variant_lookup_s info.props "uuid" with
            | some str => some str
            | none => w.self.uuid)
        ∧ (poll_with_variant env name0 p4 (Except.ok info)
            (poll_timeout t4 p4
              (three_polls t1 p1 t2 p2 t3 p3 { w with log := [] }))).self.display_name
          = (match g_variant_lookup_s info.props "name" with
            | some str => some (env.decode_lvm_name str)
            | none => w.self.display_name)
        ∧ (∀ k, g_hash_table_lookup
            (poll_with_variant env name0 p4 (Except.ok info)
              (poll_timeout t4 p4
                (three_polls t1 p1 t2 p2 t3 p3 { w with log := [] }))).self.logical_volumes k
          = (g_hash_table_lookup w.self.logical_volumes k).map
              (fun v =>
                (volume_records name0 (info.lvs.getD []) k).foldl ul_logical_volume_update v))
        ∧ (poll_with_variant env name0 p4 (Except.ok info)
            (poll_timeout t4 p4 (three_polls t1 p1 t2 p2 t3 p3 { w with log := [] }))).jobs
          = (lookup_names name0 (info.lvs.getD [])).foldl
              (fun jobs p => (update_operations w.blocks p.1 p.2 jobs false).1) w.jobs) := by
  have h3 : three_polls t1 p1 t2 p2 t3 p3 { w with log := [] }
      = { w with
          self := { w.self with poll_timeout_id := t1, poll_pid := p1, poll_requested := true }
          log := [Call.timeout_add 5000 t1, Call.spawn_poll p1] } := by
    simp [three_polls, poll_in_main, poll_now, htimer, hpid, ht1]
  have h4 : poll_timeout t4 p4 (three_polls t1 p1 t2 p2 t3 p3 { w with log := [] })
      = { w with
          self := { w.self with poll_timeout_id := t4, poll_pid := p4, poll_requested := false }
          log := [Call.timeout_add 5000 t1, Call.spawn_poll p1,
            Call.timeout_add 5000 t4, Call.kill p1, Call.spawn_poll p4] } := by
    rw [h3]
    simp [poll_timeout, poll_now, hp1]
  rw [h4, h3]
  refine ⟨rfl, rfl, rfl, rfl, rfl, ?_, fun pid hpid => ?_, rfl, ?_, fun message => ?_,
    fun info => ?_⟩
  · simp [poll_with_variant]
  · simp [poll_with_variant, hpid]
  · cases result with
    | error message => simp [poll_with_variant, poll_apply]
    | ok info =>
      simp [poll_with_variant, poll_apply, (volume_group_update_props_frame env _ _).2.2.2.1]
  · simp [poll_with_variant, poll_apply]
  · have hv := volume_group_update_props_values env
      { w.self with poll_timeout_id := t4, poll_pid := 0, poll_requested := false } info.props
    have hf := volume_group_update_props_frame env
      { w.self with poll_timeout_id := t4, poll_pid := 0, poll_requested := false } info.props
    have hl := poll_loop_effect w.blocks
      { name := name0
        logical_volumes := (volume_group_update_props env
          { w.self with poll_timeout_id := t4, poll_pid := 0, poll_requested := false }
          info.props).logical_volumes
        jobs := w.jobs
        log := [Call.timeout_add 5000 t1, Call.spawn_poll p1,
          Call.timeout_add 5000 t4, Call.kill p1, Call.spawn_poll p4] }
      (info.lvs.getD [])
    simp only [poll_with_variant, poll_apply, ne_eq, not_true_eq_false, if_false]
    exact ⟨hv.1, hv.2.1, hv.2.2.1, hv.2.2.2.1, hv.2.2.2.2,
      fun k => (hl.1 k).trans (by rw [hf.2.2.1]), hl.2⟩

/-- Three requests on the group `vg0` with the volumes `A` and `B`, with the
timers 1 and 2 and the processes 10 and 11: the result of the process 10 is
dropped, and the result of the process 11, with a record for `A`, resets
`poll_pid` and gives `A` the record. -/
theorem three_polls_coalesce_witness :
    world_ab.self.poll_timeout_id = 0 ∧ world_ab.self.poll_pid = 0
      ∧ (1 : Nat) ≠ 0 ∧ (10 : Nat) ≠ 0
      ∧ spawned (three_polls 1 10 0 0 0 0 { world_ab with log := [] }).log
        = [{ pid := 10, callback := Callback.poll }]
      ∧ spawned (poll_timeout 2 11 (three_polls 1 10 0 0 0 0 { world_ab with log := [] })).log
        = [{ pid := 10, callback := Callback.poll }, { pid := 11, callback := Callback.poll }]
      ∧ poll_with_variant env0 none 10 (Except.ok (snapshot [lv_record "A" 7]))
          (poll_timeout 2 11 (three_polls 1 10 0 0 0 0 { world_ab with log := [] }))
        = poll_timeout 2 11 (three_polls 1 10 0 0 0 0 { world_ab with log := [] })
      ∧ (poll_timeout 2 11
          (three_polls 1 10 0 0 0 0 { world_ab with log := [] })).self.poll_pid = 11
      ∧ (poll_with_variant env0 none 11 (Except.ok (snapshot [lv_record "A" 7]))
          (poll_timeout 2 11
            (three_polls 1 10 0 0 0 0 { world_ab with log := [] }))).self.poll_pid = 0
      ∧ (poll_with_variant env0 none 11 (Except.ok (snapshot [lv_record "A" 7]))
          (poll_timeout 2 11
            (three_polls 1 10 0 0 0 0 { world_ab with log := [] }))).self.logical_volumes
        = [("A", { info := lv_record "A" 7, need_publish := false }),
            ("B", { info := lv_record "B" 2, need_publish := false })]
      ∧ (poll_with_variant env0 none 11 (Except.ok (snapshot [lv_record "A" 7]))
          (poll_timeout 2 11
            (three_polls 1 10 0 0 0 0 { world_ab with log := [] }))).self.size = 4096 :=
  have t := three_polls_coalesce env0 none world_ab 1 10 0 0 0 0 2 11
    (Except.ok (snapshot [lv_record "A" 7])) rfl rfl (by decide) (by decide)
  ⟨rfl, rfl, by decide, by decide, by decide, t.2.2.2.1, t.2.2.2.2.2.2.1 10 (by decide),
    t.2.2.2.2.2.2.2.1, t.2.2.2.2.2.2.2.2.1, by decide,
    ((t.2.2.2.2.2.2.2.2.2.2 (snapshot [lv_record "A" 7])).1).trans (by decide)⟩

/-- C8: a result delivered to `poll_with_variant` for a process other than
`poll_pid` leaves the whole world as it was: the group with its `poll_pid`, its
properties and its logical volumes, the jobs, the blocks and the log. -/
theorem stale_result_discarded (env : Env) (name0 : Option String) (pid : Nat)
    (result : Except String Info) (w : World) (h : pid ≠ w.self.poll_pid) :
    poll_with_variant env name0 pid result w = w := by
  simp [poll_with_variant, h]

/-- The result of the process 6 while the group waits for the process 7. -/
theorem stale_result_discarded_witness :
    (6 : Nat) ≠ world_fetching.self.poll_pid
      ∧ poll_with_variant env0 none 6 (Except.ok (snapshot [lv_record "A" 1])) world_fetching
        = world_fetching :=
  ⟨by decide, stale_result_discarded env0 none 6 _ world_fetching (by decide)⟩

/-- C10, as the claim states it, fails: a poll request handled while no timer
is armed and the fetch 7 runs arms a timer, signals the fetch and starts
another one. -/
theorem poll_while_fetching_not_noop :
    world_fetching.self.poll_timeout_id = 0 ∧ world_fetching.self.poll_pid = 7
      ∧ (poll_in_main 1 8 world_fetching).log
        = [Call.timeout_add 5000 1, Call.kill 7, Call.spawn_poll 8]
      ∧ (poll_in_main 1 8 world_fetching).self.poll_pid = 8
      ∧ (poll_in_main 1 8 world_fetching).self.poll_timeout_id = 1
      ∧ poll_in_main 1 8 world_fetching ≠ world_fetching := by
  decide

/-- C10, amended: a poll request handled while no timer is armed and a fetch
runs arms the timer, sends `SIGINT` to the running fetch and starts a new one,
whose pid becomes `poll_pid`; nothing else changes, `poll_requested`
included. -/
theorem poll_while_fetching (w : World) (timeout_id pid : Nat)
    (htimer : w.self.poll_timeout_id = 0) (hpid : w.self.poll_pid ≠ 0) :
    poll_in_main timeout_id pid w
      = { w with
          self := { w.self with poll_timeout_id := timeout_id, poll_pid := pid }
          log := w.log
            ++ [Call.timeout_add 5000 timeout_id, Call.kill w.self.poll_pid,
                Call.spawn_poll pid] } := by
  simp [poll_in_main, poll_now, htimer, hpid]

/-- The request handled with the timer 1 and the process 8 while the fetch 7
runs. -/
theorem poll_while_fetching_witness :
    world_fetching.self.poll_timeout_id = 0 ∧ world_fetching.self.poll_pid ≠ 0
      ∧ poll_in_main 1 8 world_fetching
        = { world_fetching with
            self := { world_fetching.self with poll_timeout_id := 1, poll_pid := 8 }
            log := world_fetching.log
              ++ [Call.timeout_add 5000 1, Call.kill world_fetching.self.poll_pid,
                  Call.spawn_poll 8] } :=
  ⟨rfl, by decide, poll_while_fetching world_fetching 1 8 rfl (by decide)⟩


theorem poll_iteration_log (blocks : List UlBlock) (st : PollLoop) (r : Dict) (c : Call)
    (hc : c ∈ st.log) : c ∈ (poll_iteration blocks st r).log := by
  unfold poll_iteration
  cases lookup_name r st.name with
  | none => exact hc
  | some n =>
    simp only
    cases g_hash_table_lookup st.logical_volumes n with
    | none => exact hc
    | some v => exact List.mem_append_left _ hc

theorem poll_loop_log (blocks : List UlBlock) (st : PollLoop) (rs : List Dict) (c : Call)
    (hc : c ∈ st.log) : c ∈ (rs.foldl (poll_iteration blocks) st).log := by
  induction rs generalizing st with
  | nil => exact hc
  | cons r rs ih => exact ih _ (poll_iteration_log blocks st r c hc)

theorem poll_apply_log (env : Env) (name0 : Option String) (result : Except String Info)
    (w : World) (c : Call) (hc : c ∈ w.log) : c ∈ (poll_apply env name0 result w).log := by
  cases result with
  | error message => exact List.mem_append_left _ hc
  | ok info => exact poll_loop_log _ _ _ c hc

theorem poll_apply_pid (env : Env) (name0 : Option String) (result : Except String Info)
    (w : World) : (poll_apply env name0 result w).self.poll_pid = 0 := by
  cases result with
  | error message => rfl
  | ok info =>
    simp only [poll_apply]
    exact (volume_group_update_props_frame env _ _).2.2.2.1

theorem update_with_variant_log (env : Env) (name0 : Option String)
    (result : Except String Info) (w : World) (c : Call) (hc : c ∈ w.log) :
    c ∈ (update_with_variant env name0 result w).log := by
  cases result with
  | error message =>
    exact List.mem_append_left _ (List.mem_append_left _ hc)
  | ok info =>
    rw [update_ok_log]
    exact List.mem_append_left _ (List.mem_append_left _ (List.mem_append_left _ hc))

theorem update_with_variant_pid (env : Env) (name0 : Option String)
    (result : Except String Info) (w : World) :
    (update_with_variant env name0 result w).self.poll_pid = w.self.poll_pid := by
  cases result with
  | error message =>
    simp only [update_with_variant, publish_if_needed]
    split <;> rfl
  | ok info =>
    simp only [update_with_variant, publish_if_needed]
    split
    · exact (volume_group_update_props_frame env _ _).2.2.2.1
    · exact (volume_group_update_props_frame env _ _).2.2.2.1

theorem run_poll_now (s : Sys) (timeout_id pid : Nat) :
    s.run (poll_now timeout_id pid)
      = { world := poll_now timeout_id pid s.world
          running := s.running ++ [{ pid := pid, callback := Callback.poll }] } := by
  simp only [Sys.run, poll_now, List.append_assoc, List.drop_left]
  split <;> simp [spawned]

theorem run_poll_in_main (s : Sys) (timeout_id pid : Nat) :
    s.run (poll_in_main timeout_id pid)
      = if s.world.self.poll_timeout_id ≠ 0 then
          { world := { s.world with self := { s.world.self with poll_requested := true } }
            running := s.running }
        else s.run (poll_now timeout_id pid) := by
  by_cases h : s.world.self.poll_timeout_id ≠ 0
  · simp [Sys.run, poll_in_main, h, spawned]
  · simp [Sys.run, poll_in_main, h]

theorem run_poll_timeout (s : Sys) (timeout_id pid : Nat) :
    s.run (poll_timeout timeout_id pid)
      = if s.world.self.poll_requested then
          { world := poll_timeout timeout_id pid s.world
            running := s.running ++ [{ pid := pid, callback := Callback.poll }] }
        else
          { world := { s.world with self := { s.world.self with poll_timeout_id := 0 } }
            running := s.running } := by
  by_cases h : s.world.self.poll_requested = true
  · simp only [Sys.run, poll_timeout, h, if_true, poll_now, List.append_assoc, List.drop_left]
    split <;> simp [spawned]
  · simp [Sys.run, poll_timeout, h, spawned]

theorem run_update (s : Sys) (pid : Nat) :
    s.run (ul_volume_group_update pid)
      = { world := ul_volume_group_update pid s.world
          running := s.running ++ [{ pid := pid, callback := Callback.update }] } := by
  simp [Sys.run, ul_volume_group_update, spawned]


theorem superseded_killed_spawn_poll (poll_pid : Nat) (log : List Call) (running : List Fetch)
    (timeout_id pid : Nat) (h : superseded_killed poll_pid log running) (hpid : pid ≠ 0)
    (hfresh : pid ∉ running.map Fetch.pid) :
    superseded_killed pid
      (log ++ [Call.timeout_add 5000 timeout_id]
        ++ (if poll_pid ≠ 0 then [Call.kill poll_pid] else []) ++ [Call.spawn_poll pid])
      (running ++ [{ pid := pid, callback := Callback.poll }]) := by
  obtain ⟨h1, h2, h3⟩ := h
  refine ⟨?_, ?_, ?_⟩
  · rw [List.map_append]
    exact List.Nodup.append h1 (List.nodup_singleton _) (by simpa using hfresh)
  · intro f hf
    rcases List.mem_append.mp hf with hf | hf
    · exact h2 f hf
    · rw [List.mem_singleton.mp hf]; exact hpid
  · intro f hf hcb hne
    rcases List.mem_append.mp hf with hf | hf
    · by_cases hcur : f.pid = poll_pid
      · have h0 : poll_pid ≠ 0 := hcur ▸ h2 f hf
        simp [h0, hcur]
      · have := h3 f hf hcb hcur
        simp [this]
    · rw [List.mem_singleton.mp hf] at hne
      exact absurd rfl hne

theorem superseded_killed_spawn_update (poll_pid : Nat) (log : List Call) (running : List Fetch)
    (pid : Nat) (h : superseded_killed poll_pid log running) (hpid : pid ≠ 0)
    (hfresh : pid ∉ running.map Fetch.pid) :
    superseded_killed poll_pid (log ++ [Call.spawn_update pid])
      (running ++ [{ pid := pid, callback := Callback.update }]) := by
  obtain ⟨h1, h2, h3⟩ := h
  refine ⟨?_, ?_, ?_⟩
  · rw [List.map_append]
    exact List.Nodup.append h1 (List.nodup_singleton _) (by simpa using hfresh)
  · intro f hf
    rcases List.mem_append.mp hf with hf | hf
    · exact h2 f hf
    · rw [List.mem_singleton.mp hf]; exact hpid
  · intro f hf hcb hne
    rcases List.mem_append.mp hf with hf | hf
    · exact List.mem_append_left _ (h3 f hf hcb hne)
    · rw [List.mem_singleton.mp hf] at hcb
      exact Callback.noConfusion hcb

theorem superseded_killed_erase (poll_pid : Nat) (log log' : List Call) (running : List Fetch)
    (fetch : Fetch) (h : superseded_killed poll_pid log running)
    (hlog : ∀ c ∈ log, c ∈ log') :
    superseded_killed poll_pid log' (running.erase fetch) := by
  obtain ⟨h1, h2, h3⟩ := h
  have hsub : ∀ f ∈ running.erase fetch, f ∈ running := fun f hf => List.mem_of_mem_erase hf
  refine ⟨?_, fun f hf => h2 f (hsub f hf), fun f hf hcb hne => hlog _ (h3 f (hsub f hf) hcb hne)⟩
  exact ((List.erase_sublist fetch running).map Fetch.pid).nodup h1

theorem superseded_killed_current (poll_pid : Nat) (log log' : List Call) (running : List Fetch)
    (fetch : Fetch) (h : superseded_killed poll_pid log running) (hf : fetch ∈ running)
    (hcur : fetch.pid = poll_pid) (hlog : ∀ c ∈ log, c ∈ log') :
    superseded_killed 0 log' (running.erase fetch) := by
  have he := superseded_killed_erase poll_pid log log' running fetch h hlog
  obtain ⟨h1, h2, h3⟩ := h
  refine ⟨he.1, he.2.1, fun f hfe hcb _ => ?_⟩
  have hnd : running.Nodup := List.Nodup.of_map _ h1
  have hmem := (hnd.mem_erase_iff).mp hfe
  apply he.2.2 f hfe hcb
  intro hpid
  exact hmem.1 (List.inj_on_of_nodup_map h1 hmem.2 hf (hpid.trans hcur.symm))

theorem reachable_superseded_killed (env : Env) (s : Sys) (h : Reachable env s) :
    superseded_killed s.world.self.poll_pid s.world.log s.running := by
  induction h with
  | init name jobs blocks =>
    exact ⟨List.nodup_nil, fun f hf => absurd hf (List.not_mem_nil f),
      fun f hf => absurd hf (List.not_mem_nil f)⟩
  | poll s timeout_id pid _ _ hpid hfresh ih =>
    rw [run_poll_in_main]
    split
    · exact ih
    · rw [run_poll_now]
      exact superseded_killed_spawn_poll _ _ _ timeout_id pid ih hpid hfresh
  | timeout s timeout_id pid _ _ _ hpid hfresh ih =>
    rw [run_poll_timeout]
    split
    · rename_i hreq
      simp only [poll_timeout, hreq, if_true, poll_now]
      exact superseded_killed_spawn_poll _ _ _ timeout_id pid ih hpid hfresh
    · exact ih
  | update s pid _ hpid hfresh ih =>
    rw [run_update]
    exact superseded_killed_spawn_update _ _ _ pid ih hpid hfresh
  | complete s name0 fetch result _ hmem ih =>
    unfold Sys.complete
    cases hcb : fetch.callback with
    | update =>
      simp only
      rw [update_with_variant_pid]
      exact superseded_killed_erase _ _ _ _ fetch ih
        (fun c hc => update_with_variant_log env name0 result s.world c hc)
    | poll =>
      simp only [poll_with_variant]
      by_cases hcur : fetch.pid = s.world.self.poll_pid
      · simp only [hcur, ne_eq, not_true_eq_false, if_false]
        rw [poll_apply_pid]
        exact superseded_killed_current _ _ _ _ fetch ih hmem hcur
          (fun c hc => poll_apply_log env name0 result s.world c hc)
      · simp only [ne_eq, hcur, not_false_eq_true, if_true]
        exact superseded_killed_erase _ _ _ _ fetch ih (fun c hc => hc)


theorem reachable_two_updates : Reachable env0 sys_two_updates :=
  Reachable.update _ 11
    (Reachable.update _ 10 (Reachable.init "vg0" [] []) (by decide) (by decide))
    (by decide) (by decide)

theorem reachable_two_polls : Reachable env0 sys_two_polls :=
  Reachable.timeout _ 3 12
    (Reachable.poll _ 2 11
      (Reachable.poll _ 1 10 (Reachable.init "vg0" [] []) (by decide) (by decide) (by decide))
      (by decide) (by decide) (by decide))
    (by decide) (by decide) (by decide) (by decide)

/-- C9, as the claim states it, fails: two fetches started by
`ul_volume_group_update` are in flight together, and so are a fetch started by
`poll_now` and the fetch that superseded it. -/
theorem two_fetches_in_flight :
    Reachable env0 sys_two_updates
      ∧ sys_two_updates.running
        = [{ pid := 10, callback := Callback.update }, { pid := 11, callback := Callback.update }]
      ∧ Reachable env0 sys_two_polls
      ∧ sys_two_polls.running
        = [{ pid := 10, callback := Callback.poll }, { pid := 12, callback := Callback.poll }]
      ∧ ¬ sys_two_updates.running.length ≤ 1 ∧ ¬ sys_two_polls.running.length ≤ 1 :=
  ⟨reachable_two_updates, by decide, reachable_two_polls, by decide, by decide, by decide⟩

/-- C9, amended: in every state the group goes through, at most one fetch in
flight has the pid stored in `poll_pid`; every other fetch in flight that was
started by `poll_now` has been sent `SIGINT`, and its result, were it delivered
now, would be dropped by `poll_with_variant`. -/
theorem one_current_fetch (env : Env) (s : Sys) (h : Reachable env s) :
    (s.running.filter (fun f => f.pid == s.world.self.poll_pid)).length ≤ 1
      ∧ (∀ f ∈ s.running, f.callback = Callback.poll → f.pid ≠ s.world.self.poll_pid →
          Call.kill f.pid ∈ s.world.log)
      ∧ (∀ f ∈ s.running, f.callback = Callback.poll → f.pid ≠ s.world.self.poll_pid →
          ∀ name0 result, poll_with_variant env name0 f.pid result s.world = s.world) := by
  obtain ⟨h1, _, h3⟩ := reachable_superseded_killed env s h
  refine ⟨?_, h3, fun f _ _ hne name0 result => ?_⟩
  · have hc := List.nodup_iff_count_le_one.mp h1 s.world.self.poll_pid
    rw [List.count, List.countP_map, List.countP_eq_length_filter] at hc
    have hfun : ((fun x => x == s.world.self.poll_pid) ∘ Fetch.pid)
        = (fun f : Fetch => f.pid == s.world.self.poll_pid) := rfl
    rw [hfun] at hc
    exact hc
  · simp [poll_with_variant, hne]

/-- The state after two poll requests and the expiry of the timer: the fetch 12
is the current one, the fetch 10 has been signalled. -/
theorem one_current_fetch_witness :
    Reachable env0 sys_two_polls
      ∧ (sys_two_polls.running.filter
          (fun f => f.pid == sys_two_polls.world.self.poll_pid)).length ≤ 1
      ∧ sys_two_polls.world.self.poll_pid = 12
      ∧ Call.kill 10 ∈ sys_two_polls.world.log
      ∧ poll_with_variant env0 none 10 (Except.ok (snapshot [])) sys_two_polls.world
        = sys_two_polls.world :=
  have t := one_current_fetch env0 sys_two_polls reachable_two_polls
  ⟨reachable_two_polls, t.1, by decide,
    t.2.1 { pid := 10, callback := Callback.poll } (by decide) rfl (by decide),
    t.2.2 { pid := 10, callback := Callback.poll } (by decide) rfl (by decide) none _⟩

/-- C11: when `update_with_variant` is called with a fetch error, the logical
volumes, the display name, the UUID, the three sizes and the needs-polling
attribute of the group, the blocks with their associations and the jobs are
what they were before the call. -/
theorem error_keeps_state (env : Env) (name0 : Option String) (message : String) (w : World) :
    (update_with_variant env name0 (Except.error message) w).self.logical_volumes
        = w.self.logical_volumes
      ∧ (update_with_variant env name0 (Except.error message) w).self.display_name
        = w.self.display_name
      ∧ (update_with_variant env name0 (Except.error message) w).self.uuid = w.self.uuid
      ∧ (update_with_variant env name0 (Except.error message) w).self.size = w.self.size
      ∧ (update_with_variant env name0 (Except.error message) w).self.free_size
        = w.self.free_size
      ∧ (update_with_variant env name0 (Except.error message) w).self.extent_size
        = w.self.extent_size
      ∧ (update_with_variant env name0 (Except.error message) w).self.needs_polling
        = w.self.needs_polling
      ∧ (update_with_variant env name0 (Except.error message) w).blocks = w.blocks
      ∧ (update_with_variant env name0 (Except.error message) w).jobs = w.jobs := by
  simp only [update_with_variant, publish_if_needed]
  cases h : w.self.need_publish <;> simp [h]

/-- C12, as the claim states it, fails: a failed fetch handled for the fresh
group `vg0` publishes the group and clears `need_publish`. -/
theorem failed_fetch_publishes :
    world0.self.need_publish = true
      ∧ (update_with_variant env0 none (Except.error "helper failed") world0).self.need_publish
        = false
      ∧ (update_with_variant env0 none (Except.error "helper failed") world0).log
        = [Call.publish_group "/org/freedesktop/UDisks2/lvm/vg0",
            Call.message "Failed to update LVM volume group vg0: helper failed"] := by
  decide

/-- C12, amended: a failed fetch handled by `update_with_variant` publishes a
group that has never been published, at the path built from its name, and
clears `need_publish`, before it logs the warning; for a group that is
published already the warning is the only call made. -/
theorem failed_fetch_log (env : Env) (name0 : Option String) (message : String) (w : World) :
    (update_with_variant env name0 (Except.error message) w).self.need_publish = false
      ∧ (update_with_variant env name0 (Except.error message) w).log
        = w.log
          ++ (if w.self.need_publish
              then [Call.publish_group (env.build_object_path w.self.name)] else [])
          ++ [Call.message
              ("Failed to update LVM volume group " ++ w.self.name ++ ": " ++ message)]
      ∧ (update_with_variant env name0 (Except.error message) w).self.object_path
        = (if w.self.need_publish then some (env.build_object_path w.self.name)
            else w.self.object_path) := by
  simp only [update_with_variant, publish_if_needed]
  cases h : w.self.need_publish <;> simp [h]

theorem update_operations_snd (blocks : List UlBlock) (name : Option String) (r : Dict)
    (jobs : List UDisksJob) :
    (update_operations blocks name r jobs true).2 = true := by
  unfold update_operations
  split
  · split <;> rfl
  · rfl

theorem lvs_iteration_needs_polling (env : Env) (blocks : List UlBlock) (st : LvsLoop)
    (r : Dict)
    (h : st.needs_polling = true ∨ lv_is_pvmove_volume (lookup_name r st.name) = true) :
    (lvs_iteration env blocks st r).needs_polling = true := by
  have hnp : (lv_is_pvmove_volume (lookup_name r st.name)
      || (update_operations blocks (lookup_name r st.name) r st.jobs st.needs_polling).2)
      = true := by
    rcases h with h | h
    · rw [h, update_operations_snd, Bool.or_true]
    · rw [h, Bool.true_or]
  unfold lvs_iteration
  cases hn : lookup_name r st.name with
  | none =>
    rw [hn] at hnp
    simpa using hnp
  | some n =>
    rw [hn] at hnp
    by_cases hv : lv_is_visible (some n) = true
    · simp only [hv, if_true, hnp, Bool.true_or]
    · simp only [hv]
      simpa using hnp

theorem lvs_loop_needs_polling (env : Env) (blocks : List UlBlock) (st : LvsLoop)
    (rs : List Dict) (h : st.needs_polling = true) :
    (rs.foldl (lvs_iteration env blocks) st).needs_polling = true := by
  induction rs generalizing st with
  | nil => exact h
  | cons r rs ih => exact ih _ (lvs_iteration_needs_polling env blocks st r (Or.inl h))

/-- C16: when the list `lvs` of a successfully fetched snapshot has a record
whose name starts with `pvmove`, the group needs polling after
`update_with_variant`, whatever the other fields of that record and of the
other records are. -/
theorem pvmove_needs_polling (env : Env) (name0 : Option String) (info : Info) (w : World)
    (r : Dict) (n : String) (hr : r ∈ info.lvs.getD [])
    (hn : g_variant_lookup_s r "name" = some n) (hp : g_str_has_prefix n "pvmove" = true) :
    (update_with_variant env name0 (Except.ok info) w).self.needs_polling = true := by
  obtain ⟨a, b, hab⟩ := List.append_of_mem hr
  simp only [update_with_variant, hab, List.foldl_append, List.foldl_cons]
  apply lvs_loop_needs_polling
  apply lvs_iteration_needs_polling
  right
  simp [lookup_name, hn, lv_is_pvmove_volume, hp]

/-- A snapshot with the volume `data` and the volume `pvmove0`, whose record
has a name only. -/
theorem pvmove_needs_polling_witness :
    bare_record "pvmove0" ∈ (snapshot [lv_record "data" 16, bare_record "pvmove0"]).lvs.getD []
      ∧ g_variant_lookup_s (bare_record "pvmove0") "name" = some "pvmove0"
      ∧ g_str_has_prefix "pvmove0" "pvmove" = true
      ∧ world0.self.needs_polling = false
      ∧ (update_with_variant env0 none
          (Except.ok (snapshot [lv_record "data" 16, bare_record "pvmove0"]))
          world0).self.needs_polling = true :=
  ⟨by decide, by decide, by decide, by decide,
    pvmove_needs_polling env0 none (snapshot [lv_record "data" 16, bare_record "pvmove0"])
      world0 (bare_record "pvmove0") "pvmove0" (by decide) (by decide) (by decide)⟩

/-- The power of two that `floor_log2_fuel` finds is at most `n`, whatever the
fuel. -/
theorem floor_log2_fuel_le (fuel n : Nat) (hn : n ≠ 0) : 2 ^ floor_log2_fuel fuel n ≤ n := by
  induction fuel generalizing n with
  | zero => simpa [floor_log2_fuel] using Nat.pos_of_ne_zero hn
  | succ fuel ih =>
    simp only [floor_log2_fuel]
    split
    · simpa using Nat.pos_of_ne_zero hn
    · have h2 : n / 2 ≠ 0 := by omega
      have := ih (n / 2) h2
      rw [pow_succ]
      omega

/-- The power of two that `floor_log2` finds is at most `n`. -/
theorem floor_log2_le (n : Nat) (hn : n ≠ 0) : 2 ^ floor_log2 n ≤ n :=
  floor_log2_fuel_le n n hn

/-- The integer `round_half_even n d` is within one half of `n / d`. -/
theorem round_half_even_near (n d : Nat) (hd : 0 < d) :
    2 * (round_half_even n d * d) ≤ 2 * n + d ∧ 2 * n ≤ 2 * (round_half_even n d * d) + d := by
  have h := Nat.div_add_mod n d
  have hlt := Nat.mod_lt n hd
  have hmul : (n / d + 1) * d = d * (n / d) + d := by ring
  have hmul' : n / d * d = d * (n / d) := by ring
  unfold round_half_even
  split
  · rw [hmul']; omega
  · split
    · rw [hmul]; omega
    · split
      · rw [hmul']; omega
      · rw [hmul]; omega

/-- The quotient of two doubles differs from the exact quotient by at most the
fraction `2 ^ (-53)` of it, for a divisor up to `2 ^ 76`. -/
theorem nearest_double_near (n d : Nat) (hn : 0 < n) (hd : 0 < d) (hd76 : d ≤ 2 ^ 76) :
    |nearest_double n d - (n : ℚ) / d| ≤ (n : ℚ) / d / 2 ^ 53 := by
  unfold nearest_double
  generalize hk : floor_log2 (n * 2 ^ 128 / d) - 52 = k
  have hX : d * 2 ^ k * 2 ^ 52 ≤ n * 2 ^ 128 := by
    by_cases hL : 52 ≤ floor_log2 (n * 2 ^ 128 / d)
    · have ht : n * 2 ^ 128 / d ≠ 0 := by
        intro h0
        rw [h0] at hL
        simp [floor_log2, floor_log2_fuel] at hL
      have h1 := floor_log2_le _ ht
      have h2 : 2 ^ floor_log2 (n * 2 ^ 128 / d) * d ≤ n * 2 ^ 128 :=
        (Nat.le_div_iff_mul_le hd).mp h1
      have h3 : floor_log2 (n * 2 ^ 128 / d) = k + 52 := by omega
      rw [h3, pow_add] at h2
      calc d * 2 ^ k * 2 ^ 52 = 2 ^ k * 2 ^ 52 * d := by ring
        _ ≤ n * 2 ^ 128 := h2
    · have hk0 : k = 0 := by omega
      rw [hk0, pow_zero, mul_one]
      calc d * 2 ^ 52 ≤ 2 ^ 76 * 2 ^ 52 := Nat.mul_le_mul_right _ hd76
        _ = 1 * 2 ^ 128 := by norm_num
        _ ≤ n * 2 ^ 128 := Nat.mul_le_mul_right _ hn
  have hD : 0 < d * 2 ^ k := Nat.mul_pos hd (pow_pos (by norm_num) k)
  obtain ⟨hr1, hr2⟩ := round_half_even_near (n * 2 ^ 128) (d * 2 ^ k) hD
  generalize round_half_even (n * 2 ^ 128) (d * 2 ^ k) = m at hr1 hr2
  have hr1q : (2 * (m * (d * 2 ^ k)) : ℚ) ≤ 2 * (n * 2 ^ 128) + d * 2 ^ k := by exact_mod_cast hr1
  have hr2q : (2 * (n * 2 ^ 128) : ℚ) ≤ 2 * (m * (d * 2 ^ k)) + d * 2 ^ k := by exact_mod_cast hr2
  have hXq : ((d : ℚ) * 2 ^ k * 2 ^ 52) ≤ n * 2 ^ 128 := by exact_mod_cast hX
  have hdq : (0 : ℚ) < d := by exact_mod_cast hd
  have hkq : (0 : ℚ) < 2 ^ k := pow_pos (by norm_num) k
  have hden : (0 : ℚ) < d * 2 ^ 128 := by positivity
  have key : (((m * 2 ^ k : Nat) : ℚ)) / 2 ^ 128 - (n : ℚ) / d
      = ((m : ℚ) * (d * 2 ^ k) - n * 2 ^ 128) / (d * 2 ^ 128) := by
    push_cast
    field_simp
    ring
  have key2 : (n : ℚ) / d / 2 ^ 53 = ((n : ℚ) * 2 ^ 75) / (d * 2 ^ 128) := by
    field_simp
    ring
  rw [key, key2, abs_div, abs_of_pos hden, div_le_div_iff_of_pos_right hden, abs_le]
  constructor <;> linarith

/-- Rounding a whole number gives the number. -/
theorem round_half_even_one (n : Nat) : round_half_even n 1 = n := by
  simp [round_half_even, Nat.mod_one]

/-- The conversion to `double` is exact below `2 ^ 53`. -/
theorem double_of_uint64_exact (c : Nat) (hc : c < 2 ^ 53) : double_of_uint64 c = c := by
  have hL : floor_log2 c - 52 = 0 := by
    by_contra h
    have hc0 : c ≠ 0 := by
      intro h0
      rw [h0] at h
      simp [floor_log2, floor_log2_fuel] at h
    have h1 := floor_log2_le c hc0
    have h2 : (2 : Nat) ^ 53 ≤ 2 ^ floor_log2 c := Nat.pow_le_pow_right (by norm_num) (by omega)
    omega
  unfold double_of_uint64
  rw [hL]
  simp [round_half_even_one]

/-- The conversion to `double` differs from the value by at most the fraction
`2 ^ (-53)` of it. -/
theorem double_of_uint64_near (c : Nat) :
    |((double_of_uint64 c : Nat) : ℚ) - c| ≤ (c : ℚ) / 2 ^ 53 := by
  by_cases hL : floor_log2 c ≤ 52
  · have : double_of_uint64 c = c := by
      unfold double_of_uint64
      rw [Nat.sub_eq_zero_of_le hL]
      simp [round_half_even_one]
    rw [this]
    simp only [sub_self, abs_zero]
    positivity
  · unfold double_of_uint64
    generalize hk : floor_log2 c - 52 = k
    have hc0 : c ≠ 0 := by
      intro h0
      rw [h0] at hL
      simp [floor_log2, floor_log2_fuel] at hL
    have h1 := floor_log2_le c hc0
    have h3 : floor_log2 c = k + 52 := by omega
    rw [h3, pow_add] at h1
    obtain ⟨hr1, hr2⟩ := round_half_even_near c (2 ^ k) (pow_pos (by norm_num) k)
    generalize round_half_even c (2 ^ k) = m at hr1 hr2
    have hr1q : (2 * (m * 2 ^ k) : ℚ) ≤ 2 * c + 2 ^ k := by exact_mod_cast hr1
    have hr2q : (2 * c : ℚ) ≤ 2 * (m * 2 ^ k) + 2 ^ k := by exact_mod_cast hr2
    have h1q : ((2 : ℚ) ^ k * 2 ^ 52) ≤ c := by exact_mod_cast h1
    have e : (c : ℚ) / 2 ^ 53 = c * (1 / 2 ^ 53) := by ring
    push_cast
    rw [abs_le, e]
    constructor <;> nlinarith

/-- The conversion to `double` of a positive value is positive. -/
theorem double_of_uint64_pos (c : Nat) (hc : 0 < c) : 0 < double_of_uint64 c := by
  have h := double_of_uint64_near c
  rw [abs_le] at h
  have hcq : (1 : ℚ) ≤ c := by exact_mod_cast hc
  have e : (c : ℚ) / 2 ^ 53 = c * (1 / 2 ^ 53) := by ring
  rw [e] at h
  have : (0 : ℚ) < double_of_uint64 c := by nlinarith [h.1]
  exact_mod_cast this

/-- The value of `copy_percent / 100000000.0` differs from the exact quotient by
at most the fraction `2 ^ (-51)` of it. -/
theorem division_near (c : Nat) :
    |nearest_double (double_of_uint64 c) 100000000 - (c : ℚ) / 100000000|
      ≤ (c : ℚ) / 100000000 / 2 ^ 51 := by
  rcases Nat.eq_zero_or_pos c with h0 | hc
  · subst h0
    have : double_of_uint64 0 = 0 := by decide
    rw [this]
    simp [nearest_double, round_half_even, floor_log2, floor_log2_fuel]
  · have h1 := nearest_double_near (double_of_uint64 c) 100000000 (double_of_uint64_pos c hc)
      (by norm_num) (by norm_num)
    have h2 := double_of_uint64_near c
    have hcq : (1 : ℚ) ≤ c := by exact_mod_cast hc
    push_cast at h1
    generalize ((double_of_uint64 c : Nat) : ℚ) = C at h1 h2
    generalize nearest_double (double_of_uint64 c) 100000000 = p at h1
    rw [abs_le] at h1 h2 ⊢
    have e1 : C / 100000000 / 2 ^ 53 = C * (1 / 100000000 / 2 ^ 53) := by ring
    have e2 : (c : ℚ) / 2 ^ 53 = c * (1 / 2 ^ 53) := by ring
    have e3 : (c : ℚ) / 100000000 / 2 ^ 51 = c * (1 / 100000000 / 2 ^ 51) := by ring
    have e4 : (c : ℚ) / 100000000 = c * (1 / 100000000) := by ring
    have e5 : C / 100000000 = C * (1 / 100000000) := by ring
    rw [e1, e5] at h1
    rw [e2] at h2
    rw [e3, e4]
    constructor <;> nlinarith [h1.1, h1.2, h2.1, h2.2]

set_option maxRecDepth 100000 in
/-- The value of `1 / 100000000.0`: the double nearest to the hundred-millionth. -/
theorem nearest_division_one :
    nearest_double (double_of_uint64 1) 100000000 = 3022314549036573 / 2 ^ 78 := by
  have h : round_half_even (double_of_uint64 1 * 2 ^ 128)
        (100000000 * 2 ^ (floor_log2 (double_of_uint64 1 * 2 ^ 128 / 100000000) - 52))
      * 2 ^ (floor_log2 (double_of_uint64 1 * 2 ^ 128 / 100000000) - 52)
      = 6044629098073146 * 2 ^ 49 := by decide
  unfold nearest_double
  rw [h]
  norm_num

set_option maxRecDepth 100000 in
/-- The value of `50000000 / 100000000.0`: one half. -/
theorem nearest_division_half :
    nearest_double (double_of_uint64 50000000) 100000000 = 1 / 2 := by
  have h : round_half_even (double_of_uint64 50000000 * 2 ^ 128)
        (100000000 * 2 ^ (floor_log2 (double_of_uint64 50000000 * 2 ^ 128 / 100000000) - 52))
      * 2 ^ (floor_log2 (double_of_uint64 50000000 * 2 ^ 128 / 100000000) - 52)
      = 2 ^ 127 := by decide
  unfold nearest_double
  rw [h]
  norm_num

/-- C14, as the claim states it, fails: for a `copy_percent` of 1 the progress
that `update_operations` hands on, and that the job of the device gets, is the
double `3022314549036573 / 2 ^ 78`, which is not the rational `1 / 100000000`;
the result is not the one the exact quotient would give. -/
theorem move_progress_not_exact :
    update_operations [block_sda1] (some "pvmove0") (pvmove_record "/dev/sda1" 1)
        [job_empty_sda1] false
      = ([{ job_empty_sda1 with
            progress := 3022314549036573 / 2 ^ 78, progress_valid := true }], true)
      ∧ (3022314549036573 / 2 ^ 78 : ℚ) ≠ 1 / 100000000
      ∧ update_operations [block_sda1] (some "pvmove0") (pvmove_record "/dev/sda1" 1)
          [job_empty_sda1] false
        ≠ (update_progress_for_device [block_sda1] "lvm-vg-empty-device" "/dev/sda1"
            (((1 : Nat) : ℚ) / 100000000) [job_empty_sda1], true) := by
  have h : update_operations [block_sda1] (some "pvmove0") (pvmove_record "/dev/sda1" 1)
        [job_empty_sda1] false
      = ([{ job_empty_sda1 with
            progress := nearest_double (double_of_uint64 1) 100000000,
            progress_valid := true }], true) := by rfl
  have h2 : update_progress_for_device [block_sda1] "lvm-vg-empty-device" "/dev/sda1"
        (((1 : Nat) : ℚ) / 100000000) [job_empty_sda1]
      = [{ job_empty_sda1 with
            progress := ((1 : Nat) : ℚ) / 100000000, progress_valid := true }] := by rfl
  have hne : (3022314549036573 / 2 ^ 78 : ℚ) ≠ 1 / 100000000 := by norm_num
  rw [h, h2, nearest_division_one]
  refine ⟨rfl, hne, ?_⟩
  intro he
  have hp := congrArg (fun x => x.1.map (fun job => job.progress)) he
  simp only [List.map_cons, List.map_nil, List.cons.injEq, and_true] at hp
  exact hne (by simpa using hp)

/-- C14, amended: for a record of a `pvmove` volume that carries `move_pv` and a
`copy_percent` of `c`, `update_operations` passes to
`update_progress_for_device` the operation `lvm-vg-empty-device`, the device
of `move_pv` and, as the progress, the double that the division
`c / 100000000.0` gives, and asks for polling. That double differs from the
rational `c / 100000000` by at most the fraction `2 ^ (-51)` of it, by at most
the fraction `2 ^ (-53)` of it for `c` below `2 ^ 53`, and it is one half for
`c = 50000000`. -/
theorem move_progress_rounded (blocks : List UlBlock) (n : String) (r : Dict)
    (jobs : List UDisksJob) (needs_polling : Bool) (dev : String) (c : Nat)
    (hp : g_str_has_prefix n "pvmove" = true)
    (hm : g_variant_lookup_s r "move_pv" = some dev)
    (hc : g_variant_lookup_t r "copy_percent" = some c) :
    update_operations blocks (some n) r jobs needs_polling
        = (update_progress_for_device blocks "lvm-vg-empty-device" dev
            (nearest_double (double_of_uint64 c) 100000000) jobs, true)
      ∧ |nearest_double (double_of_uint64 c) 100000000 - (c : ℚ) / 100000000|
          ≤ (c : ℚ) / 100000000 / 2 ^ 51
      ∧ (c < 2 ^ 53 →
          |nearest_double (double_of_uint64 c) 100000000 - (c : ℚ) / 100000000|
            ≤ (c : ℚ) / 100000000 / 2 ^ 53)
      ∧ (c = 50000000 → nearest_double (double_of_uint64 c) 100000000 = 1 / 2) := by
  refine ⟨?_, division_near c, ?_, ?_⟩
  · simp [update_operations, lv_is_pvmove_volume, hp, hm, hc]
  · intro h53
    rw [double_of_uint64_exact c h53]
    rcases Nat.eq_zero_or_pos c with h0 | hpos
    · subst h0
      simp [nearest_double, round_half_even, floor_log2, floor_log2_fuel]
    · have h := nearest_double_near c 100000000 hpos (by norm_num) (by norm_num)
      simpa using h
  · intro h
    subst h
    exact nearest_division_half

/-- A `copy_percent` of 50000000 for the device of the block `sda1`: the job
that empties the block gets the progress one half. -/
theorem move_progress_rounded_witness :
    g_str_has_prefix "pvmove0" "pvmove" = true
      ∧ g_variant_lookup_s (pvmove_record "/dev/sda1" 50000000) "move_pv" = some "/dev/sda1"
      ∧ g_variant_lookup_t (pvmove_record "/dev/sda1" 50000000) "copy_percent" = some 50000000
      ∧ (update_operations [block_sda1] (some "pvmove0") (pvmove_record "/dev/sda1" 50000000)
            [job_empty_sda1, job_add_sda1] false
          = (update_progress_for_device [block_sda1] "lvm-vg-empty-device" "/dev/sda1"
              (nearest_double (double_of_uint64 50000000) 100000000)
              [job_empty_sda1, job_add_sda1], true)
        ∧ |nearest_double (double_of_uint64 50000000) 100000000
              - ((50000000 : Nat) : ℚ) / 100000000|
            ≤ ((50000000 : Nat) : ℚ) / 100000000 / 2 ^ 51
        ∧ (50000000 < 2 ^ 53 →
            |nearest_double (double_of_uint64 50000000) 100000000
                - ((50000000 : Nat) : ℚ) / 100000000|
              ≤ ((50000000 : Nat) : ℚ) / 100000000 / 2 ^ 53)
        ∧ (50000000 = 50000000 →
            nearest_double (double_of_uint64 50000000) 100000000 = 1 / 2))
      ∧ (update_with_variant env0 none
          (Except.ok (snapshot [pvmove_record "/dev/sda1" 50000000])) world_moving).jobs
        = [{ job_empty_sda1 with progress := 1 / 2, progress_valid := true },
            job_add_sda1] := by
  have h : (update_with_variant env0 none
        (Except.ok (snapshot [pvmove_record "/dev/sda1" 50000000])) world_moving).jobs
      = [{ job_empty_sda1 with
            progress := nearest_double (double_of_uint64 50000000) 100000000,
            progress_valid := true },
          job_add_sda1] := by rfl
  refine ⟨by decide, by decide, by decide,
    move_progress_rounded [block_sda1] "pvmove0" (pvmove_record "/dev/sda1" 50000000)
      [job_empty_sda1, job_add_sda1] false "/dev/sda1" 50000000
      (by decide) (by decide) (by decide),
    ?_⟩
  rw [h, nearest_division_half]

theorem progress_for_objects (blocks : List UlBlock) (dev : String) (p : ℚ) (job : UDisksJob)
    (objects : List String) :
    objects.foldl (update_progress_for_object blocks dev p) job
      = if ∃ object ∈ objects, ∃ block ∈ ul_daemon_find_thing blocks object,
            block.device = dev ∨ dev ∈ block.symlinks
        then { job with progress := p, progress_valid := true } else job := by
  induction objects generalizing job with
  | nil => simp
  | cons o os ih =>
    rw [List.foldl_cons, ih]
    simp only [List.mem_cons, exists_eq_or_imp, Option.mem_def]
    unfold update_progress_for_object
    cases hf : ul_daemon_find_thing blocks o with
    | none => simp
    | some block =>
      have hb : block_found block dev = true ↔ (block.device = dev ∨ dev ∈ block.symlinks) := by
        simp only [block_found, Bool.or_eq_true, beq_iff_eq, List.any_eq_true]
        constructor
        · rintro (h | ⟨x, hx, rfl⟩)
          · exact Or.inl h
          · exact Or.inr hx
        · rintro (h | h)
          · exact Or.inl h
          · exact Or.inr ⟨dev, h, rfl⟩
      by_cases h : block.device = dev ∨ dev ∈ block.symlinks
      · simp only [hb.mpr h, if_true, Option.some.injEq, exists_eq_left', h, true_or]
        split <;> rfl
      · have hb' : block_found block dev = false := by
          cases hx : block_found block dev
          · rfl
          · exact absurd (hb.mp hx) h
        simp only [hb', Bool.false_eq_true, if_false, Option.some.injEq, exists_eq_left', h,
          false_or]

/-- C15: `update_progress_for_device` sets the progress of a job to `p` and
marks it valid when the job has the operation `op` and one of its objects
resolves to a known block whose device or one of whose symlinks is `dev`; it
leaves every other job as it is, and changes nothing else of any job. -/
theorem progress_attribution (blocks : List UlBlock) (op dev : String) (p : ℚ)
    (jobs : List UDisksJob) :
    update_progress_for_device blocks op dev p jobs
      = jobs.map (fun job =>
          if job_targets blocks op dev job
          then { job with progress := p, progress_valid := true } else job) := by
  unfold update_progress_for_device
  apply List.map_congr_left
  intro job _
  by_cases ho : job.operation = some op
  · rw [if_pos ho, progress_for_objects]
    simp only [job_targets, ho, true_and]
  · rw [if_neg ho, if_neg]
    exact fun h => ho h.1

theorem update_block_pv_frame (self : UlVolumeGroup) (new_pvs : List (String × Dict))
    (block b : UlBlock) (h1 : b.device = block.device) (h2 : b.symlinks = block.symlinks)
    (h3 : b.pv = block.pv) :
    (update_block_pv self new_pvs b).pv
        = (match find_pv_info new_pvs block with
          | some pv_info => some { volume_group := self.object_path, info := pv_info }
          | none =>
            match block.pv with
            | some pv => if pv.volume_group = self.object_path then none else some pv
            | none => none)
      ∧ (update_block_pv self new_pvs b).device = block.device
      ∧ (update_block_pv self new_pvs b).symlinks = block.symlinks := by
  have hfind : find_pv_info new_pvs b = find_pv_info new_pvs block := by
    simp [find_pv_info, h1, h2]
  unfold update_block_pv
  rw [hfind, h3]
  cases find_pv_info new_pvs block with
  | some pv_info => exact ⟨rfl, h1, h2⟩
  | none =>
    cases hb : block.pv with
    | none => exact ⟨by simp [h3, hb], h1, h2⟩
    | some pv =>
      by_cases h : pv.volume_group = self.object_path
      · simp [h, ul_block_update_pv, h1, h2]
      · simp [h, h3, hb, h1, h2]

theorem findSome_isSome_iff (new_pvs : List (String × Dict)) (paths : List String) :
    (paths.findSome? (fun path => g_hash_table_lookup new_pvs path)).isSome = true
      ↔ ∃ path ∈ paths, path ∈ keys new_pvs := by
  induction paths with
  | nil => simp
  | cons path paths ih =>
    simp only [List.findSome?_cons, List.mem_cons, exists_eq_or_imp]
    cases h : g_hash_table_lookup new_pvs path with
    | some d =>
      have hk : path ∈ keys new_pvs := by
        by_contra hk
        rw [(lookup_eq_none_iff new_pvs path).mpr hk] at h
        exact Option.noConfusion h
      simp [hk]
    | none =>
      have hk : path ∉ keys new_pvs := (lookup_eq_none_iff new_pvs path).mp h
      simp [hk, ih]

/-- The record `update_block` finds for a block is that of the first of its
device and its symlinks, in this order, that is a key of `new_pvs`, so that one
is found exactly when one of them is a key. The function returns unless the
udev device of the block has the name of this group for `DM_VG_NAME` and no
`DM_LV_NAME`. When it returns, a block with a record is associated with this
group and the record; without one the association is cleared when it points at
the object path of this group, and kept as it is otherwise. -/
theorem block_association (self : UlVolumeGroup) (new_lvs : List String)
    (new_pvs : List (String × Dict)) (block : UlBlock) :
    find_pv_info new_pvs block
        = (block.device :: block.symlinks).findSome?
            (fun path => g_hash_table_lookup new_pvs path)
      ∧ ((find_pv_info new_pvs block).isSome = true
          ↔ ∃ path ∈ block.device :: block.symlinks, path ∈ keys new_pvs)
      ∧ (update_block self new_lvs new_pvs block = none
          ↔ block.udev = some (some self.name, none))
      ∧ (∀ b, update_block self new_lvs new_pvs block = some b →
          b.pv
            = (match find_pv_info new_pvs block with
              | some pv_info => some { volume_group := self.object_path, info := pv_info }
              | none =>
                match block.pv with
                | some pv => if pv.volume_group = self.object_path then none else some pv
                | none => none)
          ∧ b.device = block.device ∧ b.symlinks = block.symlinks) := by
  have h1 : find_pv_info new_pvs block
      = (block.device :: block.symlinks).findSome?
          (fun path => g_hash_table_lookup new_pvs path) := by
    simp only [find_pv_info, List.findSome?_cons]
    cases g_hash_table_lookup new_pvs block.device <;> rfl
  have hsame := update_block_pv_frame self new_pvs block block rfl rfl rfl
  refine ⟨h1, ?_, ?_, ?_⟩
  · rw [h1]
    exact findSome_isSome_iff new_pvs _
  · unfold update_block
    cases hu : block.udev with
    | none => simp
    | some p =>
      obtain ⟨vg, lv⟩ := p
      by_cases hvg : vg = some self.name
      · cases lv with
        | none => simp [hvg]
        | some lv_name =>
          simp only [hvg, if_true]
          split <;> simp
      · simp [hvg]
  · intro b hb
    unfold update_block at hb
    cases hu : block.udev with
    | none =>
      rw [hu] at hb
      cases hb
      exact hsame
    | some p =>
      obtain ⟨vg, lv⟩ := p
      rw [hu] at hb
      by_cases hvg : vg = some self.name
      · cases lv with
        | none => simp [hvg] at hb
        | some lv_name =>
          simp only [hvg, if_true] at hb
          split at hb
          · cases hb
            exact update_block_pv_frame self new_pvs block _ rfl rfl rfl
          · cases hb
            exact hsame
      · simp only [hvg, if_false] at hb
        cases hb
        exact hsame

/-- C19: `update_block` does not return for a block whose udev device has the
name of the group for `DM_VG_NAME` and no `DM_LV_NAME`: it looks the `NULL`
volume name up in `new_lvs`, a table hashed by `g_str_hash`. The device of the
block is a key of `new_pvs`, and the block is not associated with the group;
the same block without udev device is. With such a block in the daemon,
`update_with_variant` does not return on a snapshot that has the device as a
physical volume. -/
theorem update_block_null_volume_name :
    block_dm_0.udev = some (some world_ab.self.name, none)
      ∧ find_pv_info [("/dev/dm-0", pv_record_dm_0)] block_dm_0 = some pv_record_dm_0
      ∧ update_block world_ab.self ["A", "B"] [("/dev/dm-0", pv_record_dm_0)] block_dm_0 = none
      ∧ update_block world_ab.self ["A", "B"] [("/dev/dm-0", pv_record_dm_0)]
          { block_dm_0 with udev := none }
        = some { block_dm_0 with
            udev := none
            pv := some { volume_group := world_ab.self.object_path, info := pv_record_dm_0 } }
      ∧ update_with_variant_returns env0 none (Except.ok snapshot_dm_0)
          { world0 with blocks := [block_dm_0] } = false
      ∧ update_with_variant_returns env0 none (Except.ok snapshot_dm_0)
          { world0 with blocks := [{ block_dm_0 with udev := none }] } = true
      ∧ (update_with_variant env0 none (Except.ok snapshot_dm_0)
          { world0 with blocks := [{ block_dm_0 with udev := none }] }).blocks
        = [{ block_dm_0 with
            udev := none
            pv := some { volume_group := some "/org/freedesktop/UDisks2/lvm/vg0",
                         info := pv_record_dm_0 } }] := by
  decide

theorem collect_pvs_without_device (a b : List Dict) (r : Dict)
    (h : g_variant_lookup_s r "device" = none) :
    collect_pvs (a ++ r :: b) = collect_pvs (a ++ b) := by
  simp [collect_pvs, List.foldl_append, h]

/-- C18: a record of `lvs` without a name is not dropped. After the record of
`A`, the loop of `update_with_variant` takes it for another record of `A`, whose
volume ends up with the fields of the nameless record; on the snapshot without
that record the volume has the fields of its own record. -/
theorem nameless_record_not_dropped :
    (update_with_variant env0 none
        (Except.ok (snapshot [lv_record "A" 1, [("size", GVariant.t 2)]]))
        world0).self.logical_volumes
        = [("A", { info := [("size", GVariant.t 2)], need_publish := false })]
      ∧ (update_with_variant env0 none (Except.ok (snapshot [lv_record "A" 1]))
        world0).self.logical_volumes
        = [("A", { info := lv_record "A" 1, need_publish := false })]
      ∧ (update_with_variant env0 none
        (Except.ok (snapshot [lv_record "A" 1, [("size", GVariant.t 2)]]))
        world0).self.logical_volumes
        ≠ (update_with_variant env0 none (Except.ok (snapshot [lv_record "A" 1]))
          world0).self.logical_volumes := by
  decide

theorem group_first_append (l x : List Call)
    (h : group_first l = true)
    (hx : (∃ c ∈ l, is_publish_group c = true) ∨ ∀ c ∈ x, is_volume_call c = false) :
    group_first (l ++ x) = true := by
  induction l with
  | nil =>
    rcases hx with ⟨c, hc, _⟩ | hx
    · exact absurd hc (List.not_mem_nil c)
    · induction x with
      | nil => rfl
      | cons c x ih =>
        simp only [List.nil_append, group_first, Bool.or_eq_true, Bool.and_eq_true,
          Bool.not_eq_true']
        exact Or.inr ⟨hx c (List.mem_cons_self _ _),
          ih (fun c' hc' => hx c' (List.mem_cons_of_mem _ hc'))⟩
  | cons c l ih =>
    simp only [group_first, Bool.or_eq_true, Bool.and_eq_true, Bool.not_eq_true',
      List.cons_append] at h ⊢
    rcases h with h | ⟨h1, h2⟩
    · exact Or.inl h
    · by_cases hc : is_publish_group c = true
      · exact Or.inl hc
      · refine Or.inr ⟨h1, ih h2 ?_⟩
        rcases hx with ⟨c', hc', hp⟩ | hx
        · rcases List.mem_cons.mp hc' with rfl | hc'
          · exact absurd hp hc
          · exact Or.inl ⟨c', hc', hp⟩
        · exact Or.inr hx

theorem group_first_publish (l x : List Call) (path : String)
    (h : ∀ c ∈ l, is_volume_call c = false) :
    group_first (l ++ Call.publish_group path :: x) = true := by
  induction l with
  | nil => simp [group_first, is_publish_group]
  | cons c l ih =>
    simp only [List.cons_append, group_first, Bool.or_eq_true, Bool.and_eq_true,
      Bool.not_eq_true']
    exact Or.inr ⟨h c (List.mem_cons_self _ _),
      ih (fun c' hc' => h c' (List.mem_cons_of_mem _ hc'))⟩

theorem group_first_split (l a b : List Call) (c : Call) (h : group_first l = true)
    (hl : l = a ++ c :: b) (hc : is_volume_call c = true) :
    ∃ path, Call.publish_group path ∈ a := by
  induction a generalizing l with
  | nil =>
    subst hl
    simp only [List.nil_append, group_first, Bool.or_eq_true, Bool.and_eq_true,
      Bool.not_eq_true', hc] at h
    rcases h with h | ⟨h, _⟩
    · cases c <;> simp [is_publish_group, is_volume_call] at h hc
    · exact Bool.noConfusion h
  | cons d a ih =>
    subst hl
    simp only [List.cons_append, group_first, Bool.or_eq_true, Bool.and_eq_true,
      Bool.not_eq_true'] at h
    rcases h with h | ⟨_, h⟩
    · cases d <;> simp [is_publish_group] at h
      exact ⟨_, List.mem_cons_self _ _⟩
    · obtain ⟨path, hp⟩ := ih _ h rfl
      exact ⟨path, List.mem_cons_of_mem _ hp⟩

theorem published_once_extend (w w' : World) (x : List Call) (hK : published_once w)
    (hnp : w'.self.need_publish = w.self.need_publish) (hlog : w'.log = w.log ++ x)
    (hx : ∀ c ∈ x, is_publish_group c = false)
    (hvol : w.self.need_publish = true →
      w'.self.logical_volumes = [] ∧ ∀ c ∈ x, is_volume_call c = false) :
    published_once w' := by
  obtain ⟨h1, h2, h3⟩ := hK
  have hcx : x.countP is_publish_group = 0 := by
    rw [List.countP_eq_zero]
    intro c hc
    simp [hx c hc]
  refine ⟨?_, ?_, ?_⟩
  · rw [hlog, List.countP_append, hcx, add_zero, hnp, h1]
  · rw [hlog]
    apply group_first_append _ _ h2
    cases hn : w.self.need_publish with
    | true => exact Or.inr (hvol hn).2
    | false =>
      rw [hn] at h1
      have hpos : 0 < w.log.countP is_publish_group := by rw [h1]; exact Nat.one_pos
      obtain ⟨c, hc, hp⟩ := List.countP_pos_iff.mp hpos
      exact Or.inl ⟨c, hc, hp⟩
  · intro hn
    rw [hnp] at hn
    refine ⟨(hvol hn).1, ?_⟩
    intro c hc
    rw [hlog] at hc
    rcases List.mem_append.mp hc with hc | hc
    · exact (h3 hn).2 c hc
    · exact (hvol hn).2 c hc

theorem published_once_publish (w w' : World) (x : List Call) (path : String)
    (hK : published_once w) (hn : w.self.need_publish = true)
    (hnp : w'.self.need_publish = false)
    (hlog : w'.log = w.log ++ Call.publish_group path :: x)
    (hx : ∀ c ∈ x, is_publish_group c = false) :
    published_once w' := by
  obtain ⟨h1, _, h3⟩ := hK
  have hcx : x.countP is_publish_group = 0 := by
    rw [List.countP_eq_zero]
    intro c hc
    simp [hx c hc]
  refine ⟨?_, ?_, ?_⟩
  · rw [hlog, List.countP_append, List.countP_cons, hcx, h1, hn, hnp]
    simp [is_publish_group]
  · rw [hlog]
    exact group_first_publish _ _ _ (h3 hn).2
  · intro h
    rw [hnp] at h
    exact Bool.noConfusion h

theorem reconcile_calls_not_publish_group (t : List (String × UlLogicalVolume))
    (ps : List (String × Dict)) : ∀ c ∈ reconcile_calls t ps, is_publish_group c = false := by
  induction ps generalizing t with
  | nil => simp [reconcile_calls]
  | cons p ps ih =>
    intro c hc
    simp only [reconcile_calls, List.mem_append] at hc
    rcases hc with (hc | hc) | hc
    · split at hc
      · rw [List.mem_singleton.mp hc]; rfl
      · exact absurd hc (List.not_mem_nil c)
    · split at hc
      · rw [List.mem_singleton.mp hc]; rfl
      · exact absurd hc (List.not_mem_nil c)
    · exact ih _ c hc

theorem update_ok_tail (env : Env) (name0 : Option String) (info : Info) (w : World) :
    ∃ x, (update_with_variant env name0 (Except.ok info) w).log
        = w.log
          ++ (if w.self.need_publish
              then [Call.publish_group (env.build_object_path w.self.name)] else [])
          ++ x
      ∧ ∀ c ∈ x, is_publish_group c = false := by
  refine ⟨_, by rw [update_ok_log, List.append_assoc (w.log ++ _)], ?_⟩
  intro c hc
  rcases List.mem_append.mp hc with hc | hc
  · exact reconcile_calls_not_publish_group _ _ c hc
  · obtain ⟨e, _, rfl⟩ := List.mem_map.mp hc
    rfl

theorem update_need_publish (env : Env) (name0 : Option String) (result : Except String Info)
    (w : World) : (update_with_variant env name0 result w).self.need_publish = false := by
  cases result with
  | error message =>
    simp only [update_with_variant]
    exact (publish_if_needed_frame env _).2.1
  | ok info =>
    simp only [update_with_variant]
    exact (publish_if_needed_frame env _).2.1

theorem published_once_update (env : Env) (name0 : Option String)
    (result : Except String Info) (w : World) (hK : published_once w) :
    published_once (update_with_variant env name0 result w) := by
  have hnp := update_need_publish env name0 result w
  have hshape : ∃ x, (update_with_variant env name0 result w).log
        = w.log
          ++ (if w.self.need_publish
              then [Call.publish_group (env.build_object_path w.self.name)] else [])
          ++ x
      ∧ ∀ c ∈ x, is_publish_group c = false := by
    cases result with
    | error message =>
      refine ⟨[Call.message
        ("Failed to update LVM volume group " ++ w.self.name ++ ": " ++ message)], ?_, ?_⟩
      · simp only [update_with_variant, (publish_if_needed_frame env _).2.2.2]
      · intro c hc
        rw [List.mem_singleton.mp hc]; rfl
    | ok info => exact update_ok_tail env name0 info w
  obtain ⟨x, hlog, hx⟩ := hshape
  cases hn : w.self.need_publish with
  | true =>
    rw [hn] at hlog
    refine published_once_publish w _ x (env.build_object_path w.self.name) hK hn hnp ?_ hx
    rw [hlog]
    simp
  | false =>
    rw [hn] at hlog
    refine published_once_extend w _ x hK (hnp.trans hn.symm) ?_ hx ?_
    · rw [hlog]
      simp
    · intro h
      rw [hn] at h
      exact Bool.noConfusion h

theorem poll_iteration_shape (blocks : List UlBlock) (st : PollLoop) (r : Dict) :
    ∃ x, (poll_iteration blocks st r).log = st.log ++ x
      ∧ (∀ c ∈ x, is_publish_group c = false)
      ∧ (st.logical_volumes = [] → (poll_iteration blocks st r).logical_volumes = [] ∧ x = []) := by
  unfold poll_iteration
  cases lookup_name r st.name with
  | none => exact ⟨[], by simp, by simp, fun h => ⟨h, rfl⟩⟩
  | some n =>
    simp only
    cases hl : g_hash_table_lookup st.logical_volumes n with
    | none => exact ⟨[], by simp, by simp, fun h => ⟨h, rfl⟩⟩
    | some v =>
      refine ⟨_, rfl, ?_, ?_⟩
      · intro c hc
        split at hc
        · rw [List.mem_singleton.mp hc]; rfl
        · exact absurd hc (List.not_mem_nil c)
      · intro h
        rw [h] at hl
        simp [g_hash_table_lookup] at hl

theorem poll_loop_shape (blocks : List UlBlock) (st : PollLoop) (rs : List Dict) :
    ∃ x, (rs.foldl (poll_iteration blocks) st).log = st.log ++ x
      ∧ (∀ c ∈ x, is_publish_group c = false)
      ∧ (st.logical_volumes = [] →
          (rs.foldl (poll_iteration blocks) st).logical_volumes = [] ∧ x = []) := by
  induction rs generalizing st with
  | nil => exact ⟨[], by simp, by simp, fun h => ⟨h, rfl⟩⟩
  | cons r rs ih =>
    obtain ⟨x1, h1, h2, h3⟩ := poll_iteration_shape blocks st r
    obtain ⟨x2, g1, g2, g3⟩ := ih (poll_iteration blocks st r)
    refine ⟨x1 ++ x2, ?_, ?_, ?_⟩
    · rw [List.foldl_cons, g1, h1, List.append_assoc]
    · intro c hc
      rcases List.mem_append.mp hc with hc | hc
      · exact h2 c hc
      · exact g2 c hc
    · intro h
      obtain ⟨e1, e2⟩ := h3 h
      obtain ⟨f1, f2⟩ := g3 e1
      exact ⟨f1, by rw [e2, f2]; rfl⟩

theorem published_once_poll_result (env : Env) (name0 : Option String) (pid : Nat)
    (result : Except String Info) (w : World) (hK : published_once w) :
    published_once (poll_with_variant env name0 pid result w) := by
  unfold poll_with_variant
  split
  · exact hK
  · cases result with
    | error message =>
      refine published_once_extend w _ [Call.message
        ("Failed to poll LVM volume group " ++ w.self.name ++ ": " ++ message)] hK rfl rfl ?_ ?_
      · intro c hc
        rw [List.mem_singleton.mp hc]; rfl
      · intro hn
        refine ⟨(hK.2.2 hn).1, ?_⟩
        intro c hc
        rw [List.mem_singleton.mp hc]; rfl
    | ok info =>
      obtain ⟨x, h1, h2, h3⟩ := poll_loop_shape w.blocks
        { name := name0
          logical_volumes :=
            (volume_group_update_props env { w.self with poll_pid := 0 } info.props).logical_volumes
          jobs := w.jobs, log := w.log } (info.lvs.getD [])
      have hlv : (volume_group_update_props env { w.self with poll_pid := 0 }
          info.props).logical_volumes = w.self.logical_volumes :=
        (volume_group_update_props_frame env _ _).2.2.1
      have hnp : (volume_group_update_props env { w.self with poll_pid := 0 }
          info.props).need_publish = w.self.need_publish :=
        (volume_group_update_props_frame env _ _).2.1
      refine published_once_extend w _ x hK ?_ ?_ h2 ?_
      · simp only [poll_apply]
        exact hnp
      · simp only [poll_apply]
        exact h1
      · intro hn
        have h0 := (hK.2.2 hn).1
        obtain ⟨e1, e2⟩ := h3 (by simpa [hlv] using h0)
        refine ⟨?_, ?_⟩
        · simp only [poll_apply]
          exact e1
        · rw [e2]
          intro c hc
          exact absurd hc (List.not_mem_nil c)

theorem published_once_poll_now (timeout_id pid : Nat) (w : World) (hK : published_once w) :
    published_once (poll_now timeout_id pid w) := by
  refine published_once_extend w _
    ([Call.timeout_add 5000 timeout_id]
      ++ (if w.self.poll_pid ≠ 0 then [Call.kill w.self.poll_pid] else [])
      ++ [Call.spawn_poll pid]) hK rfl ?_ ?_ ?_
  · simp [poll_now, List.append_assoc]
  · intro c hc
    simp only [List.mem_append, List.mem_singleton] at hc
    rcases hc with (rfl | hc) | rfl
    · rfl
    · split at hc
      · rw [List.mem_singleton.mp hc]; rfl
      · exact absurd hc (List.not_mem_nil c)
    · rfl
  · intro hn
    refine ⟨(hK.2.2 hn).1, ?_⟩
    intro c hc
    simp only [List.mem_append, List.mem_singleton] at hc
    rcases hc with (rfl | hc) | rfl
    · rfl
    · split at hc
      · rw [List.mem_singleton.mp hc]; rfl
      · exact absurd hc (List.not_mem_nil c)
    · rfl

theorem published_once_fields (w w' : World) (hK : published_once w)
    (h1 : w'.self.need_publish = w.self.need_publish)
    (h2 : w'.self.logical_volumes = w.self.logical_volumes) (h3 : w'.log = w.log) :
    published_once w' := by
  refine published_once_extend w w' [] hK h1 (by rw [h3, List.append_nil]) (by simp) ?_
  intro hn
  exact ⟨h2.trans (hK.2.2 hn).1, by simp⟩

theorem published_once_run (env : Env) (w : World) (handler : Handler)
    (hK : published_once w) : published_once (handler.run env w) := by
  cases handler with
  | update name0 result => exact published_once_update env name0 result w hK
  | poll_result name0 pid result => exact published_once_poll_result env name0 pid result w hK
  | poll timeout_id pid =>
    simp only [Handler.run, poll_in_main]
    split
    · exact published_once_fields w _ hK rfl rfl rfl
    · exact published_once_poll_now timeout_id pid w hK
  | timeout timeout_id pid =>
    simp only [Handler.run, poll_timeout]
    split
    · exact published_once_poll_now timeout_id pid _
        (published_once_fields w _ hK rfl rfl rfl)
    · exact published_once_fields w _ hK rfl rfl rfl
  | start_update pid =>
    refine published_once_extend w _ [Call.spawn_update pid] hK rfl rfl ?_ ?_
    · intro c hc
      rw [List.mem_singleton.mp hc]; rfl
    · intro hn
      refine ⟨(hK.2.2 hn).1, ?_⟩
      intro c hc
      rw [List.mem_singleton.mp hc]; rfl

theorem published_once_handlers (env : Env) (w : World) (handlers : List Handler)
    (hK : published_once w) : published_once (handlers.foldl (Handler.run env) w) := by
  induction handlers generalizing w with
  | nil => exact hK
  | cons handler handlers ih => exact ih _ (published_once_run env w handler hK)

theorem need_publish_stays_cleared (env : Env) (w : World) (handler : Handler)
    (h : w.self.need_publish = false) : (handler.run env w).self.need_publish = false := by
  cases handler with
  | update name0 result => exact update_need_publish env name0 result w
  | poll_result name0 pid result =>
    simp only [Handler.run, poll_with_variant]
    split
    · exact h
    · cases result with
      | error message => exact h
      | ok info =>
        simp only [poll_apply]
        exact ((volume_group_update_props_frame env _ _).2.1).trans h
  | poll timeout_id pid =>
    simp only [Handler.run, poll_in_main, poll_now]
    split <;> exact h
  | timeout timeout_id pid =>
    simp only [Handler.run, poll_timeout, poll_now]
    split <;> exact h
  | start_update pid => exact h

/-- C13: after any sequence of handlers on a fresh group, the group has been
published once when `need_publish` is cleared and never when it is set, so at
most once, and every creation or publication of a logical volume comes after
the publication of the group; no handler sets `need_publish` again; and an
`update_with_variant` on a group that needs publishing publishes the group as
its first call, and once. -/
theorem group_published_once (env : Env) (name : String) (jobs : List UDisksJob)
    (blocks : List UlBlock) (handlers : List Handler) :
    (run_handlers env name jobs blocks handlers).log.countP is_publish_group
        = (if (run_handlers env name jobs blocks handlers).self.need_publish then 0 else 1)
      ∧ (run_handlers env name jobs blocks handlers).log.countP is_publish_group ≤ 1
      ∧ (∀ a c b, (run_handlers env name jobs blocks handlers).log = a ++ c :: b →
          is_volume_call c = true → ∃ path, Call.publish_group path ∈ a)
      ∧ (∀ (w : World) (handler : Handler), w.self.need_publish = false →
          (handler.run env w).self.need_publish = false)
      ∧ (∀ (w : World) (name0 : Option String) (result : Except String Info),
          w.self.need_publish = true →
          ∃ x, (update_with_variant env name0 result { w with log := [] }).log
              = Call.publish_group (env.build_object_path w.self.name) :: x
            ∧ ∀ c ∈ x, is_publish_group c = false) := by
  have hinit : published_once
      { self := ul_volume_group_init name, jobs := jobs, blocks := blocks, log := [] } :=
    ⟨rfl, rfl, fun _ => ⟨rfl, fun c hc => absurd hc (List.not_mem_nil c)⟩⟩
  obtain ⟨h1, h2, _⟩ := published_once_handlers env _ handlers hinit
  refine ⟨h1, ?_, ?_, need_publish_stays_cleared env, ?_⟩
  · unfold run_handlers
    rw [h1]
    split <;> decide
  · intro a c b hl hc
    exact group_first_split _ a b c h2 hl hc
  · intro w name0 result hn
    cases result with
    | error message =>
      refine ⟨[Call.message
        ("Failed to update LVM volume group " ++ w.self.name ++ ": " ++ message)], ?_, ?_⟩
      · simp [update_with_variant, (publish_if_needed_frame env _).2.2.2, hn]
      · intro c hc
        rw [List.mem_singleton.mp hc]; rfl
    | ok info =>
      obtain ⟨x, hx1, hx2⟩ := update_ok_tail env name0 info { w with log := [] }
      refine ⟨x, ?_, hx2⟩
      rw [hx1]
      simp [hn]

/-- The handlers `handlers0` on the fresh group `vg0`: the failed fetch
publishes the group, the next fetch creates and publishes `A` and `B`. -/
theorem group_published_once_witness :
    (run_handlers env0 "vg0" [] [] handlers0).log.countP is_publish_group ≤ 1
      ∧ (run_handlers env0 "vg0" [] [] handlers0).log
        = [Call.timeout_add 5000 1, Call.spawn_poll 10,
            Call.publish_group "/org/freedesktop/UDisks2/lvm/vg0",
            Call.message "Failed to update LVM volume group vg0: helper failed",
            Call.new_volume "A", Call.publish_volume "A",
            Call.new_volume "B", Call.publish_volume "B"]
      ∧ world_ab.self.need_publish = false
      ∧ ((Handler.poll 1 10).run env0 world_ab).self.need_publish = false
      ∧ world0.self.need_publish = true
      ∧ ∃ x, (update_with_variant env0 none
            (Except.ok (snapshot [lv_record "A" 1, lv_record "B" 2]))
            { world0 with log := [] }).log
          = Call.publish_group (env0.build_object_path world0.self.name) :: x
        ∧ ∀ c ∈ x, is_publish_group c = false :=
  have t := group_published_once env0 "vg0" [] [] handlers0
  ⟨t.2.1, by decide, by decide, t.2.2.2.1 world_ab (Handler.poll 1 10) (by decide), by decide,
    t.2.2.2.2 world0 none (Except.ok (snapshot [lv_record "A" 1, lv_record "B" 2]))
      (by decide)⟩

/-- C17: `handle_add_device` answers with an error and does nothing else when
the object path is not that of a known block and when the block is not unused;
it wipes the device only for a known, unused block, and launches the job, which
runs `vgextend` with the name of the group and the device, exactly when the
block is known and unused and the wipe succeeded. -/
theorem add_device_preconditions (ops : BlockOps) (blocks : List UlBlock)
    (self : UlVolumeGroup) (invocation : Nat) (path : String) :
    (ul_daemon_find_thing blocks path = none →
        handle_add_device ops blocks self invocation path
          = [Action.return_error invocation "The given object is not a valid block"])
      ∧ (∀ block error, ul_daemon_find_thing blocks path = some block →
          ops.ul_block_is_unused block = Except.error error →
          handle_add_device ops blocks self invocation path
            = [Action.take_error invocation error])
      ∧ (∀ device, Action.wipe_block device ∈ handle_add_device ops blocks self invocation path
          ↔ ∃ block, ul_daemon_find_thing blocks path = some block
              ∧ ops.ul_block_is_unused block = Except.ok () ∧ device = block.device)
      ∧ (∀ operation inv argv,
          Action.launch_spawned_job operation inv argv
              ∈ handle_add_device ops blocks self invocation path
          ↔ ∃ block, ul_daemon_find_thing blocks path = some block
              ∧ ops.ul_block_is_unused block = Except.ok ()
              ∧ ops.ul_util_wipe_block block.device = Except.ok ()
              ∧ operation = "lvm-vg-add-device" ∧ inv = invocation
              ∧ argv = ["vgextend", self.name, block.device]) := by
  unfold handle_add_device
  cases hf : ul_daemon_find_thing blocks path with
  | none => simp
  | some block =>
    cases hu : ops.ul_block_is_unused block with
    | error e =>
      refine ⟨fun h => Option.noConfusion h, ?_, ?_, ?_⟩
      · intro b e' hb he'
        cases hb
        rw [hu] at he'
        cases he'
        simp [hu]
      · intro device
        simp [hu]
      · intro operation inv argv
        simp [hu]
    | ok u =>
      have hno : ∀ (b : UlBlock) (e' : String), some block = some b →
          ops.ul_block_is_unused b = Except.error e' → False := by
        intro b e' hb he'
        cases hb
        rw [hu] at he'
        cases he'
      cases hw : ops.ul_util_wipe_block block.device with
      | error e =>
        refine ⟨fun h => Option.noConfusion h, fun b e' hb he' => (hno b e' hb he').elim,
          ?_, ?_⟩
        · intro device
          simp [hu, hw, eq_comm]
        · intro operation inv argv
          simp [hu, hw]
      | ok v =>
        refine ⟨fun h => Option.noConfusion h, fun b e' hb he' => (hno b e' hb he').elim,
          ?_, ?_⟩
        · intro device
          simp [hu, hw, eq_comm]
        · intro operation inv argv
          simp [hu, hw, eq_comm]

/-- The group `vg0` asked to add an unknown object, the block `sdb1`, which is
in use, and the block `sda1`, which is unused. -/
theorem add_device_preconditions_witness :
    ul_daemon_find_thing [block_sda1, block_sdb1] "/org/freedesktop/UDisks2/block_devices/sdc"
        = none
      ∧ handle_add_device ops0 [block_sda1, block_sdb1] world0.self 7
          "/org/freedesktop/UDisks2/block_devices/sdc"
        = [Action.return_error 7 "The given object is not a valid block"]
      ∧ ul_daemon_find_thing [block_sda1, block_sdb1] block_sdb1.object_path = some block_sdb1
      ∧ ops0.ul_block_is_unused block_sdb1 = Except.error "Device is in use"
      ∧ handle_add_device ops0 [block_sda1, block_sdb1] world0.self 7 block_sdb1.object_path
        = [Action.take_error 7 "Device is in use"]
      ∧ Action.launch_spawned_job "lvm-vg-add-device" 7 ["vgextend", "vg0", "/dev/sda1"]
        ∈ handle_add_device ops0 [block_sda1, block_sdb1] world0.self 7 block_sda1.object_path
      ∧ handle_add_device ops0 [block_sda1, block_sdb1] world0.self 7 block_sda1.object_path
        = [Action.wipe_block "/dev/sda1",
            Action.launch_spawned_job "lvm-vg-add-device" 7 ["vgextend", "vg0", "/dev/sda1"]] :=
  have h1 : ul_daemon_find_thing [block_sda1, block_sdb1]
      "/org/freedesktop/UDisks2/block_devices/sdc" = none := by decide
  have h2 : ul_daemon_find_thing [block_sda1, block_sdb1] block_sdb1.object_path
      = some block_sdb1 := by decide
  have h3 : ops0.ul_block_is_unused block_sdb1 = Except.error "Device is in use" := rfl
  ⟨h1,
    (add_device_preconditions ops0 [block_sda1, block_sdb1] world0.self 7 _).1 h1,
    h2, h3,
    (add_device_preconditions ops0 [block_sda1, block_sdb1] world0.self 7 _).2.1
      block_sdb1 "Device is in use" h2 h3,
    ((add_device_preconditions ops0 [block_sda1, block_sdb1] world0.self 7
      block_sda1.object_path).2.2.2 _ _ _).mpr
      ⟨block_sda1, by decide, rfl, rfl, rfl, rfl, rfl⟩,
    by decide⟩

/-- C20: the data that `handle_remove_device` builds for the block `sda1` of
the group `vg0` have the device in `vgname` and nothing in `pvname`; the name of
the group, stored first, is overwritten. The job runs `vgreduce` with the
device alone, and `wipefs -a` without a device when asked to wipe. -/
theorem remove_device_loses_group_name :
    handle_remove_device [block_sda1] world0.self 7 block_sda1.object_path
        [("wipe", GVariant.b true)]
        = [Action.launch_threaded_job "lvm-vg-rem-device" 7
            { vgname := some "/dev/sda1", pvname := none, wipe := true }]
      ∧ volume_group_remdev_job_thread true
          { vgname := some "/dev/sda1", pvname := none, wipe := true }
        = [["vgreduce", "/dev/sda1"], ["wipefs", "-a"]]
      ∧ volume_group_remdev_job_thread true
          { vgname := some "vg0", pvname := some "/dev/sda1", wipe := true }
        = [["vgreduce", "vg0", "/dev/sda1"], ["wipefs", "-a", "/dev/sda1"]] := by
  decide

theorem update_with_variant_scheduler (env : Env) (name0 : Option String)
    (result : Except String Info) (w : World) :
    (update_with_variant env name0 result w).self.poll_requested = w.self.poll_requested
      ∧ (update_with_variant env name0 result w).self.poll_timeout_id
        = w.self.poll_timeout_id := by
  cases result with
  | error message =>
    simp only [update_with_variant, publish_if_needed]
    split <;> exact ⟨rfl, rfl⟩
  | ok info =>
    simp only [update_with_variant, publish_if_needed]
    split
    · exact ⟨(volume_group_update_props_frame env _ _).2.2.2.2.2.1,
        (volume_group_update_props_frame env _ _).2.2.2.2.1⟩
    · exact ⟨(volume_group_update_props_frame env _ _).2.2.2.2.2.1,
        (volume_group_update_props_frame env _ _).2.2.2.2.1⟩

theorem poll_with_variant_scheduler (env : Env) (name0 : Option String) (pid : Nat)
    (result : Except String Info) (w : World) :
    (poll_with_variant env name0 pid result w).self.poll_requested = w.self.poll_requested
      ∧ (poll_with_variant env name0 pid result w).self.poll_timeout_id
        = w.self.poll_timeout_id := by
  unfold poll_with_variant
  split
  · exact ⟨rfl, rfl⟩
  · cases result with
    | error message => exact ⟨rfl, rfl⟩
    | ok info =>
      simp only [poll_apply]
      exact ⟨(volume_group_update_props_frame env _ _).2.2.2.2.2.1,
        (volume_group_update_props_frame env _ _).2.2.2.2.1⟩

theorem request_armed_run (env : Env) (w : World) (handler : Handler)
    (h : request_armed w) : request_armed (handler.run env w) := by
  unfold request_armed at h ⊢
  cases handler with
  | update name0 result =>
    simp only [Handler.run]
    rw [(update_with_variant_scheduler env name0 result w).1,
      (update_with_variant_scheduler env name0 result w).2]
    exact h
  | poll_result name0 pid result =>
    simp only [Handler.run]
    rw [(poll_with_variant_scheduler env name0 pid result w).1,
      (poll_with_variant_scheduler env name0 pid result w).2]
    exact h
  | poll timeout_id pid =>
    simp only [Handler.run, poll_in_main]
    split
    · rename_i harmed
      exact fun _ => harmed
    · rename_i hidle
      intro hreq
      exact absurd (h hreq) hidle
  | timeout timeout_id pid =>
    simp only [Handler.run, poll_timeout]
    split
    · intro hreq
      simp [poll_now] at hreq
    · rename_i hreq
      intro hreq'
      exact absurd hreq' hreq
  | start_update pid => exact h

theorem request_armed_handlers (env : Env) (w : World) (handlers : List Handler)
    (h : request_armed w) : request_armed (handlers.foldl (Handler.run env) w) := by
  induction handlers generalizing w with
  | nil => exact h
  | cons handler handlers ih => exact ih _ (request_armed_run env w handler h)

/-- C22: after any sequence of handlers on a fresh group, a pending poll request
(`poll_requested`) comes with an armed timer (`poll_timeout_id` is not zero);
and `poll_timeout`, run while a request is pending, clears the request and
starts a fetch. -/
theorem pending_request_armed (env : Env) (name : String) (jobs : List UDisksJob)
    (blocks : List UlBlock) (handlers : List Handler) :
    ((run_handlers env name jobs blocks handlers).self.poll_requested = true →
        (run_handlers env name jobs blocks handlers).self.poll_timeout_id ≠ 0)
      ∧ (∀ (w : World) (timeout_id pid : Nat), w.self.poll_requested = true →
          (poll_timeout timeout_id pid w).self.poll_requested = false
            ∧ (poll_timeout timeout_id pid w).self.poll_pid = pid
            ∧ spawned ((poll_timeout timeout_id pid { w with log := [] }).log)
              = [{ pid := pid, callback := Callback.poll }]) := by
  refine ⟨?_, ?_⟩
  · exact request_armed_handlers env _ handlers (fun h => Bool.noConfusion h)
  · intro w timeout_id pid hreq
    refine ⟨?_, ?_, ?_⟩
    · simp [poll_timeout, hreq, poll_now]
    · simp [poll_timeout, hreq, poll_now]
    · simp only [poll_timeout, hreq, if_true, poll_now, List.nil_append]
      split <;> rfl

/-- Two poll requests on the fresh group `vg0`: the second is pending while the
timer 1 is armed, and the expiry of the timer starts the fetch 12. -/
theorem pending_request_armed_witness :
    (run_handlers env0 "vg0" [] [] handlers_pending).self.poll_requested = true
      ∧ (run_handlers env0 "vg0" [] [] handlers_pending).self.poll_timeout_id ≠ 0
      ∧ (run_handlers env0 "vg0" [] [] handlers_pending).self.poll_timeout_id = 1
      ∧ (poll_timeout 3 12
          (run_handlers env0 "vg0" [] [] handlers_pending)).self.poll_requested = false
      ∧ spawned ((poll_timeout 3 12
          { run_handlers env0 "vg0" [] [] handlers_pending with log := [] }).log)
        = [{ pid := 12, callback := Callback.poll }] :=
  have h : (run_handlers env0 "vg0" [] [] handlers_pending).self.poll_requested = true := by
    decide
  have t := pending_request_armed env0 "vg0" [] [] handlers_pending
  ⟨h, t.1 h, by decide,
    (t.2 (run_handlers env0 "vg0" [] [] handlers_pending) 3 12 h).1,
    (t.2 (run_handlers env0 "vg0" [] [] handlers_pending) 3 12 h).2.2⟩

theorem mem_of_lookup {V : Type} (t : List (String × V)) (k : String) (v : V)
    (h : g_hash_table_lookup t k = some v) : (k, v) ∈ t := by
  induction t with
  | nil => simp [g_hash_table_lookup] at h
  | cons e t ih =>
    obtain ⟨k', w⟩ := e
    simp only [g_hash_table_lookup] at h
    by_cases hk : k' = k
    · simp only [hk, if_true, Option.some.injEq] at h
      rw [hk, h]
      exact List.mem_cons_self _ _
    · simp only [hk, if_false] at h
      exact List.mem_cons_of_mem _ (ih h)

theorem mem_insert {V : Type} (t : List (String × V)) (k : String) (v : V) (e : String × V)
    (h : e ∈ g_hash_table_insert t k v) : e ∈ t ∨ e.2 = v := by
  induction t with
  | nil =>
    simp only [g_hash_table_insert, List.mem_singleton] at h
    exact Or.inr (by rw [h])
  | cons e' t ih =>
    obtain ⟨k', w⟩ := e'
    simp only [g_hash_table_insert] at h
    by_cases hk : k' = k
    · simp only [hk, if_true, List.mem_cons] at h
      rcases h with h | h
      · exact Or.inr (by rw [h])
      · exact Or.inl (List.mem_cons_of_mem _ h)
    · simp only [hk, if_false, List.mem_cons] at h
      rcases h with h | h
      · exact Or.inl (by rw [h]; exact List.mem_cons_self _ _)
      · rcases ih h with h | h
        · exact Or.inl (List.mem_cons_of_mem _ h)
        · exact Or.inr h

theorem all_published_insert (t : List (String × UlLogicalVolume)) (k : String)
    (v : UlLogicalVolume) (d : Dict) (h : all_published t) :
    all_published (g_hash_table_insert t k (ul_logical_volume_update v d)) := by
  intro e he
  rcases mem_insert _ _ _ e he with he | he
  · exact h e he
  · rw [he]; rfl

theorem all_published_reconcile (t : List (String × UlLogicalVolume))
    (ps : List (String × Dict)) (h : all_published t) :
    all_published (ps.foldl reconcile_volume t) := by
  induction ps generalizing t with
  | nil => exact h
  | cons p ps ih => exact ih _ (all_published_insert t p.1 _ p.2 h)

theorem poll_iteration_entities (blocks : List UlBlock) (st : PollLoop) (r : Dict) :
    keys (poll_iteration blocks st r).logical_volumes = keys st.logical_volumes
      ∧ ∃ x, (poll_iteration blocks st r).log = st.log ++ x
        ∧ (∀ c ∈ x, ∃ n, c = Call.publish_volume n)
        ∧ (all_published st.logical_volumes →
            x = [] ∧ all_published (poll_iteration blocks st r).logical_volumes) := by
  unfold poll_iteration
  cases lookup_name r st.name with
  | none => exact ⟨rfl, [], by simp, by simp, fun h => ⟨rfl, h⟩⟩
  | some n =>
    simp only
    cases hl : g_hash_table_lookup st.logical_volumes n with
    | none => exact ⟨rfl, [], by simp, by simp, fun h => ⟨rfl, h⟩⟩
    | some v =>
      have hmem := mem_of_lookup _ _ _ hl
      have hk : n ∈ keys st.logical_volumes := List.mem_map.mpr ⟨(n, v), hmem, rfl⟩
      refine ⟨by simp only [keys_insert, if_pos hk], _, rfl, ?_, ?_⟩
      · intro c hc
        split at hc
        · exact ⟨n, List.mem_singleton.mp hc⟩
        · exact absurd hc (List.not_mem_nil c)
      · intro h
        have hv : v.need_publish = false := h (n, v) hmem
        exact ⟨by simp [hv], all_published_insert _ n v r h⟩

theorem poll_loop_entities (blocks : List UlBlock) (st : PollLoop) (rs : List Dict) :
    keys (rs.foldl (poll_iteration blocks) st).logical_volumes = keys st.logical_volumes
      ∧ ∃ x, (rs.foldl (poll_iteration blocks) st).log = st.log ++ x
        ∧ (∀ c ∈ x, ∃ n, c = Call.publish_volume n)
        ∧ (all_published st.logical_volumes →
            x = [] ∧ all_published (rs.foldl (poll_iteration blocks) st).logical_volumes) := by
  induction rs generalizing st with
  | nil => exact ⟨rfl, [], by simp, by simp, fun h => ⟨rfl, h⟩⟩
  | cons r rs ih =>
    obtain ⟨hk1, x1, h1, h2, h3⟩ := poll_iteration_entities blocks st r
    obtain ⟨hk2, x2, g1, g2, g3⟩ := ih (poll_iteration blocks st r)
    refine ⟨by rw [List.foldl_cons, hk2, hk1], x1 ++ x2, ?_, ?_, ?_⟩
    · rw [List.foldl_cons, g1, h1, List.append_assoc]
    · intro c hc
      rcases List.mem_append.mp hc with hc | hc
      · exact h2 c hc
      · exact g2 c hc
    · intro h
      obtain ⟨e1, e2⟩ := h3 h
      obtain ⟨f1, f2⟩ := g3 e2
      exact ⟨by rw [e1, f1]; rfl, f2⟩

theorem all_published_run (env : Env) (w : World) (handler : Handler)
    (h : all_published w.self.logical_volumes) :
    all_published (handler.run env w).self.logical_volumes := by
  cases handler with
  | update name0 result =>
    cases result with
    | error message =>
      simp only [Handler.run, update_with_variant]
      rw [(publish_if_needed_frame env _).1]
      exact h
    | ok info =>
      simp only [Handler.run]
      rw [update_ok_volumes]
      intro e he
      exact all_published_reconcile _ _ h e ((mem_kept_volumes _ _ e).mp he).1
  | poll_result name0 pid result =>
    simp only [Handler.run, poll_with_variant]
    split
    · exact h
    · cases result with
      | error message => exact h
      | ok info =>
        simp only [poll_apply]
        refine ((poll_loop_entities w.blocks _ _).2.choose_spec.2.2 ?_).2
        simp only [(volume_group_update_props_frame env _ _).2.2.1]
        exact h
  | poll timeout_id pid =>
    simp only [Handler.run, poll_in_main, poll_now]
    split <;> exact h
  | timeout timeout_id pid =>
    simp only [Handler.run, poll_timeout, poll_now]
    split <;> exact h
  | start_update pid => exact h

theorem all_published_handlers (env : Env) (w : World) (handlers : List Handler)
    (h : all_published w.self.logical_volumes) :
    all_published (handlers.foldl (Handler.run env) w).self.logical_volumes := by
  induction handlers generalizing w with
  | nil => exact h
  | cons handler handlers ih => exact ih _ (all_published_run env w handler h)

/-- C21: `poll_with_variant` leaves the keys of `logical_volumes` and
`need_publish` as they are, whatever the state, the pid and the result. The only
calls it makes are the warning of a failed fetch and the publication of a volume
of the table by `ul_logical_volume_update`; it makes none of the latter when the
volumes of the table are published already, which is the case after any
sequence of handlers on a fresh group. -/
theorem poll_keeps_entities (env : Env) (name0 : Option String) (pid : Nat)
    (result : Except String Info) (w : World) :
    keys (poll_with_variant env name0 pid result w).self.logical_volumes
        = keys w.self.logical_volumes
      ∧ (poll_with_variant env name0 pid result w).self.need_publish = w.self.need_publish
      ∧ (∀ c ∈ (poll_with_variant env name0 pid result { w with log := [] }).log,
          (∃ text, c = Call.message text) ∨ ∃ n, c = Call.publish_volume n)
      ∧ (all_published w.self.logical_volumes →
          ∀ c ∈ (poll_with_variant env name0 pid result { w with log := [] }).log,
            ∃ text, c = Call.message text)
      ∧ (∀ name jobs blocks handlers,
          all_published (run_handlers env name jobs blocks handlers).self.logical_volumes) := by
  have hinit : ∀ name : String, all_published (ul_volume_group_init name).logical_volumes :=
    fun name e he => absurd he (List.not_mem_nil e)
  refine ⟨?_, ?_, ?_, ?_, fun name jobs blocks handlers =>
    all_published_handlers env _ handlers (hinit name)⟩
  · unfold poll_with_variant
    split
    · rfl
    · cases result with
      | error message => rfl
      | ok info =>
        simp only [poll_apply]
        rw [(poll_loop_entities w.blocks _ _).1,
          (volume_group_update_props_frame env _ _).2.2.1]
  · unfold poll_with_variant
    split
    · rfl
    · cases result with
      | error message => rfl
      | ok info =>
        simp only [poll_apply]
        exact (volume_group_update_props_frame env _ _).2.1
  · intro c hc
    unfold poll_with_variant at hc
    split at hc
    · exact absurd hc (List.not_mem_nil c)
    · cases result with
      | error message =>
        simp only [poll_apply, List.nil_append, List.mem_singleton] at hc
        exact Or.inl ⟨_, hc⟩
      | ok info =>
        simp only [poll_apply] at hc
        obtain ⟨_, x, hx, hx2, _⟩ := poll_loop_entities w.blocks
          { name := name0
            logical_volumes := (volume_group_update_props env { w.self with poll_pid := 0 }
              info.props).logical_volumes
            jobs := w.jobs, log := [] } (info.lvs.getD [])
        rw [hx, List.nil_append] at hc
        exact Or.inr (hx2 c hc)
  · intro hall c hc
    unfold poll_with_variant at hc
    split at hc
    · exact absurd hc (List.not_mem_nil c)
    · cases result with
      | error message =>
        simp only [poll_apply, List.nil_append, List.mem_singleton] at hc
        exact ⟨_, hc⟩
      | ok info =>
        simp only [poll_apply] at hc
        obtain ⟨_, x, hx, _, hx3⟩ := poll_loop_entities w.blocks
          { name := name0
            logical_volumes := (volume_group_update_props env { w.self with poll_pid := 0 }
              info.props).logical_volumes
            jobs := w.jobs, log := [] } (info.lvs.getD [])
        have hx0 : x = [] :=
          (hx3 (by simpa only [(volume_group_update_props_frame env _ _).2.2.1] using hall)).1
        rw [hx, hx0] at hc
        exact absurd hc (List.not_mem_nil c)

/-- The result of a poll that lists `A` with a new size and a volume `C`,
applied to the group with the volumes `A` and `B`: the keys stay `A` and `B`,
the record of `A` is applied, and no call is made. -/
theorem poll_keeps_entities_witness :
    all_published world_ab.self.logical_volumes
      ∧ keys (poll_with_variant env0 none 0
          (Except.ok (snapshot [lv_record "A" 3, lv_record "C" 4])) world_ab).self.logical_volumes
        = keys world_ab.self.logical_volumes
      ∧ (poll_with_variant env0 none 0
          (Except.ok (snapshot [lv_record "A" 3, lv_record "C" 4])) world_ab).self.logical_volumes
        = [("A", { info := lv_record "A" 3, need_publish := false }),
            ("B", { info := lv_record "B" 2, need_publish := false })]
      ∧ (poll_with_variant env0 none 0
          (Except.ok (snapshot [lv_record "A" 3, lv_record "C" 4]))
          { world_ab with log := [] }).log = []
      ∧ ∀ c ∈ (poll_with_variant env0 none 0
          (Except.ok (snapshot [lv_record "A" 3, lv_record "C" 4]))
          { world_ab with log := [] }).log, ∃ text, c = Call.message text :=
  have h : all_published world_ab.self.logical_volumes := by
    intro e he
    have hm : e ∈ [(("A", { info := lv_record "A" 1, need_publish := false }) :
        String × UlLogicalVolume), ("B", { info := lv_record "B" 2, need_publish := false })] :=
      he
    simp only [List.mem_cons, List.mem_singleton, List.not_mem_nil, or_false] at hm
    rcases hm with rfl | rfl <;> rfl
  have t := poll_keeps_entities env0 none 0
    (Except.ok (snapshot [lv_record "A" 3, lv_record "C" 4])) world_ab
  ⟨h, t.1, by decide, by decide, t.2.2.2.1 h⟩

/-- C23: of the three create methods only `handle_create_plain_volume` passes
the size rounded down to a multiple of 512 to `lvcreate`;
`handle_create_thin_pool_volume` and `handle_create_thin_volume` pass the
remainder of the size modulo 512. For a size of 1000 the first passes 512 and
the other two pass 488. -/
theorem thin_size_is_remainder (encode : String → String) (volumes : List (String × String))
    (self : UlVolumeGroup) (self_object invocation wait_sig : Nat) (name pool_path pool : String)
    (s : Nat) :
    (handle_create_plain_volume encode self self_object invocation wait_sig name s 0 0).actions
        = [Action.launch_spawned_job "lvm-vg-create-volume" invocation
            ["lvcreate", self.name, "-L" ++ toString (s - s % 512) ++ "b", "-n", encode name]]
      ∧ (s - s % 512) % 512 = 0 ∧ s - s % 512 ≤ s ∧ s < s - s % 512 + 512
      ∧ (handle_create_thin_pool_volume encode self self_object invocation wait_sig name
          s).actions
        = [Action.launch_spawned_job "lvm-vg-create-volume" invocation
            ["lvcreate", self.name, "-T", "-L", toString (s % 512) ++ "b", "--thinpool",
              encode name]]
      ∧ (handle_create_thin_volume encode ((pool_path, pool) :: volumes) self self_object
          invocation wait_sig name s pool_path).actions
        = [Action.launch_spawned_job "lvm-vg-create-volume" invocation
            ["lvcreate", self.name, "--thinpool", pool, "-V", toString (s % 512) ++ "b", "-n",
              encode name]]
      ∧ (handle_create_plain_volume (fun n => n) world0.self 0 7 3 "data" 1000 0 0).actions
        = [Action.launch_spawned_job "lvm-vg-create-volume" 7
            ["lvcreate", "vg0", "-L512b", "-n", "data"]]
      ∧ (handle_create_thin_pool_volume (fun n => n) world0.self 0 7 3 "pool" 1000).actions
        = [Action.launch_spawned_job "lvm-vg-create-volume" 7
            ["lvcreate", "vg0", "-T", "-L", "488b", "--thinpool", "pool"]]
      ∧ (handle_create_thin_volume (fun n => n)
          [("/org/freedesktop/UDisks2/lvm/vg0/pool", "pool")] world0.self 0 7 3 "thin" 1000
          "/org/freedesktop/UDisks2/lvm/vg0/pool").actions
        = [Action.launch_spawned_job "lvm-vg-create-volume" 7
            ["lvcreate", "vg0", "--thinpool", "pool", "-V", "488b", "-n", "thin"]] := by
  refine ⟨?_, ?_, Nat.sub_le _ _, ?_, rfl, ?_, by decide, by decide, by decide⟩
  · simp [handle_create_plain_volume]
  · have h := Nat.div_add_mod s 512
    omega
  · have h := Nat.mod_lt s (by decide : 512 > 0)
    omega
  · simp [handle_create_thin_volume, g_hash_table_lookup]

end VolumeGroup
